import Mathlib

/-!
# Asteroid Avoidance: a shallow embedding of `main.c`

The controller decodes an infrared remote from edge timings, feeds button
events to a game mode machine, and runs a small falling-obstacle simulation.
This file embeds the decision-carrying parts of `main.c` as Lean functions on
an explicit record of the C globals and proves properties of them.

Conventions of the embedding
* C `int` values are `Int`; `uint64_t` / `uint32_t` values are `Nat` with an
  explicit `% 2 ^ 64` / `% 2 ^ 32` where the C operation can wrap.
* C arrays are lists. A read `a[i]` is `a.getD i 0`; writes are `List.set`.
  Where the source can index outside an array and the property depends on it
  (the timer handler), the function returns `Option` and `none` stands for the
  out-of-bounds access.
* `rand()` is a stream `rand : Nat → Nat` of non-negative results together with
  the counter `rand_calls` of draws already made; the `k`-th call returns
  `rand k`.
* Calls into the display, UART and network libraries write none of the
  variables in the record and are left out.
* Signed overflow is undefined in C. The one place where the source multiplies
  in a loop, `temp_milestone *= 10` in `checkScoreMilestones`, is modelled with
  an explicit check against `INT_MAX`: the function returns `none` when the
  product does not fit a 32-bit `int`. All other `int` arithmetic is on
  mathematical integers.
* The accelerometer is an input: `readAccelX()` and `readAccelY()` are the
  parameters `new_accel_x` and `new_accel_y` of the functions that read them.
-/

namespace AsteroidAvoidance

/-! ## Constants (`#define`s of `main.c`) -/

def MAX_ASTEROIDS : Nat := 5
def SCORE_MILESTONE_BASE : Int := 100
def MAX_ACTIVE_ASTEROIDS : Nat := 5
def NUM_ASTEROID_SLOTS : Nat := MAX_ACTIVE_ASTEROIDS
def ASTEROID_SPEED_SLOW : Int := 1
def ASTEROID_SPEED_MEDIUM : Int := 2
def ASTEROID_SPEED_FAST : Int := 3
def ASTEROID_SPEED_FASTEST : Int := 4
def SCREEN_WIDTH : Int := 128
def SCREEN_HEIGHT : Int := 128
def MAX_MSG_LEN : Nat := 128
def SYSCLKFREQ : Nat := 80000000
def SYSTICK_RELOAD_VAL : Nat := 3200000
def SHORT_PULSE_MIN : Int := 400
def SHORT_PULSE_MAX : Int := 600
def LONG_PULSE_MIN : Int := 1500
def LONG_PULSE_MAX : Int := 1700
def INT_MAX : Int := 2147483647

/-- The macro `TICKS_TO_US(ticks)`, evaluated in `unsigned long long`. -/
def TICKS_TO_US (ticks : Nat) : Nat :=
  ((((ticks / SYSCLKFREQ) * 1000000) % 2 ^ 64) +
    ((((ticks % SYSCLKFREQ) * 1000000) % 2 ^ 64) / SYSCLKFREQ)) % 2 ^ 64

/-- Conversion of an unsigned value to a 32-bit `int` (two's complement). -/
def toInt32 (n : Nat) : Int :=
  if n % 2 ^ 32 < 2 ^ 31 then ((n % 2 ^ 32 : Nat) : Int)
  else ((n % 2 ^ 32 : Nat) : Int) - 2 ^ 32

/-- Conversion of an `int` to a 32-bit unsigned value (`size_t` comparisons). -/
def toUInt32 (i : Int) : Nat := (i % 2 ^ 32).toNat

/-! ## Data model -/

/-- The C struct `Asteroid`. -/
structure Asteroid where
  x : Int
  y : Int
  dx : Int
  dy : Int
  radius : Int
  sides : Int
  speed : Int
deriving DecidableEq, Repr, Inhabited

/-- The C enum `GameState`. -/
inductive GameState where
  | GAME_STATE_START_SCREEN
  | GAME_STATE_PLAYING
  | GAME_STATE_GAME_OVER
  | GAME_STATE_WAITING_RESTART
deriving DecidableEq, Repr, Inhabited

/-- The global variables of `main.c` that the modelled functions read or write,
the function-local statics `accel_counter`, `cached_accel_x`, `cached_accel_y`
of `updateShipFromAccel`, and the number of `rand()` draws made so far. -/
structure World where
  asteroids : List Asteroid
  asteroid_slot_used : List Int
  asteroid_slot_x : List Int
  displayBuffer : List Char
  bufferIndex : Int
  MessageTx : List Char
  msgIndex : Int
  player_lives : Int
  player_score : Int
  ship_x : Int
  ship_y : Int
  ship_size : Int
  x_speed : Int
  y_speed : Int
  current_num_asteroids : Int
  last_milestone_reached : Int
  next_milestone : Int
  current_game_state : GameState
  IR_intflag : Nat
  edge : Int
  bit_count : Int
  decoded_sequence : Nat
  delta_ticks : Nat
  delta_us : Nat
  curButton : Int
  prevButton : Int
  pressCount : Int
  accel_counter : Int
  cached_accel_x : Int
  cached_accel_y : Int
  rand_calls : Nat
deriving DecidableEq

/-- The all-zero `Asteroid` (static storage is zero-initialised). -/
def Asteroid.zero : Asteroid :=
  { x := 0, y := 0, dx := 0, dy := 0, radius := 0, sides := 0, speed := 0 }

/-- The globals as their initialisers in `main.c` leave them at program start. -/
def bootWorld : World :=
  { asteroids := List.replicate MAX_ASTEROIDS Asteroid.zero
    asteroid_slot_used := List.replicate NUM_ASTEROID_SLOTS 0
    asteroid_slot_x := List.replicate NUM_ASTEROID_SLOTS 0
    displayBuffer := List.replicate MAX_MSG_LEN (Char.ofNat 0)
    bufferIndex := 0
    MessageTx := List.replicate MAX_MSG_LEN (Char.ofNat 0)
    msgIndex := 0
    player_lives := 3
    player_score := 0
    ship_x := SCREEN_WIDTH / 2
    ship_y := SCREEN_HEIGHT - 32
    ship_size := 10
    x_speed := 0
    y_speed := 0
    current_num_asteroids := 1
    last_milestone_reached := 0
    next_milestone := SCORE_MILESTONE_BASE
    current_game_state := GameState.GAME_STATE_START_SCREEN
    IR_intflag := 0
    edge := 1
    bit_count := 0
    decoded_sequence := 0
    delta_ticks := 0
    delta_us := 0
    curButton := -1
    prevButton := -1
    pressCount := 0
    accel_counter := 0
    cached_accel_x := 0
    cached_accel_y := 0
    rand_calls := 0 }

/-! ## Pulse classifier -/

/-- The function `decodePulse`: 1 for a short pulse, 0 for a long pulse,
-1 otherwise. -/
def decodePulse (timeElapsed : Int) : Int :=
  if SHORT_PULSE_MIN < timeElapsed ∧ timeElapsed < SHORT_PULSE_MAX then 1
  else if LONG_PULSE_MIN < timeElapsed ∧ timeElapsed < LONG_PULSE_MAX then 0
  else -1

/-! ## Spawn slots -/

/-- The function `initAsteroidSlots`. -/
def initAsteroidSlots (w : World) : World :=
  let slot_width : Int := SCREEN_WIDTH / (NUM_ASTEROID_SLOTS : Int)
  (List.range NUM_ASTEROID_SLOTS).foldl
    (fun w i =>
      { w with
        asteroid_slot_used := w.asteroid_slot_used.set i 0
        asteroid_slot_x := w.asteroid_slot_x.set i ((slot_width / 2) + (i : Int) * slot_width) })
    w

/-- First loop of `getFreeAsteroidSlot`: the indices of the free slots, in
increasing order. The list holds exactly the `count` initialised entries of the
local array `free_slots`. -/
def collectFreeSlots (used : List Int) : List Int :=
  (List.range NUM_ASTEROID_SLOTS).foldl
    (fun free_slots i => if used.getD i 0 = 0 then free_slots ++ [(i : Int)] else free_slots)
    []

/-- Second loop of `getFreeAsteroidSlot`, entered with loop variable `i`:
`for (; i > 0; i--) { j = rand() % (i + 1); swap(free_slots[i], free_slots[j]); }`.
Returns the array and the advanced draw counter. -/
def shuffleLoop (rand : Nat → Nat) : Nat → List Int → Nat → List Int × Nat
  | 0, free_slots, calls => (free_slots, calls)
  | i + 1, free_slots, calls =>
    let j := rand calls % (i + 1 + 1)
    let temp := free_slots.getD (i + 1) 0
    let free_slots := free_slots.set (i + 1) (free_slots.getD j 0)
    let free_slots := free_slots.set j temp
    shuffleLoop rand i free_slots (calls + 1)

/-- The function `getFreeAsteroidSlot`: the returned slot (or -1) and the world
after the call. -/
def getFreeAsteroidSlot (rand : Nat → Nat) (w : World) : Int × World :=
  let free_slots := collectFreeSlots w.asteroid_slot_used
  let count := free_slots.length
  if count = 0 then (-1, w)
  else
    let r := shuffleLoop rand (count - 1) free_slots w.rand_calls
    (r.1.getD 0 0, { w with rand_calls := r.2 })

/-- The function `setAsteroidSlotUsed`. -/
def setAsteroidSlotUsed (slot : Int) (used : Int) (w : World) : World :=
  if slot ≥ 0 ∧ slot < (NUM_ASTEROID_SLOTS : Int) then
    { w with asteroid_slot_used := w.asteroid_slot_used.set slot.toNat used }
  else w

def radius_options : List Int := [6, 8, 10, 12]

def speed_options : List Int :=
  [ASTEROID_SPEED_SLOW, ASTEROID_SPEED_MEDIUM, ASTEROID_SPEED_FAST, ASTEROID_SPEED_FASTEST]

/-- The function `spawnAsteroidInSlot`; the pointer `t` is `&asteroids[idx]`. -/
def spawnAsteroidInSlot (rand : Nat → Nat) (idx : Nat) (slot : Int) (w : World) : World :=
  let r := radius_options.getD (rand w.rand_calls % 4) 0
  let dy := speed_options.getD (rand (w.rand_calls + 1) % 4) 0
  let y := -r - 10
  let x := w.asteroid_slot_x.getD slot.toNat 0
  let dx := 0
  let w :=
    { w with
      rand_calls := w.rand_calls + 2
      asteroids :=
        w.asteroids.set idx { x := x, y := y, dx := dx, dy := dy, radius := r, sides := 4, speed := dy } }
  setAsteroidSlotUsed slot 1 w

/-- The function `initAsteroids`. -/
def initAsteroids (rand : Nat → Nat) (w : World) : World :=
  let w := initAsteroidSlots w
  let w :=
    { w with
      current_num_asteroids := 1
      last_milestone_reached := 0
      next_milestone := SCORE_MILESTONE_BASE }
  let w :=
    (List.range MAX_ASTEROIDS).foldl
      (fun w i => { w with asteroids := w.asteroids.set i Asteroid.zero }) w
  let w := spawnAsteroidInSlot rand 0 0 w
  setAsteroidSlotUsed 0 1 w

/-- The function `varInit`. -/
def varInit (rand : Nat → Nat) (w : World) : World :=
  let w :=
    { w with
      player_lives := 3
      player_score := 0
      ship_x := SCREEN_WIDTH / 2
      ship_y := SCREEN_HEIGHT - 32
      ship_size := 10
      x_speed := 0
      y_speed := 0 }
  initAsteroids rand w

/-! ## Button events -/

/-- The function `startGame`: it draws the start screen and fetches the high
score for display; none of the modelled globals is written. -/
def startGame (w : World) : World := w

/-- The function `onButtonPress`. -/
def onButtonPress (rand : Nat → Nat) (button : Int) (w : World) : World :=
  if button < 0 ∨ button ≥ 12 then w
  else
    match w.current_game_state with
    | GameState.GAME_STATE_START_SCREEN =>
      if button = 10 then
        let w := varInit rand w
        { w with current_game_state := GameState.GAME_STATE_PLAYING }
      else w
    | GameState.GAME_STATE_PLAYING =>
      if button ≥ 1 ∧ button ≤ 9 then w
      else if button = 10 then w
      else if button = 11 then { w with x_speed := 0, y_speed := 0 }
      else w
    | GameState.GAME_STATE_GAME_OVER =>
      startGame { w with current_game_state := GameState.GAME_STATE_START_SCREEN }
    | GameState.GAME_STATE_WAITING_RESTART =>
      startGame { w with current_game_state := GameState.GAME_STATE_START_SCREEN }

/-- The table `ir_map` of `matchSequence`: (32-bit code, button id). -/
def ir_map : List (Nat × Int) :=
  [(0xDF20F708, 0), (0xDF207788, 1), (0xDF20B748, 2), (0xDF2037C8, 3),
   (0xDF20D728, 4), (0xDF2057A8, 5), (0xDF209768, 6), (0xDF2017E8, 7),
   (0xDF20E718, 8), (0xDF206798, 9), (0xDF20AF50, 10), (0xDF20A758, 11)]

/-- The scan of `matchSequence` over the remaining table entries: the first
matching entry sets the button and breaks; without a match the button keeps its
value `cur`. -/
def scanIrMap : List (Nat × Int) → Nat → Int → Int
  | [], _, cur => cur
  | entry :: rest, decodedSequence, cur =>
    if entry.1 = decodedSequence then entry.2 else scanIrMap rest decodedSequence cur

/-- The function `matchSequence`. -/
def matchSequence (rand : Nat → Nat) (decodedSequence : Nat) (w : World) : World :=
  let w := { w with curButton := -1 }
  let w := { w with curButton := scanIrMap ir_map decodedSequence w.curButton }
  onButtonPress rand w.curButton w

/-! ## Simulation engine -/

/-- The search loop of `spawnNewAsteroidSafely` over the remaining pool
indices: the first index whose entry has radius 0, or -1. -/
def findUnusedAsteroid (asteroids : List Asteroid) : List Nat → Int
  | [] => -1
  | i :: rest =>
    if (asteroids.getD i Asteroid.zero).radius = 0 then (i : Int)
    else findUnusedAsteroid asteroids rest

/-- The function `spawnNewAsteroidSafely`: the returned value (1 when an
obstacle was spawned, 0 otherwise) and the world after the call. -/
def spawnNewAsteroidSafely (rand : Nat → Nat) (w : World) : Int × World :=
  let r := getFreeAsteroidSlot rand w
  let slot := r.1
  let w := r.2
  if slot = -1 then (0, w)
  else
    let asteroid_idx := findUnusedAsteroid w.asteroids (List.range MAX_ASTEROIDS)
    if asteroid_idx = -1 then (0, w)
    else (1, spawnAsteroidInSlot rand asteroid_idx.toNat slot w)

/-- The loop of `freeAsteroidSlotForAsteroid` over the remaining slot indices:
the first slot whose x-coordinate equals `x` is marked free, then `break`. -/
def freeSlotScan (x : Int) : List Nat → World → World
  | [], w => w
  | i :: rest, w =>
    if w.asteroid_slot_x.getD i 0 = x then setAsteroidSlotUsed (i : Int) 0 w
    else freeSlotScan x rest w

/-- The function `freeAsteroidSlotForAsteroid`; the pointer `t` is
`&asteroids[idx]`. -/
def freeAsteroidSlotForAsteroid (idx : Nat) (w : World) : World :=
  freeSlotScan (w.asteroids.getD idx Asteroid.zero).x (List.range NUM_ASTEROID_SLOTS) w

/-- The `while` loop of `checkScoreMilestones`:
`while (player_score >= temp_milestone) { milestone_level++; temp_milestone *= 10; }`.
Returns the final `(milestone_level, temp_milestone)`, or `none` when
`temp_milestone * 10` overflows a 32-bit `int`. The first argument bounds the
number of iterations; from `temp_milestone = 100` the overflow check stops the
loop after at most 8 iterations, so a bound of 16 is never exhausted. -/
def milestoneLoop : Nat → Int → Int → Int → Option (Int × Int)
  | 0, _, _, _ => none
  | fuel + 1, player_score, milestone_level, temp_milestone =>
    if player_score ≥ temp_milestone then
      if temp_milestone * 10 > INT_MAX then none
      else milestoneLoop fuel player_score (milestone_level + 1) (temp_milestone * 10)
    else some (milestone_level, temp_milestone)

/-- The function `checkScoreMilestones`; `none` when the milestone loop
overflows. -/
def checkScoreMilestones (rand : Nat → Nat) (w : World) : Option World :=
  if w.player_score ≥ w.next_milestone ∧
      w.current_num_asteroids < (MAX_ACTIVE_ASTEROIDS : Int) then
    match milestoneLoop 16 w.player_score 0 SCORE_MILESTONE_BASE with
    | none => none
    | some (milestone_level, temp_milestone) =>
      if milestone_level > w.last_milestone_reached then
        let r := spawnNewAsteroidSafely rand w
        let new_asteroids_spawned := r.1
        let w := r.2
        if new_asteroids_spawned > 0 then
          some
            { w with
              last_milestone_reached := milestone_level
              current_num_asteroids := w.current_num_asteroids + 1
              next_milestone := temp_milestone }
        else some w
      else some w
  else some w

/-- The function `updateShipFromAccel`, with each assigned variable as a
value: the accelerometer is read on every second call; a reading replaces the
cached one unless it is (0, 0) while a non-zero reading is cached; the speed is
the negated cached x-reading, zero inside the dead zone, clamped to -2..2.
The statics `debug_counter` and `last_movement_report` only select what is
reported and are left out. -/
def updateShipFromAccel (new_accel_x new_accel_y : Int) (w : World) : World :=
  let accel_counter := w.accel_counter + 1
  let cached_accel_x :=
    if accel_counter ≥ 2 then
      if new_accel_x ≠ 0 ∨ new_accel_y ≠ 0 ∨ (w.cached_accel_x = 0 ∧ w.cached_accel_y = 0) then
        new_accel_x
      else w.cached_accel_x
    else w.cached_accel_x
  let cached_accel_y :=
    if accel_counter ≥ 2 then
      if new_accel_x ≠ 0 ∨ new_accel_y ≠ 0 ∨ (w.cached_accel_x = 0 ∧ w.cached_accel_y = 0) then
        new_accel_y
      else w.cached_accel_y
    else w.cached_accel_y
  let accel_counter := if accel_counter ≥ 2 then 0 else accel_counter
  let x_speed_calc := cached_accel_x
  let deadzone : Int := 3
  let x_speed_calc :=
    if x_speed_calc > -deadzone ∧ x_speed_calc < deadzone then 0 else x_speed_calc
  let x_speed := -1 * x_speed_calc
  let y_speed : Int := 0
  let x_speed := if x_speed > 2 then 2 else x_speed
  let x_speed := if x_speed < -2 then -2 else x_speed
  { w with
    accel_counter := accel_counter
    cached_accel_x := cached_accel_x
    cached_accel_y := cached_accel_y
    x_speed := x_speed
    y_speed := y_speed }

/-- The ship part of `updatePositions`: the statements before the obstacle
loop. -/
def updateShipPosition (new_accel_x new_accel_y : Int) (w : World) : World :=
  let w1 := updateShipFromAccel new_accel_x new_accel_y w
  let ship_x := w1.ship_x + w1.x_speed
  let ship_x := if ship_x < 0 then SCREEN_WIDTH - 1 else ship_x
  let ship_x := if ship_x ≥ SCREEN_WIDTH then 0 else ship_x
  { w1 with ship_x := ship_x }

/-- The block of the obstacle loop of `updatePositions` that runs once obstacle
`i` is completely below the screen: release its slot, award the points, and
respawn into a free slot if there is one. `player_score` is a 32-bit `int`:
the sum `player_score + asteroid_points` is reduced to the `int` range (two's
complement), which is what the addition of the target produces when the sum
exceeds `INT_MAX`. -/
def retireAsteroid (rand : Nat → Nat) (i : Nat) (w : World) : World :=
  let w1 := freeAsteroidSlotForAsteroid i w
  let asteroid_points :=
    (w1.asteroids.getD i Asteroid.zero).radius * (w1.asteroids.getD i Asteroid.zero).speed
  let w2 : World :=
    { w1 with player_score := toInt32 (toUInt32 (w1.player_score + asteroid_points)) }
  let r := getFreeAsteroidSlot rand w2
  let slot := r.1
  if slot ≠ -1 then spawnAsteroidInSlot rand i slot r.2 else r.2

/-- The body of the obstacle loop of `updatePositions` for pool index `i`. -/
def updateAsteroid (rand : Nat → Nat) (w : World) (i : Nat) : World :=
  if (w.asteroids.getD i Asteroid.zero).radius = 0 then w
  else
    let a := w.asteroids.getD i Asteroid.zero
    let w1 : World := { w with asteroids := w.asteroids.set i { a with y := a.y + a.dy } }
    if (w1.asteroids.getD i Asteroid.zero).y - (w1.asteroids.getD i Asteroid.zero).radius
        > SCREEN_HEIGHT + 32 then
      retireAsteroid rand i w1
    else w1

/-- The function `updatePositions`; `none` when the milestone loop of the final
`checkScoreMilestones` overflows. -/
def updatePositions (rand : Nat → Nat) (new_accel_x new_accel_y : Int) (w : World) :
    Option World :=
  let w := updateShipPosition new_accel_x new_accel_y w
  let w := (List.range w.current_num_asteroids.toNat).foldl (updateAsteroid rand) w
  checkScoreMilestones rand w

/-- The collision test of `checkCollisions` for one obstacle:
`dist2 < min_dist * min_dist`. -/
def shipOverlaps (w : World) (a : Asteroid) : Prop :=
  let dx := w.ship_x - a.x
  let dy := w.ship_y - a.y
  let dist2 := dx * dx + dy * dy
  let ship_radius := Int.tdiv w.ship_size 2
  let asteroid_radius := a.radius
  let min_dist := ship_radius + asteroid_radius - 1
  dist2 < min_dist * min_dist

instance (w : World) (a : Asteroid) : Decidable (shipOverlaps w a) := by
  unfold shipOverlaps
  infer_instance

/-- The collision branch of `checkCollisions`: the statements executed once an
overlap is found, up to the `return`. -/
def registerCollision (rand : Nat → Nat) (w : World) : World :=
  let w := { w with player_lives := w.player_lives - 1 }
  if w.player_lives > 0 then
    let w :=
      { w with
        ship_x := SCREEN_WIDTH / 2
        ship_y := SCREEN_HEIGHT - 32
        x_speed := 0
        y_speed := 0 }
    initAsteroids rand w
  else w

/-- The loop of `checkCollisions` over the remaining pool indices. -/
def checkCollisionsFrom (rand : Nat → Nat) (w : World) : List Nat → World
  | [] => w
  | i :: rest =>
    if (w.asteroids.getD i Asteroid.zero).radius = 0 then checkCollisionsFrom rand w rest
    else if shipOverlaps w (w.asteroids.getD i Asteroid.zero) then registerCollision rand w
    else checkCollisionsFrom rand w rest

/-- The function `checkCollisions`. -/
def checkCollisions (rand : Nat → Nat) (w : World) : World :=
  checkCollisionsFrom rand w (List.range w.current_num_asteroids.toNat)

/-- All draw sequences of a shuffle entered with loop variable `i`: a draw `j`
in `0..i` for step `i`, followed by the draws of the steps `i - 1`, ..., 1. -/
def drawSeqs : Nat → List (List Nat)
  | 0 => [[]]
  | i + 1 => (List.range (i + 1 + 1)).flatMap (fun j => (drawSeqs i).map (fun d => j :: d))

/-- The `rand()` stream that, from draw number `start` on, returns the draws of
`d` in order. A draw for step `i` lies in `0..i`, so `rand() % (i + 1)` is the
draw itself. -/
def drawStream (d : List Nat) (start : Nat) : Nat → Nat :=
  fun k => d.getD (k - start) 0

/-- The value `getFreeAsteroidSlot` returns for the free-slot array `free` when
the draws are those of `d`, read from the start of the stream. -/
def slotOfDraws (free : List Int) (d : List Nat) : Int :=
  if free.length = 0 then -1
  else (shuffleLoop (drawStream d 0) (free.length - 1) free 0).1.getD 0 0

/-! ## Main loop: servicing the IR flag -/

/-- The IR part of one iteration of the loop in `main` (the block guarded by
`if (IR_intflag)`). The second component lists the arguments of the calls to
`matchSequence` made in this step (at most one). -/
def irStep (rand : Nat → Nat) (w : World) : World × List Nat :=
  if w.IR_intflag ≠ 0 then
    let w := { w with IR_intflag := 0 }
    if w.delta_ticks > 0 then
      let w := { w with delta_us := TICKS_TO_US w.delta_ticks }
      let bit_value := decodePulse (toInt32 w.delta_us)
      if bit_value = 1 ∨ bit_value = 0 then
        let w :=
          { w with
            bit_count := w.bit_count + 1
            decoded_sequence := ((w.decoded_sequence <<< 1) % 2 ^ 64) ||| bit_value.toNat }
        if w.bit_count = 32 then
          let arg := w.decoded_sequence % 2 ^ 32
          let w := matchSequence rand arg w
          ({ w with decoded_sequence := 0, bit_count := 0 }, [arg])
        else (w, [])
      else
        ({ w with decoded_sequence := 0, bit_count := 0 }, [])
    else (w, [])
  else (w, [])

/-- One serviced pulse: the edge interrupt has published the interval
`ticks` in `delta_ticks` and raised `IR_intflag`; the main loop then runs its
IR step. -/
def servicePulse (rand : Nat → Nat) (ticks : Nat) (w : World) : World × List Nat :=
  irStep rand { w with IR_intflag := 1, delta_ticks := ticks }

/-- A run of serviced pulses, with the `matchSequence` arguments of the whole
run in order. -/
def runPulses (rand : Nat → Nat) : List Nat → World → World × List Nat
  | [], w => (w, [])
  | ticks :: rest, w =>
    let r1 := servicePulse rand ticks w
    let r2 := runPulses rand rest r1.1
    (r2.1, r1.2 ++ r2.2)

/-- The classification of a measured interval of `ticks` timer ticks, as the
main loop computes it: `decodePulse(TICKS_TO_US(delta_ticks))`. -/
def pulseBit (ticks : Nat) : Int := decodePulse (toInt32 (TICKS_TO_US ticks))

/-- The accumulator after a run of valid pulses, as a fold. -/
def shiftBits (acc : Nat) (ds : List Nat) : Nat :=
  ds.foldl (fun a d => 2 * a + (pulseBit d).toNat) acc

/-- The word with the first received bit as most significant bit:
the sum of `b_i * 2 ^ (n - 1 - i)` over the `n` pulses of `ds`. -/
def msbFirstWord (ds : List Nat) : Nat :=
  ((List.range ds.length).map
    (fun i => (pulseBit (ds.getD i 0)).toNat * 2 ^ (ds.length - 1 - i))).sum

/-! ## Multi-tap text entry -/

/-- The table `keyMap`. -/
def keyMap : List String :=
  [" 0", "1", "ABC2", "DEF3", "GHI4", "JKL5", "MNO6", "PQRS7", "TUV8", "WXYZ9", "\x08", "\n"]

/-- The slot x-coordinates that `initAsteroidSlots` computes. -/
def slotXs : List Int := [12, 37, 62, 87, 112]

/-- An obstacle as `spawnAsteroidInSlot` creates it, up to its position. -/
def Asteroid.Live (a : Asteroid) : Prop :=
  a.radius ∈ [6, 8, 10, 12] ∧ a.dy ∈ [1, 2, 3, 4] ∧ a.speed = a.dy ∧ a.dx = 0

/-- The pool `asteroids` and the flags `used` are consistent for an active count
`c`, except possibly at pool index `k` (no exception when `k = c`): entries from
`c` on are unused; every entry below `c` other than `k` is live and sits at the
x-coordinate of a slot marked used; these entries have different x-coordinates;
the number of slots marked used is `c`, less one when the entry `k < c` is
excepted. -/
def PoolOK (asteroids : List Asteroid) (used : List Int) (c k : Nat) : Prop :=
  asteroids.length = 5 ∧ used.length = 5 ∧ c ≤ 5 ∧
  (∀ i : Nat, i < 5 → c ≤ i → (asteroids.getD i Asteroid.zero).radius = 0) ∧
  (∀ i : Nat, i < c → i ≠ k →
    (asteroids.getD i Asteroid.zero).Live ∧
    ∃ s : Nat, s < 5 ∧ (asteroids.getD i Asteroid.zero).x = slotXs.getD s 0 ∧
      used.getD s 0 ≠ 0) ∧
  (∀ i j : Nat, i < c → j < c → i ≠ k → j ≠ k →
    (asteroids.getD i Asteroid.zero).x = (asteroids.getD j Asteroid.zero).x → i = j) ∧
  used.countP (fun u => decide (u ≠ 0)) + (if k < c then 1 else 0) = c

/-- The invariant of the simulation state: the slots are laid out, the active
count `c` is between 1 and 5, and pool and slot flags are consistent for `c`. -/
def FieldInv (w : World) : Prop :=
  w.asteroid_slot_x = slotXs ∧
  ∃ c : Nat, w.current_num_asteroids = (c : Int) ∧ 1 ≤ c ∧
    PoolOK w.asteroids w.asteroid_slot_used c c

/-- The states reachable from `initAsteroids` (run on any state whose three
arrays have their declared length 5) through `updatePositions`,
`checkScoreMilestones` and `checkCollisions`, for any `rand()` results and
accelerometer readings. -/
inductive Reachable : World → Prop where
  | init (rand : Nat → Nat) (w : World) (h1 : w.asteroids.length = 5)
      (h2 : w.asteroid_slot_used.length = 5) (h3 : w.asteroid_slot_x.length = 5) :
      Reachable (initAsteroids rand w)
  | update (rand : Nat → Nat) (new_accel_x new_accel_y : Int) (w w2 : World)
      (h : Reachable w) (hstep : updatePositions rand new_accel_x new_accel_y w = some w2) :
      Reachable w2
  | milestones (rand : Nat → Nat) (w w2 : World)
      (h : Reachable w) (hstep : checkScoreMilestones rand w = some w2) : Reachable w2
  | collisions (rand : Nat → Nat) (w : World) (h : Reachable w) :
      Reachable (checkCollisions rand w)

/-- The world `w` with new values for the variables that the obstacle functions
write: the pool, the slot flags, the score and the position in the `rand()`
stream. -/
def World.withField (w : World) (asteroids : List Asteroid) (used : List Int) (score : Int)
    (calls : Nat) : World :=
  { w with
    asteroids := asteroids
    asteroid_slot_used := used
    player_score := score
    rand_calls := calls }

/-! ## Main loop: frame scheduling and round end -/

def TARGET_FPS : Nat := 45

/-- The constant `FRAME_DELAY_TICKS`: `SYSCLKFREQ / TARGET_FPS`. -/
def FRAME_DELAY_TICKS : Nat := SYSCLKFREQ / TARGET_FPS

/-- The function `endGame`; `awsHighScore` is the value `getHighScoreFromAWS()`
returns. With a new high score the score is printed into `MessageTx` and
posted, after which `awsMsg` resets `msgIndex` and clears `MessageTx`; the
buffer is modelled as `awsMsg` leaves it. The function ends by setting the mode
to `GAME_STATE_WAITING_RESTART`. -/
def endGame (awsHighScore : Int) (w : World) : World :=
  let w : World :=
    if w.player_score > awsHighScore then
      { w with msgIndex := 0, MessageTx := List.replicate MAX_MSG_LEN (Char.ofNat 0) }
    else w
  { w with current_game_state := GameState.GAME_STATE_WAITING_RESTART }

/-- The computation of `elapsed_ticks` in `main`, in 32-bit `unsigned long`
arithmetic, from the tick value `current_time` read from the down-counter and
the local `last_frame_time`. -/
def elapsedTicks (current_time last_frame_time : Nat) : Nat :=
  if current_time ≤ last_frame_time then (last_frame_time - current_time) % 2 ^ 32
  else ((SYSTICK_RELOAD_VAL + 2 ^ 32 - current_time) % 2 ^ 32 + last_frame_time) % 2 ^ 32

/-- The block of `main` that runs when a frame is due: `updatePositions`,
`checkCollisions`, (rendering,) and the transition to game over when no lives are
left. `none` when the milestone loop of `updatePositions` overflows. -/
def simulationFrame (rand : Nat → Nat) (new_accel_x new_accel_y awsHighScore : Int)
    (w : World) : Option World :=
  match updatePositions rand new_accel_x new_accel_y w with
  | none => none
  | some w1 =>
    let w2 := checkCollisions rand w1
    if w2.player_lives = 0 then
      some (endGame awsHighScore
        { w2 with current_game_state := GameState.GAME_STATE_GAME_OVER })
    else some w2

/-- The frame-scheduling part of one iteration of the loop in `main` (the block
guarded by `current_game_state == GAME_STATE_PLAYING`). `current_time` is the
value `SysTickValueGet()` returns; `last_frame_time` is the local variable of
`main`. Returns the world, the new `last_frame_time`, and whether the
simulation frame was executed in this iteration. -/
def mainLoopFrame (rand : Nat → Nat) (current_time : Nat)
    (new_accel_x new_accel_y awsHighScore : Int) (last_frame_time : Nat) (w : World) :
    Option (World × Nat × Bool) :=
  if w.current_game_state = GameState.GAME_STATE_PLAYING then
    let elapsed_ticks := elapsedTicks current_time last_frame_time
    if elapsed_ticks ≥ FRAME_DELAY_TICKS then
      match simulationFrame rand new_accel_x new_accel_y awsHighScore w with
      | none => none
      | some w2 => some (w2, current_time, true)
    else some (w, last_frame_time, false)
  else some (w, last_frame_time, false)

/-- Some active obstacle below the active count overlaps the ship: the
condition under which `checkCollisions` registers a collision. -/
def frameCollides (w : World) : Prop :=
  ∃ i : Nat, (i : Int) < w.current_num_asteroids ∧
    (w.asteroids.getD i Asteroid.zero).radius ≠ 0 ∧
    shipOverlaps w (w.asteroids.getD i Asteroid.zero)

/-- The states of a round, with the number `k` of frames so far in which a
collision was registered. A round starts with `varInit` and the mode set to
playing (the start button, on arrays of the declared length 5); a simulation
frame runs only while the mode is playing; between frames, button events may
arrive while the mode is playing. -/
inductive InRound : Nat → World → Prop where
  | start (rand : Nat → Nat) (w : World) (h1 : w.asteroids.length = 5)
      (h2 : w.asteroid_slot_used.length = 5) (h3 : w.asteroid_slot_x.length = 5) :
      InRound 0 { varInit rand w with current_game_state := GameState.GAME_STATE_PLAYING }
  | hit (rand : Nat → Nat) (new_accel_x new_accel_y awsHighScore : Int) (k : Nat)
      (w w1 w2 : World) (h : InRound k w)
      (hmode : w.current_game_state = GameState.GAME_STATE_PLAYING)
      (hupd : updatePositions rand new_accel_x new_accel_y w = some w1)
      (hcol : frameCollides w1)
      (hframe : simulationFrame rand new_accel_x new_accel_y awsHighScore w = some w2) :
      InRound (k + 1) w2
  | miss (rand : Nat → Nat) (new_accel_x new_accel_y awsHighScore : Int) (k : Nat)
      (w w1 w2 : World) (h : InRound k w)
      (hmode : w.current_game_state = GameState.GAME_STATE_PLAYING)
      (hupd : updatePositions rand new_accel_x new_accel_y w = some w1)
      (hcol : ¬ frameCollides w1)
      (hframe : simulationFrame rand new_accel_x new_accel_y awsHighScore w = some w2) :
      InRound k w2
  | press (rand : Nat → Nat) (button : Int) (k : Nat) (w : World) (h : InRound k w)
      (hmode : w.current_game_state = GameState.GAME_STATE_PLAYING) :
      InRound k (onButtonPress rand button w)

/-- A state near the upper end of the `int` range of the score: five active
obstacles, one per slot, the one in pool entry 0 (radius 12, speed tier 4) one
step before it moves below the screen, score 2147483642. -/
def scoreLimitState : World :=
  { bootWorld with
    asteroids :=
      [{ x := 12, y := 170, dx := 0, dy := 4, radius := 12, sides := 4, speed := 4 },
       { x := 37, y := 100, dx := 0, dy := 1, radius := 6, sides := 4, speed := 1 },
       { x := 62, y := 20, dx := 0, dy := 1, radius := 6, sides := 4, speed := 1 },
       { x := 87, y := 60, dx := 0, dy := 1, radius := 6, sides := 4, speed := 1 },
       { x := 112, y := 140, dx := 0, dy := 1, radius := 6, sides := 4, speed := 1 }]
    asteroid_slot_used := [1, 1, 1, 1, 1]
    asteroid_slot_x := [12, 37, 62, 87, 112]
    current_num_asteroids := 5
    last_milestone_reached := 4
    next_milestone := 1000000
    player_score := 2147483642
    current_game_state := GameState.GAME_STATE_PLAYING }

/-- Every active obstacle of the pool has radius 6 and speed 1, as
`spawnAsteroidInSlot` creates it when the `rand()` results are 0. -/
def SmallPool (asteroids : List Asteroid) : Prop :=
  ∀ i : Nat, (asteroids.getD i Asteroid.zero).radius ≠ 0 →
    (asteroids.getD i Asteroid.zero).radius = 6 ∧ (asteroids.getD i Asteroid.zero).dy = 1

/-- A state of a round that a player reaches by steering the ship to x = 52,
between the slot columns 37 and 62, when every `rand()` result is 0 (all
obstacles then have radius 6 and speed tier 1, too small to reach the ship from
either column): three lives, every active obstacle of radius 6 and speed 1 with
`-16 <= y <= 166`, the score within the `int` range, and the milestone state
after `j` milestones (count `j + 1`, with the score below the next threshold
while the count is below 5). -/
def CalmRound (w : World) : Prop :=
  FieldInv w ∧ w.current_game_state = GameState.GAME_STATE_PLAYING ∧ w.player_lives = 3 ∧
  w.ship_x = 52 ∧ w.ship_y = 96 ∧ w.ship_size = 10 ∧ w.cached_accel_x = 1 ∧
  SmallPool w.asteroids ∧
  (∀ i : Nat, (w.asteroids.getD i Asteroid.zero).radius ≠ 0 →
    -16 ≤ (w.asteroids.getD i Asteroid.zero).y ∧
    (w.asteroids.getD i Asteroid.zero).y ≤ 166) ∧
  (-2147483648 ≤ w.player_score ∧ w.player_score ≤ INT_MAX) ∧
  ∃ j : Nat, j ≤ 4 ∧ w.last_milestone_reached = (j : Int) ∧
    w.next_milestone = 100 * 10 ^ j ∧ w.current_num_asteroids = (j : Int) + 1 ∧
    (j < 4 → 0 ≤ w.player_score ∧ w.player_score < 100 * 10 ^ j)

/-- The first frames of a round started from the initial values of the globals,
every `rand()` result being 0: `updatePositions` with the accelerometer reading
x = 3 in the first seven frames (the ship moves left at speed 2 in frames 2 to 7)
and x = 1 from the eighth frame on (inside the dead zone: the ship stops). -/
def approachState : Nat → World
  | 0 =>
    { varInit (fun _ => 0) bootWorld with current_game_state := GameState.GAME_STATE_PLAYING }
  | n + 1 =>
    (updatePositions (fun _ => 0) (if n < 7 then 3 else 1) 0 (approachState n)).getD
      (approachState n)

/-! ## Helper lemmas: the IR accumulator -/

/-- A value classified as a bit is 0 or 1 as a natural number. -/
theorem pulseBit_toNat_le {d : Nat} (h : pulseBit d = 0 ∨ pulseBit d = 1) :
    (pulseBit d).toNat ≤ 1 := by
  rcases h with h | h <;> simp [h]

/-- Shifting a bit into an accumulator below `2 ^ 63` is `2 * acc + bit`. -/
theorem shift_in_bit (acc b : Nat) (hacc : acc < 2 ^ 63) (hb : b ≤ 1) :
    ((acc <<< 1) % 2 ^ 64) ||| b = 2 * acc + b := by
  have h1 : acc <<< 1 = 2 ^ 1 * acc := by rw [Nat.shiftLeft_eq]; ring
  have h2 : 2 ^ 1 * acc < 2 ^ 64 := by omega
  rw [h1, Nat.mod_eq_of_lt h2]
  have hb2 : b < 2 ^ 1 := by omega
  rw [← Nat.mul_add_lt_is_or hb2 acc]

theorem shiftBits_eq (ds : List Nat) :
    ∀ acc, shiftBits acc ds = acc * 2 ^ ds.length + msbFirstWord ds := by
  induction ds with
  | nil => intro acc; simp [shiftBits, msbFirstWord]
  | cons d rest ih =>
    intro acc
    have hstep : shiftBits acc (d :: rest) = shiftBits (2 * acc + (pulseBit d).toNat) rest := rfl
    have hsum : msbFirstWord (d :: rest)
        = (pulseBit d).toNat * 2 ^ rest.length + msbFirstWord rest := by
      unfold msbFirstWord
      simp only [List.length_cons, List.range_succ_eq_map, List.map_cons, List.sum_cons,
        List.map_map]
      congr 1
      apply congrArg List.sum
      apply List.map_congr_left
      intro i _
      simp only [Function.comp, Nat.succ_eq_add_one, List.getD_cons_succ]
      congr 2
      omega
    rw [hstep, ih, hsum, List.length_cons, pow_succ]
    ring

theorem shiftBits_lt (ds : List Nat) (hv : ∀ d ∈ ds, pulseBit d = 0 ∨ pulseBit d = 1) :
    ∀ (acc k : Nat), acc < 2 ^ k → shiftBits acc ds < 2 ^ (k + ds.length) := by
  induction ds with
  | nil => intro acc k h; simpa [shiftBits] using h
  | cons d rest ih =>
    intro acc k h
    have hb := pulseBit_toNat_le (hv d (List.mem_cons_self d rest))
    have h2 : 2 * acc + (pulseBit d).toNat < 2 ^ (k + 1) := by
      rw [pow_succ]; omega
    have := ih (fun x hx => hv x (List.mem_cons_of_mem d hx)) _ (k + 1) h2
    have e : k + 1 + rest.length = k + (d :: rest).length := by
      simp only [List.length_cons]; omega
    rw [← e]
    exact this

/-- An unclassifiable interval never has zero ticks as a bit: a valid pulse has
a positive tick count. -/
theorem pulseBit_valid_pos {d : Nat} (h : pulseBit d = 0 ∨ pulseBit d = 1) : 0 < d := by
  rcases Nat.eq_zero_or_pos d with h0 | h0
  · subst h0
    have : pulseBit 0 = -1 := by decide
    rw [this] at h
    omega
  · exact h0

/-- One serviced valid pulse that does not complete a code: the bit is shifted
in and no match is attempted. -/
theorem servicePulse_valid_open (rand : Nat → Nat) (d : Nat) (w : World)
    (hv : pulseBit d = 0 ∨ pulseBit d = 1) (hk : w.bit_count + 1 ≠ 32) :
    (servicePulse rand d w).2 = [] ∧
    (servicePulse rand d w).1.bit_count = w.bit_count + 1 ∧
    (servicePulse rand d w).1.decoded_sequence
      = ((w.decoded_sequence <<< 1) % 2 ^ 64) ||| (pulseBit d).toNat := by
  have hpos := pulseBit_valid_pos hv
  have hv2 : pulseBit d = 1 ∨ pulseBit d = 0 := hv.symm
  unfold pulseBit at hv2 ⊢
  simp [servicePulse, irStep, hpos, hv2, hk]

/-- One serviced valid pulse that completes a code: one match attempt on the
low 32 bits of the accumulator, then the accumulator is cleared. -/
theorem servicePulse_valid_full (rand : Nat → Nat) (d : Nat) (w : World)
    (hv : pulseBit d = 0 ∨ pulseBit d = 1) (hk : w.bit_count + 1 = 32) :
    (servicePulse rand d w).2
      = [(((w.decoded_sequence <<< 1) % 2 ^ 64) ||| (pulseBit d).toNat) % 2 ^ 32] ∧
    (servicePulse rand d w).1.bit_count = 0 ∧
    (servicePulse rand d w).1.decoded_sequence = 0 := by
  have hpos := pulseBit_valid_pos hv
  have hv2 : pulseBit d = 1 ∨ pulseBit d = 0 := hv.symm
  unfold pulseBit at hv2 ⊢
  simp [servicePulse, irStep, hpos, hv2, hk]

/-- One serviced invalid pulse clears the accumulator without a match attempt. -/
theorem servicePulse_invalid (rand : Nat → Nat) (d : Nat) (w : World)
    (hpos : 0 < d) (hv : pulseBit d = -1) :
    (servicePulse rand d w).2 = [] ∧
    (servicePulse rand d w).1.bit_count = 0 ∧
    (servicePulse rand d w).1.decoded_sequence = 0 := by
  unfold pulseBit at hv
  simp [servicePulse, irStep, hpos, hv]

/-- Fewer than 32 collected bits: a run of valid pulses only shifts bits in. -/
theorem runPulses_open (rand : Nat → Nat) (ds : List Nat)
    (hv : ∀ d ∈ ds, pulseBit d = 0 ∨ pulseBit d = 1) :
    ∀ (w : World) (k : Nat), w.bit_count = (k : Int) → k + ds.length < 32 →
      w.decoded_sequence < 2 ^ k →
      (runPulses rand ds w).2 = [] ∧
      (runPulses rand ds w).1.bit_count = ((k + ds.length : Nat) : Int) ∧
      (runPulses rand ds w).1.decoded_sequence = shiftBits w.decoded_sequence ds := by
  induction ds with
  | nil => intro w k hk _ _; simp [runPulses, shiftBits, hk]
  | cons d rest ih =>
    intro w k hk hlen hacc
    have hd := hv d (List.mem_cons_self d rest)
    simp only [List.length_cons] at hlen
    have hne : w.bit_count + 1 ≠ 32 := by omega
    obtain ⟨s1, s2, s3⟩ := servicePulse_valid_open rand d w hd hne
    have hacc63 : w.decoded_sequence < 2 ^ 63 :=
      lt_of_lt_of_le hacc (Nat.pow_le_pow_right (by decide) (by omega))
    rw [shift_in_bit _ _ hacc63 (pulseBit_toNat_le hd)] at s3
    have hk1 : (servicePulse rand d w).1.bit_count = ((k + 1 : Nat) : Int) := by
      rw [s2, hk]; push_cast; ring
    have hacc1 : (servicePulse rand d w).1.decoded_sequence < 2 ^ (k + 1) := by
      rw [s3, pow_succ]
      have := pulseBit_toNat_le hd
      omega
    obtain ⟨r1, r2, r3⟩ := ih (fun x hx => hv x (List.mem_cons_of_mem d hx))
      (servicePulse rand d w).1 (k + 1) hk1 (by omega) hacc1
    refine ⟨?_, ?_, ?_⟩
    · simp [runPulses, s1, r1]
    · simp only [runPulses, r2, List.length_cons]
      congr 1
      omega
    · simp only [runPulses, r3, s3]
      rfl

theorem runPulses_append (rand : Nat → Nat) (xs ys : List Nat) :
    ∀ w : World, runPulses rand (xs ++ ys) w
      = ((runPulses rand ys (runPulses rand xs w).1).1,
         (runPulses rand xs w).2 ++ (runPulses rand ys (runPulses rand xs w).1).2) := by
  induction xs with
  | nil => intro w; simp [runPulses]
  | cons x xs ih => intro w; simp [runPulses, ih, List.append_assoc]

/-- From a fresh accumulator, 32 valid pulses give exactly one match attempt,
on the most-significant-bit-first word, and leave the accumulator fresh. -/
theorem runPulses_fresh32 (rand : Nat → Nat) (w : World) (ds : List Nat)
    (hbc : w.bit_count = 0) (hacc : w.decoded_sequence = 0) (hlen : ds.length = 32)
    (hv : ∀ d ∈ ds, pulseBit d = 0 ∨ pulseBit d = 1) :
    (runPulses rand ds w).2 = [msbFirstWord ds] ∧
    (runPulses rand ds w).1.bit_count = 0 ∧
    (runPulses rand ds w).1.decoded_sequence = 0 := by
  have hsplit : ds = ds.take 31 ++ ds.drop 31 := (List.take_append_drop 31 ds).symm
  have hdrop : ∃ d, ds.drop 31 = [d] := by
    have hl : (ds.drop 31).length = 1 := by simp [hlen]
    match h : ds.drop 31, hl with
    | [d], _ => exact ⟨d, rfl⟩
  obtain ⟨dl, hdl⟩ := hdrop
  have hvt : ∀ d ∈ ds.take 31, pulseBit d = 0 ∨ pulseBit d = 1 :=
    fun d hd => hv d (List.mem_of_mem_take hd)
  have hvl : pulseBit dl = 0 ∨ pulseBit dl = 1 := by
    apply hv
    have : dl ∈ ds.drop 31 := by rw [hdl]; exact List.mem_singleton_self dl
    exact List.mem_of_mem_drop this
  have htl : (ds.take 31).length = 31 := by simp [hlen]
  obtain ⟨p1, p2, p3⟩ := runPulses_open rand (ds.take 31) hvt w 0 (by simp [hbc])
    (by omega) (by simp [hacc])
  rw [htl] at p2
  have hlt31 : shiftBits w.decoded_sequence (ds.take 31) < 2 ^ 31 := by
    have := shiftBits_lt (ds.take 31) hvt w.decoded_sequence 0 (by simp [hacc])
    rwa [htl] at this
  obtain ⟨q1, q2, q3⟩ := servicePulse_valid_full rand dl (runPulses rand (ds.take 31) w).1 hvl
    (by rw [p2]; norm_num)
  rw [p3, shift_in_bit _ _ (by omega) (pulseBit_toNat_le hvl)] at q1
  have hword : shiftBits 0 ds = msbFirstWord ds := by
    rw [shiftBits_eq]; simp
  have hfold : shiftBits 0 ds = 2 * shiftBits w.decoded_sequence (ds.take 31) + (pulseBit dl).toNat := by
    conv_lhs => rw [hsplit, hdl]
    rw [hacc]
    simp [shiftBits, List.foldl_append]
  have hlt32 : shiftBits 0 ds < 2 ^ 32 := by
    have := shiftBits_lt ds hv 0 0 (by simp)
    rwa [hlen] at this
  rw [← hfold, Nat.mod_eq_of_lt hlt32, hword] at q1
  have hrun : runPulses rand ds w
      = ((servicePulse rand dl (runPulses rand (ds.take 31) w).1).1,
         (runPulses rand (ds.take 31) w).2
           ++ (servicePulse rand dl (runPulses rand (ds.take 31) w).1).2) := by
    conv_lhs => rw [hsplit, hdl]
    rw [runPulses_append]
    simp [runPulses]
  rw [hrun]
  exact ⟨by simp [p1, q1], q2, q3⟩

/-! ## Helper lemmas: what button handling leaves alone -/

/-- The fields of the IR decoder and of multi-tap text entry. -/
theorem initAsteroids_keeps_text (rand : Nat → Nat) (w : World) :
    (initAsteroids rand w).curButton = w.curButton ∧
    (initAsteroids rand w).prevButton = w.prevButton ∧
    (initAsteroids rand w).pressCount = w.pressCount ∧
    (initAsteroids rand w).displayBuffer = w.displayBuffer ∧
    (initAsteroids rand w).bufferIndex = w.bufferIndex ∧
    (initAsteroids rand w).MessageTx = w.MessageTx ∧
    (initAsteroids rand w).msgIndex = w.msgIndex := by
  simp [initAsteroids, initAsteroidSlots, spawnAsteroidInSlot, setAsteroidSlotUsed,
    MAX_ASTEROIDS, NUM_ASTEROID_SLOTS, MAX_ACTIVE_ASTEROIDS, List.range, List.range.loop]

theorem onButtonPress_keeps_text (rand : Nat → Nat) (button : Int) (w : World) :
    (onButtonPress rand button w).curButton = w.curButton ∧
    (onButtonPress rand button w).prevButton = w.prevButton ∧
    (onButtonPress rand button w).pressCount = w.pressCount ∧
    (onButtonPress rand button w).displayBuffer = w.displayBuffer ∧
    (onButtonPress rand button w).bufferIndex = w.bufferIndex ∧
    (onButtonPress rand button w).MessageTx = w.MessageTx ∧
    (onButtonPress rand button w).msgIndex = w.msgIndex := by
  unfold onButtonPress
  split
  · simp
  · split
    · split
      · have h := initAsteroids_keeps_text rand
          { w with
            player_lives := 3
            player_score := 0
            ship_x := SCREEN_WIDTH / 2
            ship_y := SCREEN_HEIGHT - 32
            ship_size := 10
            x_speed := 0
            y_speed := 0 }
        simpa [varInit] using h
      · simp
    · split_ifs <;> simp
    · simp [startGame]
    · simp [startGame]

/-- The scan returns the button of the first entry that carries the code. -/
theorem scanIrMap_mem (word : Nat) (cur : Int) :
    ∀ table : List (Nat × Int),
      scanIrMap table word cur = cur ∨ (word, scanIrMap table word cur) ∈ table := by
  intro table
  induction table with
  | nil => left; rfl
  | cons entry rest ih =>
    unfold scanIrMap
    split
    · rename_i h
      right
      rw [← h]
      exact List.mem_cons_self _ _
    · rcases ih with h | h
      · left; exact h
      · right; exact List.mem_cons_of_mem _ h

theorem scanIrMap_not_mem (word : Nat) (cur : Int) :
    ∀ table : List (Nat × Int), word ∉ table.map Prod.fst → scanIrMap table word cur = cur := by
  intro table
  induction table with
  | nil => intro _; rfl
  | cons entry rest ih =>
    intro h
    simp only [List.map_cons, List.mem_cons, not_or] at h
    unfold scanIrMap
    rw [if_neg (fun e => h.1 e.symm)]
    exact ih h.2

theorem matchSequence_curButton (rand : Nat → Nat) (word : Nat) (w : World) :
    (matchSequence rand word w).curButton = scanIrMap ir_map word (-1) := by
  unfold matchSequence
  simp only
  rw [(onButtonPress_keeps_text rand _ _).1]

/-! ## Helper lemmas: the slot allocator -/

theorem collect_foldl (p : Nat → Prop) [DecidablePred p] (f : Nat → Int) :
    ∀ (l : List Nat) (init : List Int),
      l.foldl (fun acc i => if p i then acc ++ [f i] else acc) init
        = init ++ (l.filter (fun i => decide (p i))).map f := by
  intro l
  induction l with
  | nil => intro init; simp
  | cons a l ih =>
    intro init
    simp only [List.foldl_cons, List.filter_cons]
    by_cases h : p a
    · simp [h, ih]
    · simp [h, ih]

/-- The collected free slots are the indices below 5 whose flag is 0. -/
theorem collectFreeSlots_eq (used : List Int) :
    collectFreeSlots used
      = ((List.range 5).filter (fun i => decide (used.getD i 0 = 0))).map (fun (i : Nat) => (i : Int)) := by
  unfold collectFreeSlots
  rw [collect_foldl (fun i => used.getD i 0 = 0) (fun (i : Nat) => (i : Int))]
  simp [NUM_ASTEROID_SLOTS, MAX_ACTIVE_ASTEROIDS]

theorem mem_collectFreeSlots (used : List Int) (x : Int) :
    x ∈ collectFreeSlots used ↔ ∃ i : Nat, i < 5 ∧ used.getD i 0 = 0 ∧ x = (i : Int) := by
  rw [collectFreeSlots_eq]
  simp only [List.mem_map, List.mem_filter, List.mem_range, decide_eq_true_eq]
  constructor
  · rintro ⟨i, ⟨h1, h2⟩, h3⟩
    exact ⟨i, h1, h2, h3.symm⟩
  · rintro ⟨i, h1, h2, h3⟩
    exact ⟨i, ⟨h1, h2⟩, h3.symm⟩

/-- The shuffle only permutes entries: it keeps the length and introduces no
new value. -/
theorem shuffleLoop_mem (rand : Nat → Nat) :
    ∀ (i : Nat) (fs : List Int) (calls : Nat), i < fs.length →
      (shuffleLoop rand i fs calls).1.length = fs.length ∧
      ∀ x ∈ (shuffleLoop rand i fs calls).1, x ∈ fs := by
  intro i
  induction i with
  | zero => intro fs calls _; exact ⟨rfl, fun x hx => hx⟩
  | succ i ih =>
    intro fs calls hi
    have hj : rand calls % (i + 1 + 1) < fs.length :=
      lt_of_lt_of_le (Nat.mod_lt _ (by omega)) (by omega)
    have hlen : ((fs.set (i + 1) (fs.getD (rand calls % (i + 1 + 1)) 0)).set
        (rand calls % (i + 1 + 1)) (fs.getD (i + 1) 0)).length = fs.length := by
      simp
    obtain ⟨l1, l2⟩ := ih
      ((fs.set (i + 1) (fs.getD (rand calls % (i + 1 + 1)) 0)).set
        (rand calls % (i + 1 + 1)) (fs.getD (i + 1) 0)) (calls + 1) (by rw [hlen]; omega)
    refine ⟨by simpa [shuffleLoop, hlen] using l1, ?_⟩
    intro x hx
    have hx2 := l2 x (by simpa [shuffleLoop] using hx)
    rcases List.mem_or_eq_of_mem_set hx2 with h | h
    · rcases List.mem_or_eq_of_mem_set h with h' | h'
      · exact h'
      · rw [h', List.getD_eq_getElem _ _ hj]
        exact List.getElem_mem _
    · rw [h, List.getD_eq_getElem _ _ hi]
      exact List.getElem_mem _

/-- The value returned by `getFreeAsteroidSlot`, in terms of its two loops. -/
theorem getFreeAsteroidSlot_fst (rand : Nat → Nat) (w : World) :
    (getFreeAsteroidSlot rand w).1
      = if (collectFreeSlots w.asteroid_slot_used).length = 0 then -1
        else (shuffleLoop rand ((collectFreeSlots w.asteroid_slot_used).length - 1)
          (collectFreeSlots w.asteroid_slot_used) w.rand_calls).1.getD 0 0 := by
  unfold getFreeAsteroidSlot
  simp only
  split <;> rfl

/-- With at least one free slot the returned value is one of the free slots. -/
theorem getFreeAsteroidSlot_mem (rand : Nat → Nat) (w : World)
    (h : (collectFreeSlots w.asteroid_slot_used).length ≠ 0) :
    (getFreeAsteroidSlot rand w).1 ∈ collectFreeSlots w.asteroid_slot_used := by
  rw [getFreeAsteroidSlot_fst, if_neg h]
  obtain ⟨l1, l2⟩ := shuffleLoop_mem rand ((collectFreeSlots w.asteroid_slot_used).length - 1)
    (collectFreeSlots w.asteroid_slot_used) w.rand_calls (by omega)
  apply l2
  rw [List.getD_eq_getElem _ _ (by rw [l1]; omega)]
  exact List.getElem_mem _

/-! ## Helper lemmas: counting draw sequences -/

/-- The shuffle reads only the draws from its starting position on. -/
theorem shuffleLoop_shift (d : List Nat) (p : Nat) :
    ∀ (i : Nat) (fs : List Int) (q : Nat),
      (shuffleLoop (drawStream d p) i fs (p + q)).1 = (shuffleLoop (drawStream d 0) i fs q).1 := by
  intro i
  induction i with
  | zero => intro fs q; rfl
  | succ i ih =>
    intro fs q
    have e : drawStream d p (p + q) = drawStream d 0 q := by simp [drawStream]
    simp only [shuffleLoop, e]
    exact ih _ (q + 1)

theorem getFreeAsteroidSlot_drawStream (d : List Nat) (w : World) :
    (getFreeAsteroidSlot (drawStream d w.rand_calls) w).1
      = slotOfDraws (collectFreeSlots w.asteroid_slot_used) d := by
  rw [getFreeAsteroidSlot_fst]
  unfold slotOfDraws
  have := shuffleLoop_shift d w.rand_calls
    ((collectFreeSlots w.asteroid_slot_used).length - 1) (collectFreeSlots w.asteroid_slot_used) 0
  rw [Nat.add_zero] at this
  rw [this]

/-- The free-slot array depends only on which flags are zero. -/
theorem collectFreeSlots_flags (used : List Int) :
    collectFreeSlots used
      = collectFreeSlots
          [if used.getD 0 0 = 0 then 0 else 1, if used.getD 1 0 = 0 then 0 else 1,
           if used.getD 2 0 = 0 then 0 else 1, if used.getD 3 0 = 0 then 0 else 1,
           if used.getD 4 0 = 0 then 0 else 1] := by
  rw [collectFreeSlots_eq, collectFreeSlots_eq]
  congr 1
  apply List.filter_congr
  intro i hi
  have hi5 : i < 5 := List.mem_range.1 hi
  interval_cases i <;> simp only [List.getD_cons_zero, List.getD_cons_succ] <;>
    split_ifs <;> simp_all

set_option maxRecDepth 1000000 in
/-- The draw sequences for at most five free slots: there are `(n + 1)!` of
them, all different, and the `k`-th draw lies in `0..n - k`. -/
theorem drawSeqs_small (n : Nat) (hn : n < 5) :
    (drawSeqs n).length = (n + 1).factorial ∧ (drawSeqs n).Nodup ∧
    ∀ d ∈ drawSeqs n, d.length = n ∧ ∀ k : Nat, k < n → d.getD k 0 ≤ n - k := by
  interval_cases n <;> decide

set_option maxRecDepth 1000000 in
set_option maxHeartbeats 4000000 in
/-- Enumeration over the 32 patterns of free and used slots: every free slot is
the result of exactly `(c - 1)!` draw sequences. -/
theorem slotOfDraws_count (b0 b1 b2 b3 b4 : Int)
    (h0 : b0 = 0 ∨ b0 = 1) (h1 : b1 = 0 ∨ b1 = 1) (h2 : b2 = 0 ∨ b2 = 1)
    (h3 : b3 = 0 ∨ b3 = 1) (h4 : b4 = 0 ∨ b4 = 1) :
    ∀ f ∈ collectFreeSlots [b0, b1, b2, b3, b4],
      ((drawSeqs ((collectFreeSlots [b0, b1, b2, b3, b4]).length - 1)).filter
        (fun d => decide (slotOfDraws (collectFreeSlots [b0, b1, b2, b3, b4]) d = f))).length
        = ((collectFreeSlots [b0, b1, b2, b3, b4]).length - 1).factorial := by
  rcases h0 with h0 | h0 <;> rcases h1 with h1 | h1 <;> rcases h2 with h2 | h2 <;>
    rcases h3 with h3 | h3 <;> rcases h4 with h4 | h4 <;>
    subst h0 h1 h2 h3 h4 <;> decide

/-! ## Helper lemmas: the pool invariant on lists -/

theorem getD_set_eq {α : Type} (l : List α) (i j : Nat) (a d : α) :
    (l.set i a).getD j d = if i = j ∧ i < l.length then a else l.getD j d := by
  simp only [List.getD_eq_getElem?_getD, List.getElem?_set]
  by_cases h : i = j
  · subst h
    by_cases h2 : i < l.length
    · simp [h2]
    · simp [h2, List.getElem?_eq_none (Nat.le_of_not_lt h2)]
  · simp [h]

theorem slotXs_inj (s t : Nat) (hs : s < 5) (ht : t < 5)
    (h : slotXs.getD s 0 = slotXs.getD t 0) : s = t := by
  interval_cases s <;> interval_cases t <;> first | rfl | (exfalso; revert h; decide)

theorem countP_set_used (used : List Int) (s : Nat) (v : Int) (hs : s < used.length) :
    (used.set s v).countP (fun u => decide (u ≠ 0))
      = used.countP (fun u => decide (u ≠ 0))
        - (if used.getD s 0 ≠ 0 then 1 else 0) + (if v ≠ 0 then 1 else 0) := by
  rw [List.countP_set _ _ _ _ hs, List.getD_eq_getElem _ _ hs]
  simp

theorem countP_pos_of_getD_ne (used : List Int) (s : Nat) (hs : s < used.length)
    (h : used.getD s 0 ≠ 0) : 0 < used.countP (fun u => decide (u ≠ 0)) := by
  rw [List.countP_pos_iff]
  refine ⟨used.getD s 0, ?_, by simpa using h⟩
  rw [List.getD_eq_getElem _ _ hs]
  exact List.getElem_mem _

/-- Growing the active count by one leaves the new last entry as the exception. -/
theorem PoolOK.grow {asteroids : List Asteroid} {used : List Int} {c : Nat}
    (h : PoolOK asteroids used c c) (hc : c < 5) : PoolOK asteroids used (c + 1) c := by
  obtain ⟨h1, h2, _, h4, h5, h6, h7⟩ := h
  refine ⟨h1, h2, by omega, ?_, ?_, ?_, ?_⟩
  · intro i hi hci
    exact h4 i hi (by omega)
  · intro i hi hik
    exact h5 i (by omega) hik
  · intro i j hi hj hik hjk
    exact h6 i j (by omega) (by omega) hik hjk
  · rw [if_neg (lt_irrefl c)] at h7
    rw [if_pos (Nat.lt_succ_self c)]
    omega

/-- Releasing the slot of entry `k` makes `k` the exception; the entry itself may
then hold anything. -/
theorem PoolOK.dig {asteroids asteroids2 : List Asteroid} {used : List Int} {c k s : Nat}
    (h : PoolOK asteroids used c c) (hk : k < c) (hs : s < 5)
    (hx : (asteroids.getD k Asteroid.zero).x = slotXs.getD s 0)
    (hlen : asteroids2.length = 5)
    (hsame : ∀ i : Nat, i ≠ k → asteroids2.getD i Asteroid.zero = asteroids.getD i Asteroid.zero) :
    PoolOK asteroids2 (used.set s 0) c k := by
  obtain ⟨h1, h2, h3, h4, h5, h6, h7⟩ := h
  obtain ⟨_, s0, hs0, hx0, hu0⟩ := h5 k hk (by omega)
  have hss : s0 = s := slotXs_inj s0 s hs0 hs (by rw [← hx0, hx])
  subst hss
  refine ⟨hlen, by simpa using h2, h3, ?_, ?_, ?_, ?_⟩
  · intro i hi hci
    rw [hsame i (by omega)]
    exact h4 i hi hci
  · intro i hi hik
    rw [hsame i hik]
    obtain ⟨l1, t, ht, hxt, hut⟩ := h5 i hi (by omega)
    refine ⟨l1, t, ht, hxt, ?_⟩
    have hts : s0 ≠ t := by
      intro e
      subst e
      exact hik (h6 i k hi hk (by omega) (by omega) (by rw [hxt, hx0]))
    rw [getD_set_eq, if_neg (by tauto)]
    exact hut
  · intro i j hi hj hik hjk
    rw [hsame i hik, hsame j hjk]
    exact h6 i j hi hj (by omega) (by omega)
  · rw [countP_set_used _ _ _ (by omega)]
    have hpos := countP_pos_of_getD_ne used s0 (by omega) hu0
    rw [if_neg (lt_irrefl c)] at h7
    rw [if_pos hu0, if_neg (by decide), if_pos hk]
    omega

/-- Spawning a live obstacle into the excepted entry `k`, at a free slot `s`,
restores consistency. -/
theorem PoolOK.fill {asteroids : List Asteroid} {used : List Int} {c k s : Nat} {a : Asteroid}
    (h : PoolOK asteroids used c k) (hk : k < c) (hs : s < 5)
    (hfree : used.getD s 0 = 0) (hlive : a.Live) (hx : a.x = slotXs.getD s 0) :
    PoolOK (asteroids.set k a) (used.set s 1) c c := by
  obtain ⟨h1, h2, h3, h4, h5, h6, h7⟩ := h
  have hk5 : k < asteroids.length := by omega
  refine ⟨by simpa using h1, by simpa using h2, h3, ?_, ?_, ?_, ?_⟩
  · intro i hi hci
    rw [getD_set_eq]
    have : ¬ (k = i ∧ k < asteroids.length) := by omega
    rw [if_neg this]
    exact h4 i hi hci
  · intro i hi _
    rw [getD_set_eq]
    by_cases hik : k = i
    · rw [if_pos ⟨hik, hk5⟩]
      refine ⟨hlive, s, hs, hx, ?_⟩
      rw [getD_set_eq]
      simp [h2, hs]
    · rw [if_neg (by tauto)]
      obtain ⟨l1, t, ht, hxt, hut⟩ := h5 i hi (Ne.symm hik)
      refine ⟨l1, t, ht, hxt, ?_⟩
      rw [getD_set_eq]
      split
      · decide
      · exact hut
  · intro i j hi hj _ _
    rw [getD_set_eq, getD_set_eq]
    by_cases hik : k = i <;> by_cases hjk : k = j
    · intro _; omega
    · rw [if_pos ⟨hik, hk5⟩, if_neg (by tauto)]
      intro e
      obtain ⟨_, t, ht, hxt, hut⟩ := h5 j hj (Ne.symm hjk)
      have : s = t := slotXs_inj s t hs ht (by rw [← hx, e, hxt])
      subst this
      exact absurd hfree hut
    · rw [if_neg (by tauto), if_pos ⟨hjk, hk5⟩]
      intro e
      obtain ⟨_, t, ht, hxt, hut⟩ := h5 i hi (Ne.symm hik)
      have : s = t := slotXs_inj s t hs ht (by rw [← hx, ← e, hxt])
      subst this
      exact absurd hfree hut
    · rw [if_neg (by tauto), if_neg (by tauto)]
      exact h6 i j hi hj (Ne.symm hik) (Ne.symm hjk)
  · rw [countP_set_used _ _ _ (by omega)]
    rw [if_pos hk] at h7
    rw [if_neg (not_not.2 hfree), if_pos (by decide), if_neg (lt_irrefl c)]
    omega

/-- Changing only the position `y` of an entry keeps consistency. -/
theorem PoolOK.move {asteroids : List Asteroid} {used : List Int} {c k : Nat} (y : Int)
    (h : PoolOK asteroids used c c) :
    PoolOK (asteroids.set k { asteroids.getD k Asteroid.zero with y := y }) used c c := by
  obtain ⟨h1, h2, h3, h4, h5, h6, h7⟩ := h
  have key : ∀ i : Nat,
      ((asteroids.set k { asteroids.getD k Asteroid.zero with y := y }).getD i Asteroid.zero).radius
        = (asteroids.getD i Asteroid.zero).radius ∧
      ((asteroids.set k { asteroids.getD k Asteroid.zero with y := y }).getD i Asteroid.zero).x
        = (asteroids.getD i Asteroid.zero).x ∧
      (((asteroids.set k { asteroids.getD k Asteroid.zero with y := y }).getD i Asteroid.zero).Live
        ↔ (asteroids.getD i Asteroid.zero).Live) := by
    intro i
    rw [getD_set_eq]
    split
    · rename_i hki
      rw [hki.1]
      exact ⟨rfl, rfl, Iff.rfl⟩
    · exact ⟨rfl, rfl, Iff.rfl⟩
  refine ⟨by simpa using h1, h2, h3, ?_, ?_, ?_, h7⟩
  · intro i hi hci
    rw [(key i).1]
    exact h4 i hi hci
  · intro i hi hic
    rw [(key i).2.2, (key i).2.1]
    exact h5 i hi hic
  · intro i j hi hj hic hjc
    rw [(key i).2.1, (key j).2.1]
    exact h6 i j hi hj hic hjc

/-- With fewer than five slots marked used, some slot is free. -/
theorem exists_free_of_countP_lt (used : List Int) (hlen : used.length = 5)
    (h : used.countP (fun u => decide (u ≠ 0)) < 5) : ∃ i : Nat, i < 5 ∧ used.getD i 0 = 0 := by
  by_contra hcon
  push_neg at hcon
  have : used.countP (fun u => decide (u ≠ 0)) = used.length := by
    rw [List.countP_eq_length]
    intro a ha
    obtain ⟨i, hi, rfl⟩ := List.getElem_of_mem ha
    have := hcon i (by omega)
    rw [List.getD_eq_getElem _ _ hi] at this
    simpa using this
  omega

/-! ## Helper lemmas: the slot functions as record updates -/

theorem radius_options_mem (n : Nat) : radius_options.getD (n % 4) 0 ∈ [6, 8, 10, 12] := by
  have : n % 4 < 4 := Nat.mod_lt _ (by decide)
  interval_cases (n % 4) <;> decide

theorem speed_options_mem (n : Nat) : speed_options.getD (n % 4) 0 ∈ [1, 2, 3, 4] := by
  have : n % 4 < 4 := Nat.mod_lt _ (by decide)
  interval_cases (n % 4) <;> decide

/-- The result of `spawnAsteroidInSlot` for an in-range slot: one pool entry is
replaced by a live obstacle at the slot, the slot is marked used, two draws are
consumed. -/
theorem spawnAsteroidInSlot_eq (rand : Nat → Nat) (idx s : Nat) (w : World) (hs : s < 5) :
    ∃ a : Asteroid, a.Live ∧ a.x = w.asteroid_slot_x.getD s 0 ∧ a.y = -a.radius - 10 ∧
      spawnAsteroidInSlot rand idx (s : Int) w
        = { w with
            rand_calls := w.rand_calls + 2
            asteroids := w.asteroids.set idx a
            asteroid_slot_used := w.asteroid_slot_used.set s 1 } := by
  have hguard : (s : Int) ≥ 0 ∧ (s : Int) < (NUM_ASTEROID_SLOTS : Int) := by
    simp only [NUM_ASTEROID_SLOTS, MAX_ACTIVE_ASTEROIDS]
    omega
  refine ⟨{ x := w.asteroid_slot_x.getD s 0
            y := -(radius_options.getD (rand w.rand_calls % 4) 0) - 10
            dx := 0
            dy := speed_options.getD (rand (w.rand_calls + 1) % 4) 0
            radius := radius_options.getD (rand w.rand_calls % 4) 0
            sides := 4
            speed := speed_options.getD (rand (w.rand_calls + 1) % 4) 0 },
    ⟨radius_options_mem _, speed_options_mem _, rfl, rfl⟩, rfl, rfl, ?_⟩
  simp [spawnAsteroidInSlot, setAsteroidSlotUsed, hguard]

/-- The two outcomes of `getFreeAsteroidSlot`: no free slot and nothing changed,
or a free slot and only draws consumed. -/
theorem getFreeAsteroidSlot_cases (rand : Nat → Nat) (w : World) :
    (getFreeAsteroidSlot rand w = (-1, w) ∧
      ∀ i : Nat, i < 5 → w.asteroid_slot_used.getD i 0 ≠ 0) ∨
    ∃ s : Nat, s < 5 ∧ w.asteroid_slot_used.getD s 0 = 0 ∧
      ∃ calls : Nat, getFreeAsteroidSlot rand w = ((s : Int), { w with rand_calls := calls }) := by
  by_cases hc : (collectFreeSlots w.asteroid_slot_used).length = 0
  · left
    have hnil : collectFreeSlots w.asteroid_slot_used = [] := List.eq_nil_of_length_eq_zero hc
    refine ⟨by simp [getFreeAsteroidSlot, hc], fun i hi h0 => ?_⟩
    have : ((i : Nat) : Int) ∈ collectFreeSlots w.asteroid_slot_used :=
      (mem_collectFreeSlots _ _).2 ⟨i, hi, h0, rfl⟩
    rw [hnil] at this
    exact absurd this (List.not_mem_nil _)
  · right
    obtain ⟨i, hi, h0, hx⟩ := (mem_collectFreeSlots _ _).1 (getFreeAsteroidSlot_mem rand w hc)
    refine ⟨i, hi, h0, (shuffleLoop rand ((collectFreeSlots w.asteroid_slot_used).length - 1)
      (collectFreeSlots w.asteroid_slot_used) w.rand_calls).2, ?_⟩
    rw [← hx]
    simp [getFreeAsteroidSlot, hc]

/-- Releasing the slot of a pool entry that sits at slot `s`. -/
theorem freeAsteroidSlotForAsteroid_eq (idx s : Nat) (w : World) (hxs : w.asteroid_slot_x = slotXs)
    (hs : s < 5) (hx : (w.asteroids.getD idx Asteroid.zero).x = slotXs.getD s 0) :
    freeAsteroidSlotForAsteroid idx w
      = { w with asteroid_slot_used := w.asteroid_slot_used.set s 0 } := by
  unfold freeAsteroidSlotForAsteroid
  rw [hx]
  interval_cases s <;>
    simp [freeSlotScan, setAsteroidSlotUsed, hxs, slotXs, NUM_ASTEROID_SLOTS,
      MAX_ACTIVE_ASTEROIDS, List.range, List.range.loop]

/-- In a consistent pool with fewer than five active entries, the first unused
entry is the one at the active count. -/
theorem findUnusedAsteroid_eq {asteroids : List Asteroid} {used : List Int} {c : Nat}
    (h : PoolOK asteroids used c c) (hc : c < 5) :
    findUnusedAsteroid asteroids (List.range MAX_ASTEROIDS) = (c : Int) := by
  obtain ⟨_, _, _, h4, h5, _, _⟩ := h
  have hz : (asteroids.getD c Asteroid.zero).radius = 0 := h4 c hc (le_refl c)
  have hnz : ∀ i : Nat, i < c → (asteroids.getD i Asteroid.zero).radius ≠ 0 := by
    intro i hi
    obtain ⟨⟨hr, _⟩, _⟩ := h5 i hi (by omega)
    intro e
    rw [e] at hr
    revert hr
    decide
  have hrange : List.range MAX_ASTEROIDS = [0, 1, 2, 3, 4] := by decide
  rw [hrange]
  interval_cases c
  · simp only [findUnusedAsteroid, if_pos hz]
  · simp only [findUnusedAsteroid, if_pos hz, if_neg (hnz 0 (by decide))]
  · simp only [findUnusedAsteroid, if_pos hz, if_neg (hnz 0 (by decide)),
      if_neg (hnz 1 (by decide))]
  · simp only [findUnusedAsteroid, if_pos hz, if_neg (hnz 0 (by decide)),
      if_neg (hnz 1 (by decide)), if_neg (hnz 2 (by decide))]
  · simp only [findUnusedAsteroid, if_pos hz, if_neg (hnz 0 (by decide)),
      if_neg (hnz 1 (by decide)), if_neg (hnz 2 (by decide)), if_neg (hnz 3 (by decide))]

/-! ## Helper lemmas: one step of the obstacle loop -/

theorem getD_radius_ne_zero_lt {asteroids : List Asteroid} {i : Nat}
    (h : (asteroids.getD i Asteroid.zero).radius ≠ 0) : i < asteroids.length := by
  by_contra hcon
  apply h
  rw [List.getD_eq_default _ _ (Nat.le_of_not_lt hcon)]
  rfl

theorem updateAsteroid_unused (rand : Nat → Nat) (w : World) (i : Nat)
    (h : (w.asteroids.getD i Asteroid.zero).radius = 0) : updateAsteroid rand w i = w := by
  unfold updateAsteroid
  rw [if_pos h]

/-- The retirement block: the slot `s` of obstacle `i` is released, the score
becomes the 32-bit sum of the score and `radius * speed`, and a new live
obstacle takes the pool entry at a slot `s2` that is free at that moment. -/
theorem retireAsteroid_eq (rand : Nat → Nat) (w : World) (i s : Nat)
    (hxs : w.asteroid_slot_x = slotXs) (hlen : w.asteroid_slot_used.length = 5) (hs : s < 5)
    (hx : (w.asteroids.getD i Asteroid.zero).x = slotXs.getD s 0) :
    ∃ (s2 : Nat) (a2 : Asteroid) (calls : Nat),
      s2 < 5 ∧ (w.asteroid_slot_used.set s 0).getD s2 0 = 0 ∧
      a2.Live ∧ a2.x = slotXs.getD s2 0 ∧ a2.y = -a2.radius - 10 ∧
      retireAsteroid rand i w
        = { w with
            asteroids := w.asteroids.set i a2
            asteroid_slot_used := (w.asteroid_slot_used.set s 0).set s2 1
            player_score := toInt32 (toUInt32 (w.player_score
              + (w.asteroids.getD i Asteroid.zero).radius
                * (w.asteroids.getD i Asteroid.zero).speed))
            rand_calls := calls } := by
  unfold retireAsteroid
  rw [freeAsteroidSlotForAsteroid_eq i s w hxs hs hx]
  rcases getFreeAsteroidSlot_cases rand
    { w with
      asteroid_slot_used := w.asteroid_slot_used.set s 0
      player_score := toInt32 (toUInt32 (w.player_score
        + (w.asteroids.getD i Asteroid.zero).radius
          * (w.asteroids.getD i Asteroid.zero).speed)) }
    with ⟨_, hall⟩ | ⟨s2, hs2, hfree, calls, hget⟩
  · exfalso
    apply hall s hs
    show (w.asteroid_slot_used.set s 0).getD s 0 = 0
    rw [getD_set_eq, if_pos ⟨rfl, by omega⟩]
  · obtain ⟨a2, hlive, hax, hay, hsp⟩ := spawnAsteroidInSlot_eq rand i s2
      { w with
        asteroid_slot_used := w.asteroid_slot_used.set s 0
        player_score := toInt32 (toUInt32 (w.player_score
          + (w.asteroids.getD i Asteroid.zero).radius
            * (w.asteroids.getD i Asteroid.zero).speed))
        rand_calls := calls } hs2
    refine ⟨s2, a2, calls + 2, hs2, hfree, hlive, ?_, hay, ?_⟩
    · rw [hax]
      show w.asteroid_slot_x.getD s2 0 = _
      rw [hxs]
    · have hne : ((s2 : Nat) : Int) ≠ -1 := by omega
      show (if (getFreeAsteroidSlot rand _).1 ≠ -1 then _ else _) = _
      rw [hget]
      show (if ((s2 : Nat) : Int) ≠ -1 then _ else _) = _
      rw [if_pos hne]
      exact hsp

/-- One step of the obstacle loop, for a pool entry whose x-coordinate is that
of slot `s`: nothing for an unused entry; a move down by `dy`; or a move followed
by the retirement block. -/
theorem updateAsteroid_cases (rand : Nat → Nat) (w : World) (i s : Nat)
    (hxs : w.asteroid_slot_x = slotXs) (hlen : w.asteroid_slot_used.length = 5) (hs : s < 5)
    (hx : (w.asteroids.getD i Asteroid.zero).x = slotXs.getD s 0)
    (hr : (w.asteroids.getD i Asteroid.zero).radius ≠ 0) :
    (¬ ((w.asteroids.getD i Asteroid.zero).y + (w.asteroids.getD i Asteroid.zero).dy
        - (w.asteroids.getD i Asteroid.zero).radius > SCREEN_HEIGHT + 32) ∧
      updateAsteroid rand w i
        = { w with
            asteroids := w.asteroids.set i
              { w.asteroids.getD i Asteroid.zero with
                y := (w.asteroids.getD i Asteroid.zero).y
                  + (w.asteroids.getD i Asteroid.zero).dy } }) ∨
    ((w.asteroids.getD i Asteroid.zero).y + (w.asteroids.getD i Asteroid.zero).dy
        - (w.asteroids.getD i Asteroid.zero).radius > SCREEN_HEIGHT + 32 ∧
      ∃ (s2 : Nat) (a2 : Asteroid) (calls : Nat),
        s2 < 5 ∧ (w.asteroid_slot_used.set s 0).getD s2 0 = 0 ∧
        a2.Live ∧ a2.x = slotXs.getD s2 0 ∧ a2.y = -a2.radius - 10 ∧
        updateAsteroid rand w i
          = { w with
              asteroids := w.asteroids.set i a2
              asteroid_slot_used := (w.asteroid_slot_used.set s 0).set s2 1
              player_score := toInt32 (toUInt32 (w.player_score
                + (w.asteroids.getD i Asteroid.zero).radius
                  * (w.asteroids.getD i Asteroid.zero).speed))
              rand_calls := calls }) := by
  have hi := getD_radius_ne_zero_lt hr
  have hget : (w.asteroids.set i
      { w.asteroids.getD i Asteroid.zero with
        y := (w.asteroids.getD i Asteroid.zero).y + (w.asteroids.getD i Asteroid.zero).dy }).getD
        i Asteroid.zero
      = { w.asteroids.getD i Asteroid.zero with
          y := (w.asteroids.getD i Asteroid.zero).y + (w.asteroids.getD i Asteroid.zero).dy } := by
    rw [getD_set_eq, if_pos ⟨rfl, hi⟩]
  unfold updateAsteroid
  rw [if_neg hr]
  show _ ∨ _
  by_cases hy : (w.asteroids.getD i Asteroid.zero).y + (w.asteroids.getD i Asteroid.zero).dy
        - (w.asteroids.getD i Asteroid.zero).radius > SCREEN_HEIGHT + 32
  · right
    refine ⟨hy, ?_⟩
    obtain ⟨s2, a2, calls, h1, h2, h3, h4, h5, h6⟩ := retireAsteroid_eq rand
      { w with
        asteroids := w.asteroids.set i
          { w.asteroids.getD i Asteroid.zero with
            y := (w.asteroids.getD i Asteroid.zero).y + (w.asteroids.getD i Asteroid.zero).dy } }
      i s hxs hlen hs (by show ((w.asteroids.set i _).getD i Asteroid.zero).x = _; rw [hget]; exact hx)
    refine ⟨s2, a2, calls, h1, h2, h3, h4, h5, ?_⟩
    simp only []
    rw [hget]
    simp only []
    rw [if_pos hy, h6]
    simp only [hget, List.set_set]
  · left
    refine ⟨hy, ?_⟩
    simp only []
    rw [hget]
    simp only []
    rw [if_neg hy]

/-! ## Helper lemmas: what the obstacle functions leave alone -/

theorem withField_self (w : World) :
    w = w.withField w.asteroids w.asteroid_slot_used w.player_score w.rand_calls := rfl

theorem setAsteroidSlotUsed_frame (slot used : Int) (w : World) :
    ∃ u : List Int, setAsteroidSlotUsed slot used w
      = w.withField w.asteroids u w.player_score w.rand_calls := by
  unfold setAsteroidSlotUsed
  split
  · exact ⟨_, rfl⟩
  · exact ⟨_, rfl⟩

theorem spawnAsteroidInSlot_frame (rand : Nat → Nat) (idx : Nat) (slot : Int) (w : World) :
    ∃ (a : List Asteroid) (u : List Int) (calls : Nat),
      spawnAsteroidInSlot rand idx slot w = w.withField a u w.player_score calls := by
  unfold spawnAsteroidInSlot
  simp only []
  obtain ⟨u, hu⟩ := setAsteroidSlotUsed_frame slot 1
    { w with
      rand_calls := w.rand_calls + 2
      asteroids := w.asteroids.set idx
        { x := w.asteroid_slot_x.getD slot.toNat 0
          y := -(radius_options.getD (rand w.rand_calls % 4) 0) - 10
          dx := 0
          dy := speed_options.getD (rand (w.rand_calls + 1) % 4) 0
          radius := radius_options.getD (rand w.rand_calls % 4) 0
          sides := 4
          speed := speed_options.getD (rand (w.rand_calls + 1) % 4) 0 } }
  rw [hu]
  exact ⟨_, _, _, rfl⟩

theorem getFreeAsteroidSlot_frame (rand : Nat → Nat) (w : World) :
    ∃ calls : Nat, (getFreeAsteroidSlot rand w).2
      = w.withField w.asteroids w.asteroid_slot_used w.player_score calls := by
  unfold getFreeAsteroidSlot
  simp only []
  split
  · exact ⟨_, rfl⟩
  · exact ⟨_, rfl⟩

theorem freeSlotScan_frame (x : Int) (l : List Nat) (w : World) :
    ∃ u : List Int, freeSlotScan x l w = w.withField w.asteroids u w.player_score w.rand_calls := by
  induction l with
  | nil => exact ⟨_, rfl⟩
  | cons i rest ih =>
    unfold freeSlotScan
    split
    · exact setAsteroidSlotUsed_frame _ _ _
    · exact ih

theorem retireAsteroid_frame (rand : Nat → Nat) (i : Nat) (w : World) :
    ∃ (a : List Asteroid) (u : List Int) (score : Int) (calls : Nat),
      retireAsteroid rand i w = w.withField a u score calls := by
  unfold retireAsteroid
  obtain ⟨u1, h1⟩ := freeSlotScan_frame (w.asteroids.getD i Asteroid.zero).x
    (List.range NUM_ASTEROID_SLOTS) w
  unfold freeAsteroidSlotForAsteroid
  rw [h1]
  simp only []
  generalize hw2 : ({ w.withField w.asteroids u1 w.player_score w.rand_calls with
      player_score := toInt32 (toUInt32
        ((w.withField w.asteroids u1 w.player_score w.rand_calls).player_score +
          ((w.withField w.asteroids u1 w.player_score w.rand_calls).asteroids.getD i
              Asteroid.zero).radius *
            ((w.withField w.asteroids u1 w.player_score w.rand_calls).asteroids.getD i
              Asteroid.zero).speed)) } : World) = w2
  have hw2f : ∃ score : Int, w2 = w.withField w.asteroids u1 score w.rand_calls := by
    rw [← hw2]
    exact ⟨_, rfl⟩
  obtain ⟨score, hs⟩ := hw2f
  obtain ⟨calls, h2⟩ := getFreeAsteroidSlot_frame rand w2
  split
  · obtain ⟨a, u, calls2, h3⟩ := spawnAsteroidInSlot_frame rand i (getFreeAsteroidSlot rand w2).1
      (getFreeAsteroidSlot rand w2).2
    rw [h3, h2, hs]
    exact ⟨_, _, _, _, rfl⟩
  · rw [h2, hs]
    exact ⟨_, _, _, _, rfl⟩

theorem updateAsteroid_frame (rand : Nat → Nat) (w : World) (i : Nat) :
    ∃ (a : List Asteroid) (u : List Int) (score : Int) (calls : Nat),
      updateAsteroid rand w i = w.withField a u score calls := by
  unfold updateAsteroid
  split
  · exact ⟨_, _, _, _, withField_self w⟩
  · simp only []
    split
    · obtain ⟨a, u, score, calls, h⟩ := retireAsteroid_frame rand i
        { w with
          asteroids := w.asteroids.set i
            { w.asteroids.getD i Asteroid.zero with
              y := (w.asteroids.getD i Asteroid.zero).y + (w.asteroids.getD i Asteroid.zero).dy } }
      rw [h]
      exact ⟨_, _, _, _, rfl⟩
    · exact ⟨_, _, _, _, rfl⟩

theorem updateAsteroid_foldl_frame (rand : Nat → Nat) (l : List Nat) :
    ∀ w : World, ∃ (a : List Asteroid) (u : List Int) (score : Int) (calls : Nat),
      l.foldl (updateAsteroid rand) w = w.withField a u score calls := by
  induction l with
  | nil => intro w; exact ⟨_, _, _, _, withField_self w⟩
  | cons i rest ih =>
    intro w
    obtain ⟨a, u, score, calls, h1⟩ := updateAsteroid_frame rand w i
    obtain ⟨a2, u2, score2, calls2, h2⟩ := ih (updateAsteroid rand w i)
    rw [List.foldl_cons, h2, h1]
    exact ⟨_, _, _, _, rfl⟩

theorem spawnNewAsteroidSafely_frame (rand : Nat → Nat) (w : World) :
    ∃ (a : List Asteroid) (u : List Int) (calls : Nat),
      (spawnNewAsteroidSafely rand w).2 = w.withField a u w.player_score calls := by
  unfold spawnNewAsteroidSafely
  simp only []
  obtain ⟨calls, h1⟩ := getFreeAsteroidSlot_frame rand w
  split
  · rw [h1]; exact ⟨_, _, _, rfl⟩
  · split
    · rw [h1]; exact ⟨_, _, _, rfl⟩
    · obtain ⟨a, u, calls2, h3⟩ := spawnAsteroidInSlot_frame rand
        (findUnusedAsteroid (getFreeAsteroidSlot rand w).2.asteroids
          (List.range MAX_ASTEROIDS)).toNat
        (getFreeAsteroidSlot rand w).1 (getFreeAsteroidSlot rand w).2
      rw [h3, h1]
      exact ⟨_, _, _, rfl⟩

/-- The milestone check writes only the pool, the slot flags, the draw counter
and the three milestone variables. -/
theorem checkScoreMilestones_frame (rand : Nat → Nat) (w w2 : World)
    (h : checkScoreMilestones rand w = some w2) :
    ∃ (a : List Asteroid) (u : List Int) (calls : Nat) (count last next : Int),
      w2 = { w.withField a u w.player_score calls with
             current_num_asteroids := count
             last_milestone_reached := last
             next_milestone := next } := by
  unfold checkScoreMilestones at h
  obtain ⟨a, u, calls, hsp⟩ := spawnNewAsteroidSafely_frame rand w
  split at h
  · split at h
    · exact absurd h (by simp)
    · simp only [] at h
      split at h
      · split at h
        · rw [hsp] at h
          rw [← Option.some.inj h]
          exact ⟨_, _, _, _, _, _, rfl⟩
        · rw [hsp] at h
          rw [← Option.some.inj h]
          exact ⟨_, _, _, _, _, _, rfl⟩
      · rw [← Option.some.inj h]
        exact ⟨_, _, _, _, _, _, rfl⟩
  · rw [← Option.some.inj h]
    exact ⟨_, _, _, _, _, _, rfl⟩

/-! ## Helper lemmas: the invariant is kept by every step -/

/-- The invariant reads only the slot layout, the active count, the pool and the
slot flags. -/
theorem FieldInv.congr {w w2 : World} (h : FieldInv w)
    (h1 : w2.asteroid_slot_x = w.asteroid_slot_x)
    (h2 : w2.current_num_asteroids = w.current_num_asteroids)
    (h3 : w2.asteroids = w.asteroids)
    (h4 : w2.asteroid_slot_used = w.asteroid_slot_used) : FieldInv w2 := by
  unfold FieldInv at h ⊢
  rw [h1, h2, h3, h4]
  exact h

/-- An entry with non-zero radius lies below the active count and sits at the
x-coordinate of a slot. -/
theorem PoolOK.active_lt {asteroids : List Asteroid} {used : List Int} {c i : Nat}
    (h : PoolOK asteroids used c c) (hr : (asteroids.getD i Asteroid.zero).radius ≠ 0) :
    i < c ∧ ∃ s : Nat, s < 5 ∧ (asteroids.getD i Asteroid.zero).x = slotXs.getD s 0 := by
  have hi := getD_radius_ne_zero_lt hr
  obtain ⟨h1, _, _, h4, h5, _, _⟩ := h
  have hic : i < c := by
    by_contra hcon
    exact hr (h4 i (by omega) (by omega))
  obtain ⟨_, s, hs, hx, _⟩ := h5 i hic (by omega)
  exact ⟨hic, s, hs, hx⟩

theorem fieldInv_updateAsteroid (rand : Nat → Nat) (w : World) (i : Nat) (h : FieldInv w) :
    FieldInv (updateAsteroid rand w i) ∧
    (updateAsteroid rand w i).current_num_asteroids = w.current_num_asteroids := by
  by_cases hr : (w.asteroids.getD i Asteroid.zero).radius = 0
  · rw [updateAsteroid_unused rand w i hr]
    exact ⟨h, rfl⟩
  · obtain ⟨hxs, c, hc, hc1, hpool⟩ := h
    obtain ⟨hic, s, hs, hx⟩ := hpool.active_lt hr
    rcases updateAsteroid_cases rand w i s hxs hpool.2.1 hs hx hr with
      ⟨_, heq⟩ | ⟨_, s2, a2, calls, hs2, hfree, hlive, hax, _, heq⟩
    · rw [heq]
      exact ⟨⟨hxs, c, hc, hc1, hpool.move _⟩, rfl⟩
    · rw [heq]
      have hdig := hpool.dig hic hs hx hpool.1 (fun _ _ => rfl)
      exact ⟨⟨hxs, c, hc, hc1, hdig.fill hic hs2 hfree hlive hax⟩, rfl⟩

theorem fieldInv_foldl_updateAsteroid (rand : Nat → Nat) (l : List Nat) :
    ∀ w : World, FieldInv w →
      FieldInv (l.foldl (updateAsteroid rand) w) ∧
      (l.foldl (updateAsteroid rand) w).current_num_asteroids = w.current_num_asteroids := by
  induction l with
  | nil => intro w h; exact ⟨h, rfl⟩
  | cons i rest ih =>
    intro w h
    obtain ⟨h1, h2⟩ := fieldInv_updateAsteroid rand w i h
    obtain ⟨h3, h4⟩ := ih _ h1
    rw [List.foldl_cons]
    exact ⟨h3, h4.trans h2⟩

/-- In a state that satisfies the invariant with fewer than five active
obstacles, `spawnNewAsteroidSafely` succeeds: it returns 1 and puts a live
obstacle into the pool entry at the active count, at a slot that was free. -/
theorem spawnNewAsteroidSafely_ok (rand : Nat → Nat) (w : World) (c : Nat)
    (hxs : w.asteroid_slot_x = slotXs) (hpool : PoolOK w.asteroids w.asteroid_slot_used c c)
    (hc : c < 5) :
    ∃ (s2 : Nat) (a2 : Asteroid) (calls : Nat),
      s2 < 5 ∧ w.asteroid_slot_used.getD s2 0 = 0 ∧
      a2.Live ∧ a2.x = slotXs.getD s2 0 ∧ a2.y = -a2.radius - 10 ∧
      spawnNewAsteroidSafely rand w
        = (1, { w with
                asteroids := w.asteroids.set c a2
                asteroid_slot_used := w.asteroid_slot_used.set s2 1
                rand_calls := calls }) := by
  have hcount : w.asteroid_slot_used.countP (fun u => decide (u ≠ 0)) < 5 := by
    have := hpool.2.2.2.2.2.2
    rw [if_neg (lt_irrefl c)] at this
    omega
  obtain ⟨i0, hi0, hfree0⟩ := exists_free_of_countP_lt _ hpool.2.1 hcount
  unfold spawnNewAsteroidSafely
  rcases getFreeAsteroidSlot_cases rand w with ⟨_, hall⟩ | ⟨s2, hs2, hfree, calls, hget⟩
  · exact absurd hfree0 (hall i0 hi0)
  · obtain ⟨a2, hlive, hax, hay, hsp⟩ := spawnAsteroidInSlot_eq rand c s2
      { w with rand_calls := calls } hs2
    refine ⟨s2, a2, calls + 2, hs2, hfree, hlive, ?_, hay, ?_⟩
    · rw [hax]
      show w.asteroid_slot_x.getD s2 0 = _
      rw [hxs]
    · have hne : ¬ (((s2 : Nat) : Int) = -1) := by omega
      have hfind : findUnusedAsteroid ({ w with rand_calls := calls } : World).asteroids
          (List.range MAX_ASTEROIDS) = (c : Int) := findUnusedAsteroid_eq hpool hc
      have hne2 : ¬ (((c : Nat) : Int) = -1) := by omega
      simp only [hget, if_neg hne, hfind, if_neg hne2, Int.toNat_ofNat]
      rw [hsp]

theorem fieldInv_checkScoreMilestones (rand : Nat → Nat) (w w2 : World) (h : FieldInv w)
    (hstep : checkScoreMilestones rand w = some w2) : FieldInv w2 := by
  obtain ⟨hxs, c, hc, hc1, hpool⟩ := h
  unfold checkScoreMilestones at hstep
  split at hstep
  · rename_i hguard
    have hc5 : c < 5 := by
      have := hguard.2
      simp only [MAX_ACTIVE_ASTEROIDS] at this
      omega
    obtain ⟨s2, a2, calls, hs2, hfree, hlive, hax, _, hsp⟩ :=
      spawnNewAsteroidSafely_ok rand w c hxs hpool hc5
    split at hstep
    · exact absurd hstep (by simp)
    · simp only [] at hstep
      split at hstep
      · rw [hsp] at hstep
        simp only [] at hstep
        rw [if_pos (by decide)] at hstep
        rw [← Option.some.inj hstep]
        refine ⟨hxs, c + 1, ?_, by omega, ?_⟩
        · show w.current_num_asteroids + 1 = ((c + 1 : Nat) : Int)
          rw [hc]
          push_cast
          rfl
        · exact (hpool.grow hc5).fill (Nat.lt_succ_self c) hs2 hfree hlive hax
      · rw [← Option.some.inj hstep]
        exact ⟨hxs, c, hc, hc1, hpool⟩
  · rw [← Option.some.inj hstep]
    exact ⟨hxs, c, hc, hc1, hpool⟩

theorem list_length_five {α : Type} (l : List α) (h : l.length = 5) :
    ∃ a b c d e : α, l = [a, b, c, d, e] := by
  match l, h with
  | [a, b, c, d, e], _ => exact ⟨a, b, c, d, e, rfl⟩

/-- The state after `initAsteroids`, for arrays of the declared length 5: slots
laid out, slot 0 used, one live obstacle in pool entry 0 at slot 0, milestone
variables at their start values. -/
theorem initAsteroids_eq (rand : Nat → Nat) (w : World) (h1 : w.asteroids.length = 5)
    (h2 : w.asteroid_slot_used.length = 5) (h3 : w.asteroid_slot_x.length = 5) :
    ∃ a : Asteroid, a.Live ∧ a.x = 12 ∧ a.y = -a.radius - 10 ∧
      initAsteroids rand w
        = { w with
            asteroids := [a, Asteroid.zero, Asteroid.zero, Asteroid.zero, Asteroid.zero]
            asteroid_slot_used := [1, 0, 0, 0, 0]
            asteroid_slot_x := slotXs
            current_num_asteroids := 1
            last_milestone_reached := 0
            next_milestone := 100
            rand_calls := w.rand_calls + 2 } := by
  obtain ⟨a0, a1, a2, a3, a4, ha⟩ := list_length_five _ h1
  obtain ⟨u0, u1, u2, u3, u4, hu⟩ := list_length_five _ h2
  obtain ⟨x0, x1, x2, x3, x4, hx⟩ := list_length_five _ h3
  refine ⟨{ x := 12
            y := -(radius_options.getD (rand w.rand_calls % 4) 0) - 10
            dx := 0
            dy := speed_options.getD (rand (w.rand_calls + 1) % 4) 0
            radius := radius_options.getD (rand w.rand_calls % 4) 0
            sides := 4
            speed := speed_options.getD (rand (w.rand_calls + 1) % 4) 0 },
    ⟨radius_options_mem _, speed_options_mem _, rfl, rfl⟩, rfl, rfl, ?_⟩
  simp [initAsteroids, initAsteroidSlots, spawnAsteroidInSlot, setAsteroidSlotUsed,
    MAX_ASTEROIDS, NUM_ASTEROID_SLOTS, MAX_ACTIVE_ASTEROIDS, List.range, List.range.loop,
    ha, hu, hx, slotXs, SCREEN_WIDTH, SCORE_MILESTONE_BASE]

theorem poolOK_initial (a : Asteroid) (hlive : a.Live) (hx : a.x = 12) :
    PoolOK [a, Asteroid.zero, Asteroid.zero, Asteroid.zero, Asteroid.zero] [1, 0, 0, 0, 0] 1 1 := by
  refine ⟨rfl, rfl, by decide, ?_, ?_, ?_, by decide⟩
  · intro i hi hci
    interval_cases i <;> rfl
  · intro i hi _
    have : i = 0 := by omega
    subst this
    exact ⟨hlive, 0, by decide, hx, by decide⟩
  · intro i j hi hj _ _ _
    omega

theorem fieldInv_initAsteroids (rand : Nat → Nat) (w : World) (h1 : w.asteroids.length = 5)
    (h2 : w.asteroid_slot_used.length = 5) (h3 : w.asteroid_slot_x.length = 5) :
    FieldInv (initAsteroids rand w) := by
  obtain ⟨a, hlive, hx, _, heq⟩ := initAsteroids_eq rand w h1 h2 h3
  rw [heq]
  exact ⟨rfl, 1, rfl, le_refl 1, poolOK_initial a hlive hx⟩

/-- The collision check either leaves the state alone or runs the collision
branch once. -/
theorem checkCollisionsFrom_cases (rand : Nat → Nat) (w : World) (l : List Nat) :
    (checkCollisionsFrom rand w l = w ∧
      ∀ i ∈ l, (w.asteroids.getD i Asteroid.zero).radius ≠ 0 →
        ¬ shipOverlaps w (w.asteroids.getD i Asteroid.zero)) ∨
    (checkCollisionsFrom rand w l = registerCollision rand w ∧
      ∃ i ∈ l, (w.asteroids.getD i Asteroid.zero).radius ≠ 0 ∧
        shipOverlaps w (w.asteroids.getD i Asteroid.zero)) := by
  induction l with
  | nil => left; exact ⟨rfl, fun i hi => absurd hi (List.not_mem_nil i)⟩
  | cons i rest ih =>
    unfold checkCollisionsFrom
    by_cases hr : (w.asteroids.getD i Asteroid.zero).radius = 0
    · rw [if_pos hr]
      rcases ih with ⟨h1, h2⟩ | ⟨h1, j, hj, h2⟩
      · left
        refine ⟨h1, fun j hj hrj => ?_⟩
        rcases List.mem_cons.1 hj with e | e
        · subst e; exact absurd hr hrj
        · exact h2 j e hrj
      · right
        exact ⟨h1, j, List.mem_cons_of_mem _ hj, h2⟩
    · rw [if_neg hr]
      by_cases ho : shipOverlaps w (w.asteroids.getD i Asteroid.zero)
      · rw [if_pos ho]
        right
        exact ⟨rfl, i, List.mem_cons_self _ _, hr, ho⟩
      · rw [if_neg ho]
        rcases ih with ⟨h1, h2⟩ | ⟨h1, j, hj, h2⟩
        · left
          refine ⟨h1, fun j hj hrj => ?_⟩
          rcases List.mem_cons.1 hj with e | e
          · subst e; exact ho
          · exact h2 j e hrj
        · right
          exact ⟨h1, j, List.mem_cons_of_mem _ hj, h2⟩

theorem fieldInv_registerCollision (rand : Nat → Nat) (w : World) (h : FieldInv w) :
    FieldInv (registerCollision rand w) := by
  obtain ⟨hxs, c, hc, hc1, hpool⟩ := h
  unfold registerCollision
  simp only []
  split
  · apply fieldInv_initAsteroids
    · exact hpool.1
    · exact hpool.2.1
    · show w.asteroid_slot_x.length = 5
      rw [hxs]; rfl
  · exact ⟨hxs, c, hc, hc1, hpool⟩

theorem fieldInv_checkCollisions (rand : Nat → Nat) (w : World) (h : FieldInv w) :
    FieldInv (checkCollisions rand w) := by
  unfold checkCollisions
  rcases checkCollisionsFrom_cases rand w (List.range w.current_num_asteroids.toNat) with
    ⟨h1, _⟩ | ⟨h1, _⟩
  · rw [h1]; exact h
  · rw [h1]; exact fieldInv_registerCollision rand w h

/-- The ship part of `updatePositions` writes only the ship position, the
speeds and the accelerometer statics. -/
theorem updateShipPosition_frame (new_accel_x new_accel_y : Int) (w : World) :
    ∃ (sx xs ys ac cx cy : Int),
      updateShipPosition new_accel_x new_accel_y w
        = { w with
            ship_x := sx
            x_speed := xs
            y_speed := ys
            accel_counter := ac
            cached_accel_x := cx
            cached_accel_y := cy } := by
  exact ⟨_, _, _, _, _, _, rfl⟩

theorem fieldInv_updatePositions (rand : Nat → Nat) (new_accel_x new_accel_y : Int)
    (w w2 : World) (h : FieldInv w)
    (hstep : updatePositions rand new_accel_x new_accel_y w = some w2) : FieldInv w2 := by
  unfold updatePositions at hstep
  simp only [] at hstep
  obtain ⟨sx, xs, ys, ac, cx, cy, hship⟩ := updateShipPosition_frame new_accel_x new_accel_y w
  have h1 : FieldInv (updateShipPosition new_accel_x new_accel_y w) := by
    rw [hship]
    exact h.congr rfl rfl rfl rfl
  have h2 := (fieldInv_foldl_updateAsteroid rand
    (List.range (updateShipPosition new_accel_x new_accel_y w).current_num_asteroids.toNat)
    _ h1).1
  exact fieldInv_checkScoreMilestones rand _ w2 h2 hstep

/-- Every reachable state satisfies the invariant. -/
theorem reachable_fieldInv (w : World) (h : Reachable w) : FieldInv w := by
  induction h with
  | init rand w h1 h2 h3 => exact fieldInv_initAsteroids rand w h1 h2 h3
  | update rand ax ay w w2 _ hstep ih => exact fieldInv_updatePositions rand ax ay w w2 ih hstep
  | milestones rand w w2 _ hstep ih => exact fieldInv_checkScoreMilestones rand w w2 ih hstep
  | collisions rand w _ ih => exact fieldInv_checkCollisions rand w ih

/-- The function `initAsteroids` writes only the pool, the slot arrays, the draw
counter and the milestone variables, and sets the latter to 1, 0 and 100. -/
theorem initAsteroids_frame (rand : Nat → Nat) (w : World) :
    ∃ (a : List Asteroid) (u xs : List Int) (calls : Nat),
      initAsteroids rand w
        = { w with
            asteroids := a
            asteroid_slot_used := u
            asteroid_slot_x := xs
            current_num_asteroids := 1
            last_milestone_reached := 0
            next_milestone := 100
            rand_calls := calls } := by
  refine ⟨(initAsteroids rand w).asteroids, (initAsteroids rand w).asteroid_slot_used,
    (initAsteroids rand w).asteroid_slot_x, (initAsteroids rand w).rand_calls, ?_⟩
  simp [initAsteroids, initAsteroidSlots, spawnAsteroidInSlot, setAsteroidSlotUsed,
    MAX_ASTEROIDS, NUM_ASTEROID_SLOTS, MAX_ACTIVE_ASTEROIDS, List.range, List.range.loop,
    SCORE_MILESTONE_BASE]

/-! ## Helper lemmas: the milestone loop and the milestone check -/

theorem milestoneLoop_level1 (s : Int) (h1 : 100 ≤ s) (h2 : s < 1000) :
    milestoneLoop 16 s 0 SCORE_MILESTONE_BASE = some (1, 1000) := by
  have e1 : s ≥ SCORE_MILESTONE_BASE := h1
  have e2 : ¬ (SCORE_MILESTONE_BASE * 10 > INT_MAX) := by decide
  have e3 : ¬ (s ≥ SCORE_MILESTONE_BASE * 10) := by
    show ¬ (s ≥ 1000)
    omega
  show (if s ≥ SCORE_MILESTONE_BASE then
      if SCORE_MILESTONE_BASE * 10 > INT_MAX then none
      else milestoneLoop 15 s (0 + 1) (SCORE_MILESTONE_BASE * 10)
    else some (0, SCORE_MILESTONE_BASE)) = some (1, 1000)
  rw [if_pos e1, if_neg e2]
  show (if s ≥ SCORE_MILESTONE_BASE * 10 then _ else some (0 + 1, SCORE_MILESTONE_BASE * 10))
    = some (1, 1000)
  rw [if_neg e3]
  rfl

theorem milestoneLoop_level2 (s : Int) (h1 : 1000 ≤ s) (h2 : s < 10000) :
    milestoneLoop 16 s 0 SCORE_MILESTONE_BASE = some (2, 10000) := by
  have e1 : s ≥ SCORE_MILESTONE_BASE := by
    show s ≥ 100
    omega
  have e2 : ¬ (SCORE_MILESTONE_BASE * 10 > INT_MAX) := by decide
  have e3 : s ≥ SCORE_MILESTONE_BASE * 10 := h1
  have e4 : ¬ (SCORE_MILESTONE_BASE * 10 * 10 > INT_MAX) := by decide
  have e5 : ¬ (s ≥ SCORE_MILESTONE_BASE * 10 * 10) := by
    show ¬ (s ≥ 10000)
    omega
  show (if s ≥ SCORE_MILESTONE_BASE then
      if SCORE_MILESTONE_BASE * 10 > INT_MAX then none
      else milestoneLoop 15 s (0 + 1) (SCORE_MILESTONE_BASE * 10)
    else some (0, SCORE_MILESTONE_BASE)) = some (2, 10000)
  rw [if_pos e1, if_neg e2]
  show (if s ≥ SCORE_MILESTONE_BASE * 10 then
      if SCORE_MILESTONE_BASE * 10 * 10 > INT_MAX then none
      else milestoneLoop 14 s (0 + 1 + 1) (SCORE_MILESTONE_BASE * 10 * 10)
    else some (0 + 1, SCORE_MILESTONE_BASE * 10)) = some (2, 10000)
  rw [if_pos e3, if_neg e4]
  show (if s ≥ SCORE_MILESTONE_BASE * 10 * 10 then _
    else some (0 + 1 + 1, SCORE_MILESTONE_BASE * 10 * 10)) = some (2, 10000)
  rw [if_neg e5]
  rfl

/-- Below a threshold `t` with `t * 10 ^ 8` inside the `int` range the loop
returns: a cut-off of the iteration count is never what stops it. -/
theorem milestoneLoop_isSome (s : Int) (hs : s < 1000000000) :
    ∃ r : Int × Int, milestoneLoop 16 s 0 SCORE_MILESTONE_BASE = some r := by
  have step : ∀ (fuel : Nat) (lvl t : Int), t * 10 ≤ INT_MAX →
      (∃ r, milestoneLoop fuel s (lvl + 1) (t * 10) = some r) →
      ∃ r, milestoneLoop (fuel + 1) s lvl t = some r := by
    intro fuel lvl t ht hrec
    show ∃ r, (if s ≥ t then
        if t * 10 > INT_MAX then none else milestoneLoop fuel s (lvl + 1) (t * 10)
      else some (lvl, t)) = some r
    by_cases h1 : s ≥ t
    · rw [if_pos h1, if_neg (not_lt.2 ht)]
      exact hrec
    · rw [if_neg h1]
      exact ⟨_, rfl⟩
  have base : ∀ (fuel : Nat) (lvl : Int),
      ∃ r, milestoneLoop (fuel + 1) s lvl 1000000000 = some r := by
    intro fuel lvl
    show ∃ r, (if s ≥ 1000000000 then _ else some (lvl, 1000000000)) = some r
    rw [if_neg (by omega)]
    exact ⟨_, rfl⟩
  refine step 15 0 100 (by decide) (step 14 _ _ (by decide) (step 13 _ _ (by decide)
    (step 12 _ _ (by decide) (step 11 _ _ (by decide) (step 10 _ _ (by decide)
    (step 9 _ _ (by decide) ?_))))))
  exact base 8 _

/-- No free slot: `spawnNewAsteroidSafely` returns 0 and changes nothing. -/
theorem spawnNewAsteroidSafely_no_slot (rand : Nat → Nat) (w : World)
    (h : ∀ i : Nat, i < 5 → w.asteroid_slot_used.getD i 0 ≠ 0) :
    spawnNewAsteroidSafely rand w = (0, w) := by
  unfold spawnNewAsteroidSafely
  rcases getFreeAsteroidSlot_cases rand w with ⟨heq, _⟩ | ⟨s, hs, hfree, _⟩
  · rw [heq]
    rfl
  · exact absurd hfree (h s hs)

theorem findUnusedAsteroid_none (asteroids : List Asteroid)
    (h : ∀ i : Nat, i < 5 → (asteroids.getD i Asteroid.zero).radius ≠ 0) :
    findUnusedAsteroid asteroids (List.range MAX_ASTEROIDS) = -1 := by
  have hrange : List.range MAX_ASTEROIDS = [0, 1, 2, 3, 4] := by decide
  rw [hrange]
  simp only [findUnusedAsteroid, if_neg (h 0 (by decide)), if_neg (h 1 (by decide)),
    if_neg (h 2 (by decide)), if_neg (h 3 (by decide)), if_neg (h 4 (by decide))]

/-- No unused pool entry: `spawnNewAsteroidSafely` returns 0; only draws of
`getFreeAsteroidSlot` may have been consumed. -/
theorem spawnNewAsteroidSafely_no_entry (rand : Nat → Nat) (w : World)
    (h : ∀ i : Nat, i < 5 → (w.asteroids.getD i Asteroid.zero).radius ≠ 0) :
    ∃ calls : Nat, spawnNewAsteroidSafely rand w = (0, { w with rand_calls := calls }) := by
  unfold spawnNewAsteroidSafely
  rcases getFreeAsteroidSlot_cases rand w with ⟨heq, _⟩ | ⟨s, hs, hfree, calls, heq⟩
  · rw [heq]
    exact ⟨w.rand_calls, rfl⟩
  · rw [heq]
    have hne : ¬ (((s : Nat) : Int) = -1) := by omega
    have hfind : findUnusedAsteroid ({ w with rand_calls := calls } : World).asteroids
        (List.range MAX_ASTEROIDS) = -1 := findUnusedAsteroid_none _ h
    simp only [if_neg hne, hfind, if_true]
    exact ⟨calls, rfl⟩

/-- The milestone check, when its guard holds and the loop has returned level
`L` and threshold `T`: what it does with the result `r` of
`spawnNewAsteroidSafely`. -/
theorem checkScoreMilestones_eq (rand : Nat → Nat) (w : World) (L T : Int)
    (hguard : w.player_score ≥ w.next_milestone ∧
      w.current_num_asteroids < (MAX_ACTIVE_ASTEROIDS : Int))
    (hloop : milestoneLoop 16 w.player_score 0 SCORE_MILESTONE_BASE = some (L, T)) :
    checkScoreMilestones rand w
      = if L > w.last_milestone_reached then
          if (spawnNewAsteroidSafely rand w).1 > 0 then
            some
              { (spawnNewAsteroidSafely rand w).2 with
                last_milestone_reached := L
                current_num_asteroids :=
                  (spawnNewAsteroidSafely rand w).2.current_num_asteroids + 1
                next_milestone := T }
          else some (spawnNewAsteroidSafely rand w).2
        else some w := by
  unfold checkScoreMilestones
  rw [if_pos hguard, hloop]

theorem checkScoreMilestones_idle (rand : Nat → Nat) (w : World)
    (hguard : ¬ (w.player_score ≥ w.next_milestone ∧
      w.current_num_asteroids < (MAX_ACTIVE_ASTEROIDS : Int))) :
    checkScoreMilestones rand w = some w := by
  unfold checkScoreMilestones
  rw [if_neg hguard]

/-- The milestone check on a state that satisfies the invariant, when a new
level `L` is reached: one obstacle is added at the pool entry of the active
count, in a free slot, and the three milestone variables are updated. -/
theorem checkScoreMilestones_fire (rand : Nat → Nat) (w : World) (c : Nat) (L T : Int)
    (hxs : w.asteroid_slot_x = slotXs) (hc : w.current_num_asteroids = (c : Int))
    (hpool : PoolOK w.asteroids w.asteroid_slot_used c c) (hc5 : c < 5)
    (hscore : w.player_score ≥ w.next_milestone)
    (hloop : milestoneLoop 16 w.player_score 0 SCORE_MILESTONE_BASE = some (L, T))
    (hL : L > w.last_milestone_reached) :
    ∃ (s2 : Nat) (a2 : Asteroid) (calls : Nat),
      s2 < 5 ∧ w.asteroid_slot_used.getD s2 0 = 0 ∧ a2.Live ∧ a2.x = slotXs.getD s2 0 ∧
      checkScoreMilestones rand w
        = some
          { w with
            asteroids := w.asteroids.set c a2
            asteroid_slot_used := w.asteroid_slot_used.set s2 1
            rand_calls := calls
            last_milestone_reached := L
            current_num_asteroids := w.current_num_asteroids + 1
            next_milestone := T } := by
  obtain ⟨s2, a2, calls, hs2, hfree, hlive, hax, _, hsp⟩ :=
    spawnNewAsteroidSafely_ok rand w c hxs hpool hc5
  refine ⟨s2, a2, calls, hs2, hfree, hlive, hax, ?_⟩
  have hguard : w.player_score ≥ w.next_milestone ∧
      w.current_num_asteroids < (MAX_ACTIVE_ASTEROIDS : Int) := by
    refine ⟨hscore, ?_⟩
    simp only [MAX_ACTIVE_ASTEROIDS]
    omega
  rw [checkScoreMilestones_eq rand w L T hguard hloop, if_pos hL, hsp]
  simp only []
  rw [if_pos (by decide)]

/-- The two outcomes of `spawnNewAsteroidSafely` in any state: 0 and the pool
untouched, or 1 and one pool entry replaced. The active count is not written. -/
theorem spawnNewAsteroidSafely_cases (rand : Nat → Nat) (w : World) :
    (spawnNewAsteroidSafely rand w).2.current_num_asteroids = w.current_num_asteroids ∧
    (((spawnNewAsteroidSafely rand w).1 = 0 ∧
        (spawnNewAsteroidSafely rand w).2.asteroids = w.asteroids) ∨
      ((spawnNewAsteroidSafely rand w).1 = 1 ∧
        ∃ (idx : Nat) (a : Asteroid),
          (spawnNewAsteroidSafely rand w).2.asteroids = w.asteroids.set idx a)) := by
  obtain ⟨calls, hg⟩ := getFreeAsteroidSlot_frame rand w
  unfold spawnNewAsteroidSafely
  simp only []
  split
  · rw [hg]
    exact ⟨rfl, Or.inl ⟨rfl, rfl⟩⟩
  · split
    · rw [hg]
      exact ⟨rfl, Or.inl ⟨rfl, rfl⟩⟩
    · simp only [spawnAsteroidInSlot, setAsteroidSlotUsed]
      rw [hg]
      split
      · exact ⟨rfl, Or.inr ⟨trivial, _, _, rfl⟩⟩
      · exact ⟨rfl, Or.inr ⟨trivial, _, _, rfl⟩⟩

/-! ## Helper lemmas: one simulation frame -/

/-- What `updatePositions` leaves alone: lives and mode. -/
theorem updatePositions_keeps (rand : Nat → Nat) (new_accel_x new_accel_y : Int) (w w1 : World)
    (h : updatePositions rand new_accel_x new_accel_y w = some w1) :
    w1.player_lives = w.player_lives ∧ w1.current_game_state = w.current_game_state := by
  unfold updatePositions at h
  simp only [] at h
  obtain ⟨sx, xs, ys, ac, cx, cy, hship⟩ := updateShipPosition_frame new_accel_x new_accel_y w
  obtain ⟨a, u, score, calls, hfold⟩ := updateAsteroid_foldl_frame rand
    (List.range (updateShipPosition new_accel_x new_accel_y w).current_num_asteroids.toNat)
    (updateShipPosition new_accel_x new_accel_y w)
  obtain ⟨a2, u2, calls2, cnt, last, next, hms⟩ := checkScoreMilestones_frame rand _ w1 h
  rw [hms, hfold, hship]
  exact ⟨rfl, rfl⟩

/-- The collision branch: one life less; score and mode as before. -/
theorem registerCollision_keeps (rand : Nat → Nat) (w : World) :
    (registerCollision rand w).player_lives = w.player_lives - 1 ∧
    (registerCollision rand w).player_score = w.player_score ∧
    (registerCollision rand w).current_game_state = w.current_game_state := by
  unfold registerCollision
  simp only []
  split
  · obtain ⟨a1, u1, x1, c1, hfr⟩ := initAsteroids_frame rand
      { w with
        player_lives := w.player_lives - 1
        ship_x := SCREEN_WIDTH / 2
        ship_y := SCREEN_HEIGHT - 32
        x_speed := 0
        y_speed := 0 }
    rw [hfr]
    exact ⟨rfl, rfl, rfl⟩
  · exact ⟨rfl, rfl, rfl⟩

/-- The collision check registers a collision exactly under `frameCollides`. -/
theorem checkCollisions_cases (rand : Nat → Nat) (w : World) :
    (¬ frameCollides w ∧ checkCollisions rand w = w) ∨
    (frameCollides w ∧ checkCollisions rand w = registerCollision rand w) := by
  have hrange : ∀ i : Nat, i ∈ List.range w.current_num_asteroids.toNat ↔
      (i : Int) < w.current_num_asteroids := by
    intro i
    rw [List.mem_range]
    omega
  unfold checkCollisions
  rcases checkCollisionsFrom_cases rand w (List.range w.current_num_asteroids.toNat) with
    ⟨h1, h2⟩ | ⟨h1, i, hi, hr, ho⟩
  · left
    refine ⟨?_, h1⟩
    rintro ⟨i, hi, hr, ho⟩
    exact h2 i ((hrange i).2 hi) hr ho
  · right
    exact ⟨⟨i, (hrange i).1 hi, hr, ho⟩, h1⟩

theorem endGame_keeps (awsHighScore : Int) (w : World) :
    (endGame awsHighScore w).current_game_state = GameState.GAME_STATE_WAITING_RESTART ∧
    (endGame awsHighScore w).player_lives = w.player_lives ∧
    (endGame awsHighScore w).player_score = w.player_score ∧
    (endGame awsHighScore w).asteroid_slot_x = w.asteroid_slot_x ∧
    (endGame awsHighScore w).current_num_asteroids = w.current_num_asteroids ∧
    (endGame awsHighScore w).asteroids = w.asteroids ∧
    (endGame awsHighScore w).asteroid_slot_used = w.asteroid_slot_used := by
  unfold endGame
  by_cases h : w.player_score > awsHighScore
  · simp only [if_pos h, and_self]
  · simp only [if_neg h, and_self]

/-- The simulation frame in terms of its parts. -/
theorem simulationFrame_eq (rand : Nat → Nat) (new_accel_x new_accel_y awsHighScore : Int)
    (w w1 : World) (h : updatePositions rand new_accel_x new_accel_y w = some w1) :
    simulationFrame rand new_accel_x new_accel_y awsHighScore w
      = if (checkCollisions rand w1).player_lives = 0 then
          some (endGame awsHighScore
            { checkCollisions rand w1 with
              current_game_state := GameState.GAME_STATE_GAME_OVER })
        else some (checkCollisions rand w1) := by
  unfold simulationFrame
  rw [h]

theorem simulationFrame_some (rand : Nat → Nat) (new_accel_x new_accel_y awsHighScore : Int)
    (w w2 : World)
    (h : simulationFrame rand new_accel_x new_accel_y awsHighScore w = some w2) :
    ∃ w1 : World, updatePositions rand new_accel_x new_accel_y w = some w1 := by
  cases hupd : updatePositions rand new_accel_x new_accel_y w with
  | none =>
    unfold simulationFrame at h
    rw [hupd] at h
    exact absurd h (by simp)
  | some w1 => exact ⟨w1, rfl⟩

/-- One executed frame from a playing state: lives drop by at most one; the
mode afterwards is waiting-restart when no lives are left and playing
otherwise; the score is that after `updatePositions`. -/
theorem simulationFrame_effect (rand : Nat → Nat) (new_accel_x new_accel_y awsHighScore : Int)
    (w w1 w2 : World) (hmode : w.current_game_state = GameState.GAME_STATE_PLAYING)
    (hupd : updatePositions rand new_accel_x new_accel_y w = some w1)
    (h : simulationFrame rand new_accel_x new_accel_y awsHighScore w = some w2) :
    w2.player_lives = (checkCollisions rand w1).player_lives ∧
    w2.player_score = w1.player_score ∧
    (¬ frameCollides w1 → w2.player_lives = w.player_lives) ∧
    (frameCollides w1 → w2.player_lives = w.player_lives - 1) ∧
    (w2.player_lives = 0 →
      w2 = endGame awsHighScore
        { checkCollisions rand w1 with
          current_game_state := GameState.GAME_STATE_GAME_OVER } ∧
      w2.current_game_state = GameState.GAME_STATE_WAITING_RESTART) ∧
    (w2.player_lives ≠ 0 →
      w2 = checkCollisions rand w1 ∧
      w2.current_game_state = GameState.GAME_STATE_PLAYING) := by
  obtain ⟨hl1, hm1⟩ := updatePositions_keeps rand new_accel_x new_accel_y w w1 hupd
  obtain ⟨rl, rs, rm⟩ := registerCollision_keeps rand w1
  have hcc : (checkCollisions rand w1).player_score = w1.player_score ∧
      (checkCollisions rand w1).current_game_state = GameState.GAME_STATE_PLAYING ∧
      (¬ frameCollides w1 → (checkCollisions rand w1).player_lives = w.player_lives) ∧
      (frameCollides w1 → (checkCollisions rand w1).player_lives = w.player_lives - 1) := by
    rcases checkCollisions_cases rand w1 with ⟨hn, heq⟩ | ⟨hc, heq⟩
    · rw [heq]
      exact ⟨rfl, by rw [hm1, hmode], fun _ => hl1, fun hc => absurd hc hn⟩
    · rw [heq]
      exact ⟨rs, by rw [rm, hm1, hmode], fun hn => absurd hc hn, fun _ => by rw [rl, hl1]⟩
  obtain ⟨c1, c2, c3, c4⟩ := hcc
  rw [simulationFrame_eq rand new_accel_x new_accel_y awsHighScore w w1 hupd] at h
  obtain ⟨e1, e2, e3, _, _, _, _⟩ := endGame_keeps awsHighScore
    { checkCollisions rand w1 with current_game_state := GameState.GAME_STATE_GAME_OVER }
  by_cases hz : (checkCollisions rand w1).player_lives = 0
  · rw [if_pos hz] at h
    have hw2 := (Option.some.inj h).symm
    have hlives : w2.player_lives = (checkCollisions rand w1).player_lives := by
      rw [hw2, e2]
    refine ⟨hlives, by rw [hw2, e3]; exact c1, fun hn => by rw [hlives]; exact c3 hn,
      fun hc => by rw [hlives]; exact c4 hc, fun _ => ⟨hw2, by rw [hw2]; exact e1⟩, ?_⟩
    intro hne
    rw [hlives] at hne
    exact absurd hz hne
  · rw [if_neg hz] at h
    have hw2 := (Option.some.inj h).symm
    rw [hw2]
    exact ⟨rfl, c1, c3, c4, fun h0 => absurd h0 hz, fun _ => ⟨rfl, c2⟩⟩

/-! ## Helper lemmas: score and lives within a round -/

/-- The 32-bit reduction yields a value of the `int` range. -/
theorem toInt32_range (n : Nat) : -2147483648 ≤ toInt32 n ∧ toInt32 n ≤ INT_MAX := by
  unfold toInt32 INT_MAX
  have h32 : (2 : Nat) ^ 32 = 4294967296 := by norm_num
  have h31 : (2 : Nat) ^ 31 = 2147483648 := by norm_num
  have hi : (2 : Int) ^ 32 = 4294967296 := by norm_num
  rw [h32, h31, hi]
  split_ifs <;> omega

/-- The 32-bit reduction leaves a value of the `int` range as it is. -/
theorem toInt32_toUInt32 (i : Int) (h1 : -2147483648 ≤ i) (h2 : i ≤ INT_MAX) :
    toInt32 (toUInt32 i) = i := by
  unfold toInt32 toUInt32
  have h2b : i ≤ 2147483647 := h2
  have h32 : (2 : Nat) ^ 32 = 4294967296 := by norm_num
  have h31 : (2 : Nat) ^ 31 = 2147483648 := by norm_num
  have hi : (2 : Int) ^ 32 = 4294967296 := by norm_num
  rw [h32, h31, hi]
  split_ifs <;> omega

/-- A sum above `INT_MAX` (by less than 2^32) comes out 2^32 lower. -/
theorem toInt32_toUInt32_wrap (i : Int) (h1 : INT_MAX < i) (h2 : i ≤ 6442450943) :
    toInt32 (toUInt32 i) = i - 4294967296 := by
  unfold toInt32 toUInt32
  have h1b : 2147483647 < i := h1
  have h32 : (2 : Nat) ^ 32 = 4294967296 := by norm_num
  have h31 : (2 : Nat) ^ 31 = 2147483648 := by norm_num
  have hi : (2 : Int) ^ 32 = 4294967296 := by norm_num
  rw [h32, h31, hi]
  split_ifs <;> omega

/-- One step of the obstacle loop on the score: unchanged, or the 32-bit sum of
the score and the points `p = radius * speed` of the retired obstacle, with
`6 <= p <= 48`. -/
theorem updateAsteroid_score (rand : Nat → Nat) (w : World) (i : Nat) (h : FieldInv w) :
    (updateAsteroid rand w i).player_score = w.player_score ∨
    ∃ p : Int, 6 ≤ p ∧ p ≤ 48 ∧
      (updateAsteroid rand w i).player_score = toInt32 (toUInt32 (w.player_score + p)) := by
  by_cases hr : (w.asteroids.getD i Asteroid.zero).radius = 0
  · rw [updateAsteroid_unused rand w i hr]
    exact Or.inl rfl
  · obtain ⟨hxs, c, hc, hc1, hpool⟩ := h
    obtain ⟨hic, s, hs, hx⟩ := hpool.active_lt hr
    obtain ⟨⟨hrad, hdy, hspeed, _⟩, _⟩ := hpool.2.2.2.2.1 i hic (Nat.ne_of_lt hic)
    rcases updateAsteroid_cases rand w i s hxs hpool.2.1 hs hx hr with
      ⟨_, heq⟩ | ⟨_, s2, a2, calls, _, _, _, _, _, heq⟩
    · rw [heq]
      exact Or.inl rfl
    · right
      have h1 : 6 ≤ (w.asteroids.getD i Asteroid.zero).radius ∧
          (w.asteroids.getD i Asteroid.zero).radius ≤ 12 := by
        simp only [List.mem_cons, List.mem_singleton, List.not_mem_nil, or_false] at hrad
        omega
      have h2 : 1 ≤ (w.asteroids.getD i Asteroid.zero).speed ∧
          (w.asteroids.getD i Asteroid.zero).speed ≤ 4 := by
        rw [hspeed]
        simp only [List.mem_cons, List.mem_singleton, List.not_mem_nil, or_false] at hdy
        omega
      have h3 := mul_le_mul h1.2 h2.2 (by omega) (by norm_num : (0 : Int) ≤ 12)
      have h4 := mul_le_mul h1.1 h2.1 (by norm_num : (0 : Int) ≤ 1)
        (by omega : (0 : Int) ≤ (w.asteroids.getD i Asteroid.zero).radius)
      refine ⟨(w.asteroids.getD i Asteroid.zero).radius * (w.asteroids.getD i Asteroid.zero).speed,
        by omega, by omega, ?_⟩
      rw [heq]

/-- A loop step keeps the score within the `int` range. -/
theorem updateAsteroid_score_range (rand : Nat → Nat) (w : World) (i : Nat) (h : FieldInv w)
    (hr : -2147483648 ≤ w.player_score ∧ w.player_score ≤ INT_MAX) :
    -2147483648 ≤ (updateAsteroid rand w i).player_score ∧
    (updateAsteroid rand w i).player_score ≤ INT_MAX := by
  rcases updateAsteroid_score rand w i h with heq | ⟨p, _, _, heq⟩
  · rw [heq]
    exact hr
  · rw [heq]
    exact toInt32_range _

/-- A loop step whose sum stays within the `int` range does not lower the
score and adds at most 48. -/
theorem updateAsteroid_score_le (rand : Nat → Nat) (w : World) (i : Nat) (h : FieldInv w)
    (hlo : -2147483648 ≤ w.player_score) (hhi : w.player_score + 48 ≤ INT_MAX) :
    w.player_score ≤ (updateAsteroid rand w i).player_score ∧
    (updateAsteroid rand w i).player_score ≤ w.player_score + 48 := by
  rcases updateAsteroid_score rand w i h with heq | ⟨p, hp0, hp48, heq⟩
  · rw [heq]
    omega
  · rw [heq, toInt32_toUInt32 _ (by omega) (by omega)]
    omega

theorem foldl_updateAsteroid_score_range (rand : Nat → Nat) (l : List Nat) :
    ∀ w : World, FieldInv w →
      (-2147483648 ≤ w.player_score ∧ w.player_score ≤ INT_MAX) →
      -2147483648 ≤ (l.foldl (updateAsteroid rand) w).player_score ∧
      (l.foldl (updateAsteroid rand) w).player_score ≤ INT_MAX := by
  induction l with
  | nil => intro w _ hr; exact hr
  | cons i l ih =>
    intro w h hr
    exact ih _ (fieldInv_updateAsteroid rand w i h).1 (updateAsteroid_score_range rand w i h hr)

theorem foldl_updateAsteroid_score_le (rand : Nat → Nat) (l : List Nat) :
    ∀ w : World, FieldInv w → -2147483648 ≤ w.player_score →
      w.player_score + 48 * (l.length : Int) ≤ INT_MAX →
      w.player_score ≤ (l.foldl (updateAsteroid rand) w).player_score ∧
      (l.foldl (updateAsteroid rand) w).player_score
        ≤ w.player_score + 48 * (l.length : Int) := by
  induction l with
  | nil =>
    intro w _ _ _
    show w.player_score ≤ w.player_score ∧ w.player_score ≤ w.player_score + 48 * ((0 : Nat) : Int)
    omega
  | cons i l ih =>
    intro w h hlo hhi
    have h3 : (((i :: l).length : Nat) : Int) = (l.length : Int) + 1 := by
      rw [List.length_cons]
      push_cast
      rfl
    rw [h3] at hhi ⊢
    have hlen : (0 : Int) ≤ (l.length : Int) := Int.ofNat_nonneg _
    have h1 := updateAsteroid_score_le rand w i h hlo (by omega)
    have h2 := ih _ (fieldInv_updateAsteroid rand w i h).1 (by omega) (by omega)
    show w.player_score ≤ (l.foldl (updateAsteroid rand) (updateAsteroid rand w i)).player_score ∧
      (l.foldl (updateAsteroid rand) (updateAsteroid rand w i)).player_score ≤ _
    omega

/-- The frame of the obstacle loop on the milestone state. -/
theorem foldl_updateAsteroid_keeps (rand : Nat → Nat) (l : List Nat) (w : World) :
    (l.foldl (updateAsteroid rand) w).last_milestone_reached = w.last_milestone_reached ∧
    (l.foldl (updateAsteroid rand) w).next_milestone = w.next_milestone ∧
    (l.foldl (updateAsteroid rand) w).current_num_asteroids = w.current_num_asteroids ∧
    (l.foldl (updateAsteroid rand) w).player_lives = w.player_lives := by
  obtain ⟨a, u, score, calls, hfold⟩ := updateAsteroid_foldl_frame rand l w
  rw [hfold]
  exact ⟨rfl, rfl, rfl, rfl⟩

/-- The score after `updatePositions` is the score after its obstacle loop. -/
theorem updatePositions_score (rand : Nat → Nat) (new_accel_x new_accel_y : Int)
    (w w1 : World) (hstep : updatePositions rand new_accel_x new_accel_y w = some w1) :
    w1.player_score
      = ((List.range (updateShipPosition new_accel_x new_accel_y w).current_num_asteroids.toNat).foldl
          (updateAsteroid rand) (updateShipPosition new_accel_x new_accel_y w)).player_score := by
  unfold updatePositions at hstep
  simp only [] at hstep
  obtain ⟨a2, u2, calls2, cnt, last, next, hms⟩ := checkScoreMilestones_frame rand _ w1 hstep
  rw [hms]
  rfl

theorem fieldInv_updateShipPosition (new_accel_x new_accel_y : Int) (w : World)
    (h : FieldInv w) :
    FieldInv (updateShipPosition new_accel_x new_accel_y w) ∧
    (updateShipPosition new_accel_x new_accel_y w).player_score = w.player_score ∧
    (updateShipPosition new_accel_x new_accel_y w).current_num_asteroids
      = w.current_num_asteroids := by
  obtain ⟨sx, xs, ys, ac, cx, cy, hship⟩ := updateShipPosition_frame new_accel_x new_accel_y w
  rw [hship]
  exact ⟨h.congr rfl rfl rfl rfl, rfl, rfl⟩

/-- The obstacle loop runs over at most 5 indices. -/
theorem fieldInv_count_le (w : World) (h : FieldInv w) :
    ((List.range w.current_num_asteroids.toNat).length : Int) ≤ 5 := by
  obtain ⟨_, c, hc, _, hpool⟩ := h
  have hc5 : c ≤ 5 := hpool.2.2.1
  rw [List.length_range, hc]
  omega

/-- A call of `updatePositions` from a score of at most `INT_MAX - 240` does not
lower the score: the obstacle loop adds at most 5 * 48 points, so no sum leaves
the `int` range. -/
theorem updatePositions_score_le (rand : Nat → Nat) (new_accel_x new_accel_y : Int)
    (w w1 : World) (h : FieldInv w) (hlo : -2147483648 ≤ w.player_score)
    (hhi : w.player_score ≤ INT_MAX - 240)
    (hstep : updatePositions rand new_accel_x new_accel_y w = some w1) :
    w.player_score ≤ w1.player_score ∧ w1.player_score ≤ w.player_score + 240 := by
  obtain ⟨h1, h4, h5⟩ := fieldInv_updateShipPosition new_accel_x new_accel_y w h
  have hlen := fieldInv_count_le _ h1
  have h2 := foldl_updateAsteroid_score_le rand
    (List.range (updateShipPosition new_accel_x new_accel_y w).current_num_asteroids.toNat)
    _ h1 (by rw [h4]; exact hlo) (by rw [h4]; omega)
  rw [updatePositions_score rand new_accel_x new_accel_y w w1 hstep]
  rw [h4] at h2
  omega

/-- A call of `updatePositions` keeps the score within the `int` range. -/
theorem updatePositions_score_range (rand : Nat → Nat) (new_accel_x new_accel_y : Int)
    (w w1 : World) (h : FieldInv w)
    (hr : -2147483648 ≤ w.player_score ∧ w.player_score ≤ INT_MAX)
    (hstep : updatePositions rand new_accel_x new_accel_y w = some w1) :
    -2147483648 ≤ w1.player_score ∧ w1.player_score ≤ INT_MAX := by
  obtain ⟨h1, h4, _⟩ := fieldInv_updateShipPosition new_accel_x new_accel_y w h
  rw [updatePositions_score rand new_accel_x new_accel_y w w1 hstep]
  exact foldl_updateAsteroid_score_range rand _ _ h1 (by rw [h4]; exact hr)

/-- The pool invariant across one simulation frame. -/
theorem fieldInv_simulationFrame (rand : Nat → Nat)
    (new_accel_x new_accel_y awsHighScore : Int) (w w2 : World) (h : FieldInv w)
    (hframe : simulationFrame rand new_accel_x new_accel_y awsHighScore w = some w2) :
    FieldInv w2 := by
  obtain ⟨w1, hupd⟩ := simulationFrame_some rand new_accel_x new_accel_y awsHighScore w w2 hframe
  have h1 := fieldInv_updatePositions rand new_accel_x new_accel_y w w1 h hupd
  have h2 := fieldInv_checkCollisions rand w1 h1
  rw [simulationFrame_eq rand new_accel_x new_accel_y awsHighScore w w1 hupd] at hframe
  obtain ⟨_, _, _, e4, e5, e6, e7⟩ := endGame_keeps awsHighScore
    { checkCollisions rand w1 with current_game_state := GameState.GAME_STATE_GAME_OVER }
  by_cases hz : (checkCollisions rand w1).player_lives = 0
  · rw [if_pos hz] at hframe
    rw [← Option.some.inj hframe]
    exact h2.congr e4 e5 e6 e7
  · rw [if_neg hz] at hframe
    rw [← Option.some.inj hframe]
    exact h2

/-- A button event while playing changes at most the two speeds. -/
theorem onButtonPress_playing (rand : Nat → Nat) (button : Int) (w : World)
    (hmode : w.current_game_state = GameState.GAME_STATE_PLAYING) :
    onButtonPress rand button w = w ∨
    onButtonPress rand button w = { w with x_speed := 0, y_speed := 0 } := by
  unfold onButtonPress
  rw [hmode]
  simp only []
  split_ifs
  all_goals first | exact Or.inl rfl | exact Or.inr rfl

/-- Below a score of 10^9 the milestone check returns. -/
theorem checkScoreMilestones_isSome (rand : Nat → Nat) (w : World)
    (hs : w.player_score < 1000000000) : ∃ w2 : World, checkScoreMilestones rand w = some w2 := by
  by_cases hguard : w.player_score ≥ w.next_milestone ∧
      w.current_num_asteroids < (MAX_ACTIVE_ASTEROIDS : Int)
  · obtain ⟨⟨L, T⟩, hloop⟩ := milestoneLoop_isSome w.player_score hs
    rw [checkScoreMilestones_eq rand w L T hguard hloop]
    split_ifs
    all_goals exact ⟨_, rfl⟩
  · exact ⟨w, checkScoreMilestones_idle rand w hguard⟩

/-- With the pool invariant and a score of the `int` range below 10^9 - 240,
`updatePositions` returns: the obstacle loop adds at most 5 * 48 points. -/
theorem updatePositions_isSome (rand : Nat → Nat) (new_accel_x new_accel_y : Int) (w : World)
    (h : FieldInv w) (hlo : -2147483648 ≤ w.player_score) (hs : w.player_score < 999999760) :
    ∃ w1 : World, updatePositions rand new_accel_x new_accel_y w = some w1 := by
  obtain ⟨h1, h4, h5⟩ := fieldInv_updateShipPosition new_accel_x new_accel_y w h
  have hlen := fieldInv_count_le _ h1
  have h2 := foldl_updateAsteroid_score_le rand
    (List.range (updateShipPosition new_accel_x new_accel_y w).current_num_asteroids.toNat)
    _ h1 (by rw [h4]; exact hlo) (by rw [h4]; unfold INT_MAX; omega)
  unfold updatePositions
  simp only []
  apply checkScoreMilestones_isSome
  rw [h4] at h2
  omega

/-- The invariant of a round: the score is within the `int` range; after `k`
colliding frames the lives are `3 - k`; the mode is playing while `k < 3` and
waiting-restart once `k = 3`. -/
theorem inRound_inv (k : Nat) (w : World) (h : InRound k w) :
    FieldInv w ∧ (-2147483648 ≤ w.player_score ∧ w.player_score ≤ INT_MAX) ∧
    w.player_lives = 3 - (k : Int) ∧ k ≤ 3 ∧
    (k < 3 → w.current_game_state = GameState.GAME_STATE_PLAYING) ∧
    (k = 3 → w.current_game_state = GameState.GAME_STATE_WAITING_RESTART) := by
  induction h with
  | start rand w h1 h2 h3 =>
    have hinv : FieldInv (varInit rand w) := fieldInv_initAsteroids rand _ h1 h2 h3
    obtain ⟨a1, u1, x1, c1, hfr⟩ := initAsteroids_frame rand
      { w with
        player_lives := 3
        player_score := 0
        ship_x := SCREEN_WIDTH / 2
        ship_y := SCREEN_HEIGHT - 32
        ship_size := 10
        x_speed := 0
        y_speed := 0 }
    have hv : varInit rand w = _ := hfr
    refine ⟨hinv.congr rfl rfl rfl rfl, ?_, ?_, by omega, fun _ => rfl, fun h0 => by omega⟩
    · rw [hv]
      exact ⟨(by decide : (-2147483648 : Int) ≤ 0), (by decide : (0 : Int) ≤ INT_MAX)⟩
    · rw [hv]
      rfl
  | hit rand ax ay aws k w w1 w2 _ hmode hupd hcol hframe ih =>
    obtain ⟨hinv, hscore, hlives, hk, _, hk3⟩ := ih
    have hklt : k < 3 := by
      rcases Nat.lt_or_ge k 3 with hlt | hge
      · exact hlt
      · have := hk3 (by omega)
        rw [hmode] at this
        exact absurd this (by decide)
    obtain ⟨_, e2, _, e4, e5, e6⟩ :=
      simulationFrame_effect rand ax ay aws w w1 w2 hmode hupd hframe
    have hl2 : w2.player_lives = 3 - ((k + 1 : Nat) : Int) := by
      rw [e4 hcol, hlives]
      push_cast
      omega
    refine ⟨fieldInv_simulationFrame rand ax ay aws w w2 hinv hframe, ?_, hl2, by omega, ?_, ?_⟩
    · rw [e2]
      exact updatePositions_score_range rand ax ay w w1 hinv hscore hupd
    · intro hlt
      refine (e6 ?_).2
      rw [hl2]
      push_cast
      omega
    · intro heq
      refine (e5 ?_).2
      rw [hl2]
      push_cast
      omega
  | miss rand ax ay aws k w w1 w2 _ hmode hupd hcol hframe ih =>
    obtain ⟨hinv, hscore, hlives, hk, _, hk3⟩ := ih
    have hklt : k < 3 := by
      rcases Nat.lt_or_ge k 3 with hlt | hge
      · exact hlt
      · have := hk3 (by omega)
        rw [hmode] at this
        exact absurd this (by decide)
    obtain ⟨_, e2, e3, _, e5, e6⟩ :=
      simulationFrame_effect rand ax ay aws w w1 w2 hmode hupd hframe
    have hl2 : w2.player_lives = 3 - (k : Int) := by
      rw [e3 hcol, hlives]
    refine ⟨fieldInv_simulationFrame rand ax ay aws w w2 hinv hframe, ?_, hl2, hk, ?_, ?_⟩
    · rw [e2]
      exact updatePositions_score_range rand ax ay w w1 hinv hscore hupd
    · intro hlt
      refine (e6 ?_).2
      rw [hl2]
      omega
    · intro heq
      omega
  | press rand button k w _ hmode ih =>
    obtain ⟨hinv, hscore, hlives, hk, hp, hk3⟩ := ih
    rcases onButtonPress_playing rand button w hmode with heq | heq
    · rw [heq]
      exact ⟨hinv, hscore, hlives, hk, hp, hk3⟩
    · rw [heq]
      exact ⟨hinv.congr rfl rfl rfl rfl, hscore, hlives, hk, hp, hk3⟩

/-! ## Helper lemmas: the milestone loop for any level -/

theorem milestoneLoop_step_ge (fuel : Nat) (s lvl t : Int) (h1 : s ≥ t)
    (h2 : t * 10 ≤ INT_MAX) :
    milestoneLoop (fuel + 1) s lvl t = milestoneLoop fuel s (lvl + 1) (t * 10) := by
  show (if s ≥ t then
      if t * 10 > INT_MAX then none else milestoneLoop fuel s (lvl + 1) (t * 10)
    else some (lvl, t)) = _
  rw [if_pos h1, if_neg (not_lt.2 h2)]

theorem milestoneLoop_step_lt (fuel : Nat) (s lvl t : Int) (h : s < t) :
    milestoneLoop (fuel + 1) s lvl t = some (lvl, t) := by
  show (if s ≥ t then
      if t * 10 > INT_MAX then none else milestoneLoop fuel s (lvl + 1) (t * 10)
    else some (lvl, t)) = _
  rw [if_neg (not_le.2 h)]

/-- The loop run from level `lvl` and threshold `t`: when exactly the `n`
thresholds `t, 10 t, .., 10^(n-1) t` are at most the score and `10^n t` is within
the `int` range, the loop returns level `lvl + n` and threshold `10^n t`. -/
theorem milestoneLoop_run (s : Int) (n : Nat) :
    ∀ (fuel : Nat) (lvl t : Int), 0 < t →
      (∀ j : Nat, j < n → t * 10 ^ j ≤ s) → s < t * 10 ^ n → t * 10 ^ n ≤ INT_MAX →
      milestoneLoop (fuel + n + 1) s lvl t = some (lvl + (n : Int), t * 10 ^ n) := by
  induction n with
  | zero =>
    intro fuel lvl t _ _ hlt _
    rw [pow_zero, mul_one] at hlt
    rw [milestoneLoop_step_lt _ s lvl t hlt]
    simp
  | succ n ih =>
    intro fuel lvl t ht hle hlt hmax
    have h0 : t ≤ s := by
      have := hle 0 (Nat.succ_pos n)
      rwa [pow_zero, mul_one] at this
    have hpow : (1 : Int) ≤ 10 ^ n := one_le_pow₀ (by norm_num)
    have hexp : t * 10 ^ (n + 1) = t * 10 * 10 ^ n := by ring
    have h10 : t * 10 ≤ INT_MAX := by
      have : t * 10 ≤ t * 10 * 10 ^ n := le_mul_of_one_le_right (by omega) hpow
      rw [hexp] at hmax
      exact le_trans this hmax
    have hfuel : fuel + (n + 1) + 1 = (fuel + n + 1) + 1 := by omega
    rw [hfuel, milestoneLoop_step_ge _ s lvl t h0 h10]
    rw [ih fuel (lvl + 1) (t * 10) (by omega)
      (fun j hj => by
        have := hle (j + 1) (by omega)
        rw [show t * 10 ^ (j + 1) = t * 10 * 10 ^ j by ring] at this
        exact this)
      (by rw [← hexp]; exact hlt) (by rw [← hexp]; exact hmax)]
    rw [hexp]
    congr 2
    push_cast
    ring

/-- Scores from 100 to below 10^9: the loop returns without overflow a level
`L` in 1..7 with `100 * 10^(L-1) <= score < 100 * 10^L`, and `100 * 10^L` as the
threshold. -/
theorem milestoneLoop_level (s : Int) (h1 : 100 ≤ s) (h2 : s < 1000000000) :
    ∃ L : Nat, 1 ≤ L ∧ L ≤ 7 ∧
      milestoneLoop 16 s 0 SCORE_MILESTONE_BASE = some ((L : Int), 100 * 10 ^ L) ∧
      (∀ k : Nat, 100 * 10 ^ k ≤ s ↔ k < L) ∧
      (100 : Int) * 10 ^ L ≤ INT_MAX := by
  have key : ∀ L : Nat, 1 ≤ L → L ≤ 7 → (100 : Int) * 10 ^ (L - 1) ≤ s → s < 100 * 10 ^ L →
      milestoneLoop 16 s 0 SCORE_MILESTONE_BASE = some ((L : Int), 100 * 10 ^ L) ∧
      (∀ k : Nat, 100 * 10 ^ k ≤ s ↔ k < L) ∧ (100 : Int) * 10 ^ L ≤ INT_MAX := by
    intro L hL1 hL7 hlo hhi
    have hmono : ∀ a b : Nat, a ≤ b → (100 : Int) * 10 ^ a ≤ 100 * 10 ^ b := by
      intro a b hab
      have : (10 : Int) ^ a ≤ 10 ^ b := pow_le_pow_right₀ (by norm_num) hab
      omega
    have hiff : ∀ k : Nat, 100 * 10 ^ k ≤ s ↔ k < L := by
      intro k
      constructor
      · intro hk
        by_contra hnot
        have := hmono L k (by omega)
        omega
      · intro hk
        exact le_trans (hmono k (L - 1) (by omega)) hlo
    have hmax : (100 : Int) * 10 ^ L ≤ INT_MAX := by
      have h7 := hmono L 7 hL7
      have : (100 : Int) * 10 ^ 7 ≤ INT_MAX := by decide
      exact le_trans h7 this
    refine ⟨?_, hiff, hmax⟩
    have hrun := milestoneLoop_run s L (15 - L) 0 100 (by norm_num)
      (fun j hj => (hiff j).2 hj) hhi hmax
    have hfuel : 15 - L + L + 1 = 16 := by omega
    rw [hfuel, zero_add] at hrun
    exact hrun
  by_cases c1 : s < 1000
  · exact ⟨1, by norm_num, by norm_num, key 1 (by norm_num) (by norm_num)
      (by norm_num; omega) (by norm_num; omega)⟩
  by_cases c2 : s < 10000
  · exact ⟨2, by norm_num, by norm_num, key 2 (by norm_num) (by norm_num)
      (by norm_num; omega) (by norm_num; omega)⟩
  by_cases c3 : s < 100000
  · exact ⟨3, by norm_num, by norm_num, key 3 (by norm_num) (by norm_num)
      (by norm_num; omega) (by norm_num; omega)⟩
  by_cases c4 : s < 1000000
  · exact ⟨4, by norm_num, by norm_num, key 4 (by norm_num) (by norm_num)
      (by norm_num; omega) (by norm_num; omega)⟩
  by_cases c5 : s < 10000000
  · exact ⟨5, by norm_num, by norm_num, key 5 (by norm_num) (by norm_num)
      (by norm_num; omega) (by norm_num; omega)⟩
  by_cases c6 : s < 100000000
  · exact ⟨6, by norm_num, by norm_num, key 6 (by norm_num) (by norm_num)
      (by norm_num; omega) (by norm_num; omega)⟩
  · exact ⟨7, by norm_num, by norm_num, key 7 (by norm_num) (by norm_num)
      (by norm_num; omega) (by norm_num; omega)⟩

/-! ## Helper lemmas: the multi-tap state in the running program -/

theorem smallPool_set (l : List Asteroid) (i : Nat) (a : Asteroid) (h : SmallPool l)
    (ha : a.radius ≠ 0 → a.radius = 6 ∧ a.dy = 1) : SmallPool (l.set i a) := by
  intro j hr
  rw [getD_set_eq] at hr ⊢
  split_ifs at hr ⊢
  · exact ha hr
  · exact h j hr

/-- With every `rand()` result 0, `spawnAsteroidInSlot` creates an obstacle of
radius 6 and speed 1 at y = -16. -/
theorem spawnAsteroidInSlot_asteroids (idx : Nat) (slot : Int) (w : World) :
    (spawnAsteroidInSlot (fun _ => 0) idx slot w).asteroids
      = w.asteroids.set idx
          { x := w.asteroid_slot_x.getD slot.toNat 0, y := -16, dx := 0, dy := 1,
            radius := 6, sides := 4, speed := 1 } := by
  unfold spawnAsteroidInSlot setAsteroidSlotUsed
  simp only []
  split_ifs <;> rfl

theorem smallPool_retireAsteroid (i : Nat) (w : World) (h : SmallPool w.asteroids) :
    SmallPool (retireAsteroid (fun _ => 0) i w).asteroids := by
  unfold retireAsteroid
  obtain ⟨u1, h1⟩ := freeSlotScan_frame (w.asteroids.getD i Asteroid.zero).x
    (List.range NUM_ASTEROID_SLOTS) w
  unfold freeAsteroidSlotForAsteroid
  rw [h1]
  simp only []
  generalize hw2 : ({ w.withField w.asteroids u1 w.player_score w.rand_calls with
      player_score := toInt32 (toUInt32
        ((w.withField w.asteroids u1 w.player_score w.rand_calls).player_score +
          ((w.withField w.asteroids u1 w.player_score w.rand_calls).asteroids.getD i
              Asteroid.zero).radius *
            ((w.withField w.asteroids u1 w.player_score w.rand_calls).asteroids.getD i
              Asteroid.zero).speed)) } : World) = w2
  have hw2a : w2.asteroids = w.asteroids := by
    rw [← hw2]
    rfl
  obtain ⟨calls, h2⟩ := getFreeAsteroidSlot_frame (fun _ => 0) w2
  have hr2 : (getFreeAsteroidSlot (fun _ => 0) w2).2.asteroids = w.asteroids := by
    rw [h2]
    exact hw2a
  split
  · rw [spawnAsteroidInSlot_asteroids, hr2]
    exact smallPool_set _ _ _ h (fun _ => ⟨rfl, rfl⟩)
  · rw [hr2]
    exact h

theorem smallPool_updateAsteroid (w : World) (i : Nat) (h : SmallPool w.asteroids) :
    SmallPool (updateAsteroid (fun _ => 0) w i).asteroids := by
  unfold updateAsteroid
  split
  · exact h
  · rename_i hr
    have hset : SmallPool (w.asteroids.set i
        { w.asteroids.getD i Asteroid.zero with
          y := (w.asteroids.getD i Asteroid.zero).y + (w.asteroids.getD i Asteroid.zero).dy }) :=
      smallPool_set _ _ _ h (fun _ => h i hr)
    simp only []
    split
    · exact smallPool_retireAsteroid i _ hset
    · exact hset

theorem smallPool_foldl_updateAsteroid (l : List Nat) :
    ∀ w : World, SmallPool w.asteroids →
      SmallPool (l.foldl (updateAsteroid (fun _ => 0)) w).asteroids := by
  induction l with
  | nil => intro w h; exact h
  | cons i l ih => intro w h; exact ih _ (smallPool_updateAsteroid w i h)

theorem smallPool_spawnNewAsteroidSafely (w : World) (h : SmallPool w.asteroids) :
    SmallPool (spawnNewAsteroidSafely (fun _ => 0) w).2.asteroids := by
  unfold spawnNewAsteroidSafely
  obtain ⟨calls, h2⟩ := getFreeAsteroidSlot_frame (fun _ => 0) w
  have hr2 : (getFreeAsteroidSlot (fun _ => 0) w).2.asteroids = w.asteroids := by
    rw [h2]
    rfl
  simp only []
  split_ifs
  · show SmallPool (getFreeAsteroidSlot (fun _ => 0) w).2.asteroids
    rw [hr2]
    exact h
  · show SmallPool (getFreeAsteroidSlot (fun _ => 0) w).2.asteroids
    rw [hr2]
    exact h
  · show SmallPool (spawnAsteroidInSlot (fun _ => 0) _ _ _).asteroids
    rw [spawnAsteroidInSlot_asteroids, hr2]
    exact smallPool_set _ _ _ h (fun _ => ⟨rfl, rfl⟩)

theorem smallPool_checkScoreMilestones (w w2 : World) (h : SmallPool w.asteroids)
    (hstep : checkScoreMilestones (fun _ => 0) w = some w2) : SmallPool w2.asteroids := by
  unfold checkScoreMilestones at hstep
  split_ifs at hstep with hg
  · cases hloop : milestoneLoop 16 w.player_score 0 SCORE_MILESTONE_BASE with
    | none =>
      rw [hloop] at hstep
      exact absurd hstep (by simp)
    | some r =>
      obtain ⟨L, T⟩ := r
      rw [hloop] at hstep
      simp only [] at hstep
      split_ifs at hstep
      · rw [← Option.some.inj hstep]
        exact smallPool_spawnNewAsteroidSafely w h
      · rw [← Option.some.inj hstep]
        exact smallPool_spawnNewAsteroidSafely w h
      · rw [← Option.some.inj hstep]
        exact h
  · rw [← Option.some.inj hstep]
    exact h

/-- The ship part of a frame with the reading x = 1: the ship stays at x = 52
and the cached reading stays 1. -/
theorem updateShipPosition_calm (new_accel_y : Int) (w : World) (hx : w.ship_x = 52)
    (hc : w.cached_accel_x = 1) :
    (updateShipPosition 1 new_accel_y w).ship_x = 52 ∧
    (updateShipPosition 1 new_accel_y w).cached_accel_x = 1 := by
  unfold updateShipPosition updateShipFromAccel
  simp only [hx, hc]
  have hw : SCREEN_WIDTH = 128 := rfl
  rw [hw]
  constructor
  · split_ifs <;> omega
  · split_ifs <;> rfl

/-- One step of the obstacle loop in a pool of small obstacles, every `rand()`
result being 0: the other entries are kept; an active entry `i` either moves
down by 1 with the score unchanged, or is retired for 6 points (32-bit sum) and
replaced by an obstacle at y = -16. -/
theorem calm_updateAsteroid (w : World) (i : Nat) (hinv : FieldInv w)
    (hs : SmallPool w.asteroids)
    (hy : ∀ j : Nat, (w.asteroids.getD j Asteroid.zero).radius ≠ 0 →
      -16 ≤ (w.asteroids.getD j Asteroid.zero).y ∧ (w.asteroids.getD j Asteroid.zero).y ≤ 166) :
    (∀ j : Nat, j ≠ i →
      (updateAsteroid (fun _ => 0) w i).asteroids.getD j Asteroid.zero
        = w.asteroids.getD j Asteroid.zero) ∧
    (∀ j : Nat, ((updateAsteroid (fun _ => 0) w i).asteroids.getD j Asteroid.zero).radius ≠ 0 →
      -16 ≤ ((updateAsteroid (fun _ => 0) w i).asteroids.getD j Asteroid.zero).y ∧
      ((updateAsteroid (fun _ => 0) w i).asteroids.getD j Asteroid.zero).y ≤ 166) ∧
    ((w.asteroids.getD i Asteroid.zero).radius ≠ 0 →
      ((updateAsteroid (fun _ => 0) w i).asteroids.getD i Asteroid.zero).radius ≠ 0 ∧
      (((updateAsteroid (fun _ => 0) w i).player_score = w.player_score ∧
          ((updateAsteroid (fun _ => 0) w i).asteroids.getD i Asteroid.zero).y
            = (w.asteroids.getD i Asteroid.zero).y + 1) ∨
        ((updateAsteroid (fun _ => 0) w i).player_score
            = toInt32 (toUInt32 (w.player_score + 6)) ∧
          ((updateAsteroid (fun _ => 0) w i).asteroids.getD i Asteroid.zero).y = -16))) := by
  by_cases hr : (w.asteroids.getD i Asteroid.zero).radius = 0
  · rw [updateAsteroid_unused _ w i hr]
    exact ⟨fun _ _ => rfl, hy, fun h => absurd hr h⟩
  · have hsmall := smallPool_updateAsteroid w i hs
    obtain ⟨hxs, c, hc, hc1, hpool⟩ := hinv
    obtain ⟨hic, s, hs5, hx⟩ := hpool.active_lt hr
    obtain ⟨⟨_, _, hspeed, _⟩, _⟩ := hpool.2.2.2.2.1 i hic (Nat.ne_of_lt hic)
    have hi5 : i < w.asteroids.length := getD_radius_ne_zero_lt hr
    obtain ⟨hr6, hdy1⟩ := hs i hr
    obtain ⟨hylo, hyhi⟩ := hy i hr
    have h160 : SCREEN_HEIGHT + 32 = 160 := by decide
    rcases updateAsteroid_cases (fun _ => 0) w i s hxs hpool.2.1 hs5 hx hr with
      ⟨hn, heq⟩ | ⟨_, s2, a2, calls, _, _, hlive, _, hay, heq⟩
    · rw [h160, hr6, hdy1] at hn
      rw [heq]
      refine ⟨?_, ?_, fun _ => ⟨?_, Or.inl ⟨rfl, ?_⟩⟩⟩
      · intro j hj
        show (w.asteroids.set i _).getD j Asteroid.zero = _
        rw [getD_set_eq, if_neg (fun h => hj h.1.symm)]
      · intro j
        show ((w.asteroids.set i _).getD j Asteroid.zero).radius ≠ 0 →
          -16 ≤ ((w.asteroids.set i _).getD j Asteroid.zero).y ∧
          ((w.asteroids.set i _).getD j Asteroid.zero).y ≤ 166
        rw [getD_set_eq]
        split_ifs
        · intro _
          show -16 ≤ (w.asteroids.getD i Asteroid.zero).y + (w.asteroids.getD i Asteroid.zero).dy ∧
            (w.asteroids.getD i Asteroid.zero).y + (w.asteroids.getD i Asteroid.zero).dy ≤ 166
          rw [hdy1]
          omega
        · exact hy j
      · show ((w.asteroids.set i _).getD i Asteroid.zero).radius ≠ 0
        rw [getD_set_eq, if_pos ⟨rfl, hi5⟩]
        exact hr
      · show ((w.asteroids.set i _).getD i Asteroid.zero).y = _
        rw [getD_set_eq, if_pos ⟨rfl, hi5⟩]
        show (w.asteroids.getD i Asteroid.zero).y + (w.asteroids.getD i Asteroid.zero).dy = _
        rw [hdy1]
    · have ha2ne : a2.radius ≠ 0 := by
        intro h0
        have := hlive.1
        rw [h0] at this
        exact absurd this (by decide)
      have hentry : (updateAsteroid (fun _ => 0) w i).asteroids.getD i Asteroid.zero = a2 := by
        rw [heq]
        show (w.asteroids.set i a2).getD i Asteroid.zero = a2
        rw [getD_set_eq, if_pos ⟨rfl, hi5⟩]
      have ha2 : a2.radius = 6 ∧ a2.dy = 1 := by
        have := hsmall i (by rw [hentry]; exact ha2ne)
        rw [hentry] at this
        exact this
      have ha2y : a2.y = -16 := by
        rw [hay, ha2.1]
        rfl
      refine ⟨?_, ?_, fun _ => ⟨by rw [hentry]; exact ha2ne, Or.inr ⟨?_, by rw [hentry]; exact ha2y⟩⟩⟩
      · intro j hj
        rw [heq]
        show (w.asteroids.set i a2).getD j Asteroid.zero = _
        rw [getD_set_eq, if_neg (fun h => hj h.1.symm)]
      · intro j
        by_cases hji : j = i
        · rw [hji, hentry, ha2y]
          intro _
          omega
        · rw [heq]
          show ((w.asteroids.set i a2).getD j Asteroid.zero).radius ≠ 0 →
            -16 ≤ ((w.asteroids.set i a2).getD j Asteroid.zero).y ∧
            ((w.asteroids.set i a2).getD j Asteroid.zero).y ≤ 166
          rw [getD_set_eq, if_neg (fun h => hji h.1.symm)]
          exact hy j
      · rw [heq]
        show toInt32 (toUInt32 (w.player_score
          + (w.asteroids.getD i Asteroid.zero).radius
            * (w.asteroids.getD i Asteroid.zero).speed)) = _
        rw [hspeed, hr6, hdy1]
        rfl

/-- One loop step on a score of the `int` range: either the score does not
decrease and grows by at most 48, or the sum has left the `int` range and the
score comes out at least 2^32 - 48 lower. -/
theorem updateAsteroid_score_cases (rand : Nat → Nat) (w : World) (i : Nat) (h : FieldInv w)
    (hr : -2147483648 ≤ w.player_score ∧ w.player_score ≤ INT_MAX) :
    (w.player_score ≤ (updateAsteroid rand w i).player_score ∧
      (updateAsteroid rand w i).player_score ≤ w.player_score + 48) ∨
    (updateAsteroid rand w i).player_score ≤ w.player_score + 48 - 4294967296 := by
  have hmax : INT_MAX = 2147483647 := rfl
  rcases updateAsteroid_score rand w i h with heq | ⟨p, hp0, hp48, heq⟩
  · left
    rw [heq]
    omega
  · by_cases hfit : w.player_score + p ≤ INT_MAX
    · left
      rw [heq, toInt32_toUInt32 _ (by omega) hfit]
      omega
    · right
      rw [heq, toInt32_toUInt32_wrap _ (by omega) (by omega)]
      omega

theorem foldl_updateAsteroid_score_cases (rand : Nat → Nat) (l : List Nat) :
    ∀ w : World, FieldInv w →
      (-2147483648 ≤ w.player_score ∧ w.player_score ≤ INT_MAX) →
      (w.player_score ≤ (l.foldl (updateAsteroid rand) w).player_score ∧
        (l.foldl (updateAsteroid rand) w).player_score
          ≤ w.player_score + 48 * (l.length : Int)) ∨
      (l.foldl (updateAsteroid rand) w).player_score
        ≤ w.player_score + 48 * (l.length : Int) - 4294967296 := by
  induction l with
  | nil =>
    intro w _ _
    left
    show w.player_score ≤ w.player_score ∧ w.player_score ≤ w.player_score + 48 * ((0 : Nat) : Int)
    omega
  | cons i l ih =>
    intro w h hr
    have h3 : (((i :: l).length : Nat) : Int) = (l.length : Int) + 1 := by
      rw [List.length_cons]
      push_cast
      rfl
    rw [h3]
    have hlen : (0 : Int) ≤ (l.length : Int) := Int.ofNat_nonneg _
    have h1 := updateAsteroid_score_cases rand w i h hr
    have h2 := ih _ (fieldInv_updateAsteroid rand w i h).1
      (updateAsteroid_score_range rand w i h hr)
    show (w.player_score
          ≤ (l.foldl (updateAsteroid rand) (updateAsteroid rand w i)).player_score ∧
        (l.foldl (updateAsteroid rand) (updateAsteroid rand w i)).player_score ≤ _) ∨
      (l.foldl (updateAsteroid rand) (updateAsteroid rand w i)).player_score ≤ _
    omega

/-- The rest of the obstacle loop (indices other than 0) in a pool of small
obstacles: the invariants are kept and pool entry 0 is not touched. -/
theorem calm_foldl (l : List Nat) :
    ∀ w : World, FieldInv w → SmallPool w.asteroids →
      (∀ j : Nat, (w.asteroids.getD j Asteroid.zero).radius ≠ 0 →
        -16 ≤ (w.asteroids.getD j Asteroid.zero).y ∧
        (w.asteroids.getD j Asteroid.zero).y ≤ 166) →
      (∀ i ∈ l, i ≠ 0) →
      (∀ j : Nat, ((l.foldl (updateAsteroid (fun _ => 0)) w).asteroids.getD j
          Asteroid.zero).radius ≠ 0 →
        -16 ≤ ((l.foldl (updateAsteroid (fun _ => 0)) w).asteroids.getD j Asteroid.zero).y ∧
        ((l.foldl (updateAsteroid (fun _ => 0)) w).asteroids.getD j Asteroid.zero).y ≤ 166) ∧
      (l.foldl (updateAsteroid (fun _ => 0)) w).asteroids.getD 0 Asteroid.zero
        = w.asteroids.getD 0 Asteroid.zero := by
  induction l with
  | nil => intro w _ _ hy _; exact ⟨hy, rfl⟩
  | cons i l ih =>
    intro w hinv hs hy hl
    obtain ⟨h1, h2, _⟩ := calm_updateAsteroid w i hinv hs hy
    obtain ⟨k1, k2⟩ := ih (updateAsteroid (fun _ => 0) w i)
      (fieldInv_updateAsteroid _ w i hinv).1 (smallPool_updateAsteroid w i hs) h2
      (fun j hj => hl j (List.mem_cons_of_mem _ hj))
    refine ⟨k1, ?_⟩
    show (l.foldl (updateAsteroid (fun _ => 0)) (updateAsteroid (fun _ => 0) w i)).asteroids.getD
      0 Asteroid.zero = _
    rw [k2]
    exact h1 0 (fun h => hl i (List.mem_cons_self _ _) h.symm)

/-- The whole obstacle loop in a pool of small obstacles, every `rand()` result
being 0: the invariants are kept, and either the score has not decreased, has
grown by at most 240, and `184 * score + y` of pool entry 0 has grown, or a sum
has left the `int` range and the score is at least 2^32 - 240 lower. -/
theorem calm_loop (w : World) (hinv : FieldInv w) (hs : SmallPool w.asteroids)
    (hy : ∀ j : Nat, (w.asteroids.getD j Asteroid.zero).radius ≠ 0 →
      -16 ≤ (w.asteroids.getD j Asteroid.zero).y ∧ (w.asteroids.getD j Asteroid.zero).y ≤ 166)
    (hr : -2147483648 ≤ w.player_score ∧ w.player_score ≤ INT_MAX) :
    (∀ j : Nat,
      (((List.range w.current_num_asteroids.toNat).foldl (updateAsteroid (fun _ => 0))
          w).asteroids.getD j Asteroid.zero).radius ≠ 0 →
      -16 ≤ (((List.range w.current_num_asteroids.toNat).foldl (updateAsteroid (fun _ => 0))
          w).asteroids.getD j Asteroid.zero).y ∧
      (((List.range w.current_num_asteroids.toNat).foldl (updateAsteroid (fun _ => 0))
          w).asteroids.getD j Asteroid.zero).y ≤ 166) ∧
    ((w.player_score
          ≤ ((List.range w.current_num_asteroids.toNat).foldl (updateAsteroid (fun _ => 0))
              w).player_score ∧
        ((List.range w.current_num_asteroids.toNat).foldl (updateAsteroid (fun _ => 0))
              w).player_score ≤ w.player_score + 240 ∧
        184 * w.player_score + (w.asteroids.getD 0 Asteroid.zero).y + 1
          ≤ 184 * ((List.range w.current_num_asteroids.toNat).foldl
                (updateAsteroid (fun _ => 0)) w).player_score
            + (((List.range w.current_num_asteroids.toNat).foldl
                (updateAsteroid (fun _ => 0)) w).asteroids.getD 0 Asteroid.zero).y) ∨
      ((List.range w.current_num_asteroids.toNat).foldl (updateAsteroid (fun _ => 0))
          w).player_score ≤ w.player_score + 240 - 4294967296) := by
  have hinv0 := hinv
  obtain ⟨hxs, c, hc, hc1, hpool⟩ := hinv
  have hc5 : c ≤ 5 := hpool.2.2.1
  obtain ⟨n, hn⟩ : ∃ n : Nat, c = n + 1 := ⟨c - 1, by omega⟩
  have hcount : w.current_num_asteroids.toNat = n + 1 := by
    rw [hc]
    omega
  have hr0 : (w.asteroids.getD 0 Asteroid.zero).radius ≠ 0 := by
    intro h0
    have := (hpool.2.2.2.2.1 0 (by omega) (by omega)).1.1
    rw [h0] at this
    exact absurd this (by decide)
  rw [hcount, List.range_succ_eq_map]
  simp only [List.foldl_cons]
  obtain ⟨_, h2, h3⟩ := calm_updateAsteroid w 0 hinv0 hs hy
  obtain ⟨h3r, h3s⟩ := h3 hr0
  have hrest : ∀ i ∈ List.map Nat.succ (List.range n), i ≠ 0 := by
    intro i hi
    rw [List.mem_map] at hi
    obtain ⟨a, _, ha⟩ := hi
    omega
  have hinv1 := (fieldInv_updateAsteroid (fun _ => 0) w 0 hinv0).1
  obtain ⟨k1, k2⟩ := calm_foldl (List.map Nat.succ (List.range n))
    (updateAsteroid (fun _ => 0) w 0) hinv1 (smallPool_updateAsteroid w 0 hs) h2 hrest
  have hsc := foldl_updateAsteroid_score_cases (fun _ => 0) (List.map Nat.succ (List.range n))
    (updateAsteroid (fun _ => 0) w 0) hinv1 (updateAsteroid_score_range _ w 0 hinv0 hr)
  have hlen : (((List.map Nat.succ (List.range n)).length : Nat) : Int) ≤ 4 := by
    rw [List.length_map, List.length_range]
    omega
  have hlen0 : (0 : Int) ≤ (((List.map Nat.succ (List.range n)).length : Nat) : Int) :=
    Int.ofNat_nonneg _
  obtain ⟨hy0lo, hy0hi⟩ := hy 0 hr0
  have hmax : INT_MAX = 2147483647 := rfl
  refine ⟨k1, ?_⟩
  rw [k2]
  rcases h3s with ⟨e1, e2⟩ | ⟨e1, e2⟩
  · rw [e2]
    rw [e1] at hsc
    omega
  · rw [e2]
    by_cases hfit : w.player_score + 6 ≤ INT_MAX
    · rw [e1, toInt32_toUInt32 _ (by omega) hfit] at hsc
      omega
    · rw [e1, toInt32_toUInt32_wrap _ (by omega) (by omega)] at hsc
      omega

/-- No small obstacle in a slot column overlaps a ship of size 10 at x = 52. -/
theorem calm_no_collision (rand : Nat → Nat) (w : World) (hinv : FieldInv w)
    (hs : SmallPool w.asteroids) (hx : w.ship_x = 52) (hsz : w.ship_size = 10) :
    ¬ frameCollides w ∧ checkCollisions rand w = w := by
  have hno : ¬ frameCollides w := by
    rintro ⟨i, _, hr, hov⟩
    obtain ⟨hxs, c, hc, hc1, hpool⟩ := hinv
    obtain ⟨_, s, hs5, hax⟩ := hpool.active_lt hr
    obtain ⟨hr6, _⟩ := hs i hr
    unfold shipOverlaps at hov
    simp only [] at hov
    rw [hx, hsz, hr6, hax] at hov
    have htd : Int.tdiv 10 2 = 5 := by decide
    rw [htd] at hov
    have hsq := mul_self_nonneg (w.ship_y - (w.asteroids.getD i Asteroid.zero).y)
    have hov2 : (52 - slotXs.getD s 0) * (52 - slotXs.getD s 0)
        + (w.ship_y - (w.asteroids.getD i Asteroid.zero).y)
          * (w.ship_y - (w.asteroids.getD i Asteroid.zero).y) < 100 := hov
    have hcol : (100 : Int) ≤ (52 - slotXs.getD s 0) * (52 - slotXs.getD s 0) := by
      interval_cases s <;> decide
    omega
  refine ⟨hno, ?_⟩
  rcases checkCollisions_cases rand w with ⟨_, heq⟩ | ⟨hc, _⟩
  · exact heq
  · exact absurd hc hno

/-- The milestone check that ends `updatePositions`, in a pool of small
obstacles after `j` milestones, every `rand()` result being 0: it returns, one
more small obstacle is spawned when the score has reached the threshold (then
`j + 1` milestones are reached), and pool entry 0 is not touched. -/
theorem calm_checkScoreMilestones (f : World) (hinv : FieldInv f)
    (hs : SmallPool f.asteroids)
    (hy : ∀ i : Nat, (f.asteroids.getD i Asteroid.zero).radius ≠ 0 →
      -16 ≤ (f.asteroids.getD i Asteroid.zero).y ∧ (f.asteroids.getD i Asteroid.zero).y ≤ 166)
    (j : Nat) (hj : j ≤ 4) (hlast : f.last_milestone_reached = (j : Int))
    (hnext : f.next_milestone = 100 * 10 ^ j)
    (hcount : f.current_num_asteroids = (j : Int) + 1)
    (hsc : j < 4 → 0 ≤ f.player_score ∧ f.player_score < 100 * 10 ^ j + 240) :
    ∃ w1 : World, checkScoreMilestones (fun _ => 0) f = some w1 ∧
      SmallPool w1.asteroids ∧
      (∀ i : Nat, (w1.asteroids.getD i Asteroid.zero).radius ≠ 0 →
        -16 ≤ (w1.asteroids.getD i Asteroid.zero).y ∧
        (w1.asteroids.getD i Asteroid.zero).y ≤ 166) ∧
      w1.asteroids.getD 0 Asteroid.zero = f.asteroids.getD 0 Asteroid.zero ∧
      ∃ j2 : Nat, j2 ≤ 4 ∧ w1.last_milestone_reached = (j2 : Int) ∧
        w1.next_milestone = 100 * 10 ^ j2 ∧ w1.current_num_asteroids = (j2 : Int) + 1 ∧
        (j2 < 4 → 0 ≤ f.player_score ∧ f.player_score < 100 * 10 ^ j2) := by
  by_cases hg : f.player_score ≥ f.next_milestone ∧
      f.current_num_asteroids < (MAX_ACTIVE_ASTEROIDS : Int)
  · have hj4 : j < 4 := by
      have := hg.2
      rw [hcount] at this
      simp only [MAX_ACTIVE_ASTEROIDS] at this
      omega
    obtain ⟨hs0, hs1⟩ := hsc hj4
    have hpow : (1 : Int) ≤ 10 ^ j ∧ (10 : Int) ^ j ≤ 1000 := by
      interval_cases j <;> norm_num
    have hsucc : (10 : Int) ^ (j + 1) = 10 * 10 ^ j := by ring
    have hge : f.player_score ≥ 100 * 10 ^ j := by
      rw [← hnext]
      exact hg.1
    obtain ⟨L, hL1, hL7, hloop, hiff, hmax⟩ :=
      milestoneLoop_level f.player_score (by omega) (by omega)
    have hLj : L = j + 1 := by
      have h1 : j < L := (hiff j).1 hge
      have h2 : ¬ (j + 1 < L) := by
        intro hlt
        have := (hiff (j + 1)).2 hlt
        rw [hsucc] at this
        omega
      omega
    obtain ⟨hxs, c, hc, hc1, hpool⟩ := hinv
    have hcj : c = j + 1 := by
      rw [hcount] at hc
      omega
    obtain ⟨s2, a2, calls, _, _, hlive, _, hay, hspawn⟩ :=
      spawnNewAsteroidSafely_ok (fun _ => 0) f c hxs hpool (by omega)
    have hstep : checkScoreMilestones (fun _ => 0) f
        = some
          { f with
            asteroids := f.asteroids.set c a2
            asteroid_slot_used := f.asteroid_slot_used.set s2 1
            rand_calls := calls
            last_milestone_reached := (L : Int)
            current_num_asteroids := f.current_num_asteroids + 1
            next_milestone := 100 * 10 ^ L } := by
      rw [checkScoreMilestones_eq (fun _ => 0) f (L : Int) (100 * 10 ^ L) hg hloop,
        if_pos (by rw [hlast]; omega), hspawn]
      rfl
    have hsmall := smallPool_checkScoreMilestones f _ hs hstep
    have hc5 : c < f.asteroids.length := by
      rw [hpool.1]
      omega
    have ha2ne : a2.radius ≠ 0 := by
      intro h0
      have := hlive.1
      rw [h0] at this
      exact absurd this (by decide)
    have ha2 : a2.radius = 6 := by
      have := hsmall c (by
        show ((f.asteroids.set c a2).getD c Asteroid.zero).radius ≠ 0
        rw [getD_set_eq, if_pos ⟨rfl, hc5⟩]
        exact ha2ne)
      have h6 : ((f.asteroids.set c a2).getD c Asteroid.zero).radius = 6 := this.1
      rw [getD_set_eq, if_pos ⟨rfl, hc5⟩] at h6
      exact h6
    refine ⟨_, hstep, hsmall, ?_, ?_, j + 1, by omega, ?_, ?_, ?_, ?_⟩
    · intro i
      show ((f.asteroids.set c a2).getD i Asteroid.zero).radius ≠ 0 →
        -16 ≤ ((f.asteroids.set c a2).getD i Asteroid.zero).y ∧
        ((f.asteroids.set c a2).getD i Asteroid.zero).y ≤ 166
      rw [getD_set_eq]
      split_ifs
      · intro _
        rw [hay, ha2]
        omega
      · exact hy i
    · show (f.asteroids.set c a2).getD 0 Asteroid.zero = _
      rw [getD_set_eq, if_neg (fun h => by omega)]
    · show ((L : Nat) : Int) = ((j + 1 : Nat) : Int)
      rw [hLj]
    · show (100 : Int) * 10 ^ L = 100 * 10 ^ (j + 1)
      rw [hLj]
    · show f.current_num_asteroids + 1 = ((j + 1 : Nat) : Int) + 1
      rw [hcount]
      push_cast
      rfl
    · intro _
      rw [hsucc]
      omega
  · refine ⟨f, checkScoreMilestones_idle (fun _ => 0) f hg, hs, hy, rfl, j, hj, hlast, hnext,
      hcount, ?_⟩
    intro hj4
    obtain ⟨hs0, _⟩ := hsc hj4
    refine ⟨hs0, ?_⟩
    rw [← hnext]
    by_contra hcon
    apply hg
    refine ⟨by omega, ?_⟩
    rw [hcount]
    simp only [MAX_ACTIVE_ASTEROIDS]
    omega

/-- A frame of a round without a collision: the state after `updatePositions`
is again a state of the round. -/
theorem inRound_quiet (rand : Nat → Nat) (new_accel_x new_accel_y : Int) (k : Nat)
    (w w1 : World) (h : InRound k w) (hlives : w.player_lives ≠ 0)
    (hupd : updatePositions rand new_accel_x new_accel_y w = some w1)
    (hcc : checkCollisions rand w1 = w1) : InRound k w1 := by
  obtain ⟨_, _, hl, hk, hp, _⟩ := inRound_inv k w h
  have hmode := hp (by omega)
  obtain ⟨hl1, _⟩ := updatePositions_keeps rand new_accel_x new_accel_y w w1 hupd
  have hframe : simulationFrame rand new_accel_x new_accel_y 0 w = some w1 := by
    rw [simulationFrame_eq rand new_accel_x new_accel_y 0 w w1 hupd, hcc,
      if_neg (by rw [hl1]; exact hlives)]
  have hcol : ¬ frameCollides w1 := by
    intro hc
    rcases checkCollisions_cases rand w1 with ⟨hn, _⟩ | ⟨_, heq⟩
    · exact hn hc
    · have h1 := (registerCollision_keeps rand w1).1
      rw [← heq, hcc] at h1
      omega
  exact InRound.miss rand new_accel_x new_accel_y 0 k w w1 w1 h hmode hupd hcol hframe

/-- One frame of the calm round, with accelerometer reading x = 1 and every
`rand()` result 0: `updatePositions` returns, no collision follows, the state
after the frame is again a calm state of the round, and either the score is
lower than before the frame or `184 * score + y` of pool entry 0 has grown. -/
theorem calm_frame (k : Nat) (w : World) (hround : InRound k w) (hcalm : CalmRound w) :
    ∃ w1 : World, updatePositions (fun _ => 0) 1 0 w = some w1 ∧
      InRound k w1 ∧ CalmRound w1 ∧
      (w1.player_score < w.player_score ∨
        184 * w.player_score + (w.asteroids.getD 0 Asteroid.zero).y + 1
          ≤ 184 * w1.player_score + (w1.asteroids.getD 0 Asteroid.zero).y) := by
  obtain ⟨hinv, hmode, hlives, hx, hy96, hsz, hcx, hs, hyb, hr, j, hj, hlast, hnext, hcount,
    hsc⟩ := hcalm
  obtain ⟨sx, xs, ys, ac, cx, cy, hship⟩ := updateShipPosition_frame 1 0 w
  obtain ⟨hvx, hvc⟩ := updateShipPosition_calm 0 w hx hcx
  obtain ⟨hvinv, _, _⟩ := fieldInv_updateShipPosition 1 0 w hinv
  generalize hv : updateShipPosition 1 0 w = v at hship hvx hvc hvinv
  have hva : v.asteroids = w.asteroids := by rw [hship]
  have hvs : v.player_score = w.player_score := by rw [hship]
  have hvcount : v.current_num_asteroids = w.current_num_asteroids := by rw [hship]
  have hvlast : v.last_milestone_reached = w.last_milestone_reached := by rw [hship]
  have hvnext : v.next_milestone = w.next_milestone := by rw [hship]
  have hvrest : v.current_game_state = w.current_game_state ∧ v.player_lives = w.player_lives ∧
      v.ship_y = w.ship_y ∧ v.ship_size = w.ship_size := by
    rw [hship]
    exact ⟨rfl, rfl, rfl, rfl⟩
  obtain ⟨hloopy, hloops⟩ := calm_loop v hvinv (by rw [hva]; exact hs)
    (by rw [hva]; exact hyb) (by rw [hvs]; exact hr)
  have hfinv := (fieldInv_foldl_updateAsteroid (fun _ => 0)
    (List.range v.current_num_asteroids.toNat) v hvinv).1
  have hfs := smallPool_foldl_updateAsteroid (List.range v.current_num_asteroids.toNat) v
    (by rw [hva]; exact hs)
  obtain ⟨kl, kn, kc, _⟩ := foldl_updateAsteroid_keeps (fun _ => 0)
    (List.range v.current_num_asteroids.toNat) v
  obtain ⟨fa, fu, fscore, fcalls, hfold⟩ := updateAsteroid_foldl_frame (fun _ => 0)
    (List.range v.current_num_asteroids.toNat) v
  have hfr := foldl_updateAsteroid_score_range (fun _ => 0)
    (List.range v.current_num_asteroids.toNat) v hvinv (by rw [hvs]; exact hr)
  generalize hf : (List.range v.current_num_asteroids.toNat).foldl
    (updateAsteroid (fun _ => 0)) v = f at hloopy hloops hfinv hfs kl kn kc hfold hfr
  have hfrest : f.current_game_state = v.current_game_state ∧ f.player_lives = v.player_lives ∧
      f.ship_x = v.ship_x ∧ f.ship_y = v.ship_y ∧ f.ship_size = v.ship_size ∧
      f.cached_accel_x = v.cached_accel_x := by
    rw [hfold]
    exact ⟨rfl, rfl, rfl, rfl, rfl, rfl⟩
  rw [hva, hvs] at hloops
  have hpow : j < 4 → (1 : Int) ≤ 10 ^ j ∧ (10 : Int) ^ j ≤ 1000 := by
    intro hj4
    interval_cases j <;> norm_num
  have hmax : INT_MAX = 2147483647 := rfl
  obtain ⟨w1, hstep, hs1, hy1, he1, j2, hj2, hlast2, hnext2, hcount2, hsc2⟩ :=
    calm_checkScoreMilestones f hfinv hfs hloopy j hj (by rw [kl, hvlast]; exact hlast)
      (by rw [kn, hvnext]; exact hnext) (by rw [kc, hvcount]; exact hcount)
      (by
        intro hj4
        obtain ⟨a1, a2⟩ := hsc hj4
        obtain ⟨p1, p2⟩ := hpow hj4
        omega)
  have hupd : updatePositions (fun _ => 0) 1 0 w = some w1 := by
    unfold updatePositions
    simp only []
    rw [hv, hf]
    exact hstep
  obtain ⟨a3, u3, calls3, cnt, last, next, hms⟩ := checkScoreMilestones_frame (fun _ => 0) f w1 hstep
  have hw1rest : w1.current_game_state = f.current_game_state ∧
      w1.player_lives = f.player_lives ∧ w1.ship_x = f.ship_x ∧ w1.ship_y = f.ship_y ∧
      w1.ship_size = f.ship_size ∧ w1.cached_accel_x = f.cached_accel_x ∧
      w1.player_score = f.player_score := by
    rw [hms]
    exact ⟨rfl, rfl, rfl, rfl, rfl, rfl, rfl⟩
  obtain ⟨r1, r2, r3, r4, r5, r6, r7⟩ := hw1rest
  obtain ⟨g1, g2, g3, g4, g5, g6⟩ := hfrest
  obtain ⟨v1, v2, v3, v4⟩ := hvrest
  have hinv1 := fieldInv_updatePositions (fun _ => 0) 1 0 w w1 hinv hupd
  have hx1 : w1.ship_x = 52 := by rw [r3, g3, hvx]
  have hsz1 : w1.ship_size = 10 := by rw [r5, g5, v4, hsz]
  obtain ⟨_, hcc⟩ := calm_no_collision (fun _ => 0) w1 hinv1 hs1 hx1 hsz1
  have hround1 := inRound_quiet (fun _ => 0) 1 0 k w w1 hround (by rw [hlives]; decide) hupd hcc
  refine ⟨w1, hupd, hround1, ?_, ?_⟩
  · refine ⟨hinv1, by rw [r1, g1, v1, hmode], by rw [r2, g2, v2, hlives], hx1,
      by rw [r4, g4, v3, hy96], hsz1, by rw [r6, g6, hvc], hs1, hy1, by rw [r7]; exact hfr,
      j2, hj2, hlast2, hnext2, hcount2, ?_⟩
    rw [r7]
    exact hsc2
  · rw [r7, he1]
    rcases hloops with ⟨l1, l2, l3⟩ | l4
    · right
      exact l3
    · left
      omega

set_option maxRecDepth 100000 in
/-- The first eight frames of the round of `approachState`: each call of
`updatePositions` returns the next state, and no collision check changes it. -/
theorem approach_frames :
    (updatePositions (fun _ => 0) 3 0 (approachState 0) = some (approachState 1) ∧
      checkCollisions (fun _ => 0) (approachState 1) = approachState 1) ∧
    (updatePositions (fun _ => 0) 3 0 (approachState 1) = some (approachState 2) ∧
      checkCollisions (fun _ => 0) (approachState 2) = approachState 2) ∧
    (updatePositions (fun _ => 0) 3 0 (approachState 2) = some (approachState 3) ∧
      checkCollisions (fun _ => 0) (approachState 3) = approachState 3) ∧
    (updatePositions (fun _ => 0) 3 0 (approachState 3) = some (approachState 4) ∧
      checkCollisions (fun _ => 0) (approachState 4) = approachState 4) ∧
    (updatePositions (fun _ => 0) 3 0 (approachState 4) = some (approachState 5) ∧
      checkCollisions (fun _ => 0) (approachState 5) = approachState 5) ∧
    (updatePositions (fun _ => 0) 3 0 (approachState 5) = some (approachState 6) ∧
      checkCollisions (fun _ => 0) (approachState 6) = approachState 6) ∧
    (updatePositions (fun _ => 0) 3 0 (approachState 6) = some (approachState 7) ∧
      checkCollisions (fun _ => 0) (approachState 7) = approachState 7) ∧
    (updatePositions (fun _ => 0) 1 0 (approachState 7) = some (approachState 8) ∧
      checkCollisions (fun _ => 0) (approachState 8) = approachState 8) := by
  decide

set_option maxRecDepth 100000 in
/-- The state after the eighth frame: the ship has reached x = 52 and stopped,
the first obstacle is at y = -8. -/
theorem approach_values :
    (approachState 8).ship_x = 52 ∧ (approachState 8).ship_y = 96 ∧
    (approachState 8).ship_size = 10 ∧ (approachState 8).cached_accel_x = 1 ∧
    (approachState 8).asteroids
      = [{ x := 12, y := -8, dx := 0, dy := 1, radius := 6, sides := 4, speed := 1 },
         Asteroid.zero, Asteroid.zero, Asteroid.zero, Asteroid.zero] ∧
    (approachState 8).player_score = 0 ∧ (approachState 8).last_milestone_reached = 0 ∧
    (approachState 8).next_milestone = 100 ∧ (approachState 8).current_num_asteroids = 1 := by
  decide

/-- The state after the eighth frame is a state of the round. -/
theorem approach_inRound : InRound 0 (approachState 8) := by
  have step : ∀ (n : Nat) (a : Int), InRound 0 (approachState n) →
      updatePositions (fun _ => 0) a 0 (approachState n) = some (approachState (n + 1)) ∧
        checkCollisions (fun _ => 0) (approachState (n + 1)) = approachState (n + 1) →
      InRound 0 (approachState (n + 1)) := by
    intro n a h hf
    have hl := (inRound_inv 0 _ h).2.2.1
    exact inRound_quiet (fun _ => 0) a 0 0 _ _ h (by rw [hl]; decide) hf.1 hf.2
  obtain ⟨f1, f2, f3, f4, f5, f6, f7, f8⟩ := approach_frames
  have h0 : InRound 0 (approachState 0) := InRound.start (fun _ => 0) bootWorld rfl rfl rfl
  exact step 7 1 (step 6 3 (step 5 3 (step 4 3 (step 3 3 (step 2 3 (step 1 3 (step 0 3 h0
    f1) f2) f3) f4) f5) f6) f7) f8

/-- The state after the eighth frame is a calm state. -/
theorem approach_calm : CalmRound (approachState 8) := by
  obtain ⟨hinv, hr, hl, _, hp, _⟩ := inRound_inv 0 _ approach_inRound
  obtain ⟨e1, e2, e3, e4, e5, e6, e7, e8, e9⟩ := approach_values
  have hpool : ∀ i : Nat, ((approachState 8).asteroids.getD i Asteroid.zero).radius ≠ 0 →
      i = 0 := by
    intro i hi
    rw [e5] at hi
    by_contra h0
    apply hi
    obtain ⟨m, rfl⟩ : ∃ m, i = m + 1 := ⟨i - 1, by omega⟩
    by_cases hm : m < 4
    · interval_cases m <;> rfl
    · rw [List.getD_eq_default _ _ (by simp only [List.length_cons, List.length_nil]; omega)]
      rfl
  refine ⟨hinv, hp (by decide), by rw [hl]; rfl, e1, e2, e3, e4, ?_, ?_, hr, 0, by decide,
    by rw [e7]; rfl, by rw [e8]; rfl, by rw [e9]; rfl, fun _ => by rw [e6]; decide⟩
  · intro i hi
    have h0 := hpool i hi
    subst h0
    rw [e5]
    exact ⟨rfl, rfl⟩
  · intro i hi
    have h0 := hpool i hi
    subst h0
    rw [e5]
    decide

/-- The calm round goes on until a frame lowers the score: after any number
`n` of further frames, either some state of the round has been followed by a
frame with a lower score, or the round is in a calm state in which
`184 * score + y` of pool entry 0 has grown by at least `n`. -/
theorem calm_progress (n : Nat) :
    (∃ w w1 : World, InRound 0 w ∧ w.player_lives ≠ 0 ∧
      updatePositions (fun _ => 0) 1 0 w = some w1 ∧ w1.player_score < w.player_score) ∨
    (∃ w : World, InRound 0 w ∧ CalmRound w ∧
      (n : Int) - 8 ≤ 184 * w.player_score + (w.asteroids.getD 0 Asteroid.zero).y) := by
  induction n with
  | zero =>
    right
    refine ⟨approachState 8, approach_inRound, approach_calm, ?_⟩
    obtain ⟨_, _, _, _, e5, e6, _⟩ := approach_values
    rw [e5, e6]
    decide
  | succ n ih =>
    rcases ih with hl | ⟨w, hround, hcalm, hphi⟩
    · exact Or.inl hl
    · obtain ⟨w1, hupd, hround1, hcalm1, hcase⟩ := calm_frame 0 w hround hcalm
      rcases hcase with hdec | hinc
      · left
        exact ⟨w, w1, hround, by rw [hcalm.2.2.1]; decide, hupd, hdec⟩
      · right
        refine ⟨w1, hround1, hcalm1, ?_⟩
        push_cast
        omega

/-- A round reaches a frame that lowers the score: with every `rand()` result 0
and the ship steered to x = 52 nothing ends the round, every obstacle that
leaves the screen adds 6 points, and the score cannot grow past `INT_MAX`. -/
theorem score_decrease_reachable :
    ∃ w w1 : World, InRound 0 w ∧ w.player_lives ≠ 0 ∧
      updatePositions (fun _ => 0) 1 0 w = some w1 ∧ w1.player_score < w.player_score := by
  rcases calm_progress 395137000000 with h | ⟨w, _, hcalm, hphi⟩
  · exact h
  · exfalso
    obtain ⟨hinv, _, _, _, _, _, _, _, hyb, hr, _⟩ := hcalm
    obtain ⟨_, c, _, hc1, hpool⟩ := hinv
    have hr0 : (w.asteroids.getD 0 Asteroid.zero).radius ≠ 0 := by
      intro h0
      have := (hpool.2.2.2.2.1 0 (by omega) (by omega)).1.1
      rw [h0] at this
      exact absurd this (by decide)
    obtain ⟨_, hy⟩ := hyb 0 hr0
    have hmax : INT_MAX = 2147483647 := rfl
    have h2 := hr.2
    rw [hmax] at h2
    push_cast at hphi
    omega

/-- A call of `updatePositions` on a score of the `int` range: either the score
does not decrease and grows by at most 240, or a sum of the obstacle loop has
left the `int` range and the score is at least 2^32 - 240 lower. -/
theorem updatePositions_score_cases (rand : Nat → Nat) (new_accel_x new_accel_y : Int)
    (w w1 : World) (h : FieldInv w)
    (hr : -2147483648 ≤ w.player_score ∧ w.player_score ≤ INT_MAX)
    (hstep : updatePositions rand new_accel_x new_accel_y w = some w1) :
    (w.player_score ≤ w1.player_score ∧ w1.player_score ≤ w.player_score + 240) ∨
    w1.player_score ≤ w.player_score + 240 - 4294967296 := by
  obtain ⟨h1, h4, _⟩ := fieldInv_updateShipPosition new_accel_x new_accel_y w h
  have hlen := fieldInv_count_le _ h1
  have h2 := foldl_updateAsteroid_score_cases rand
    (List.range (updateShipPosition new_accel_x new_accel_y w).current_num_asteroids.toNat)
    _ h1 (by rw [h4]; exact hr)
  rw [updatePositions_score rand new_accel_x new_accel_y w w1 hstep]
  rw [h4] at h2
  omega

/-! ## Theorems -/

/-- C1: for every integer elapsed time `t`, `decodePulse t` is 1 exactly when
`400 < t < 600`, is 0 exactly when `1500 < t < 1700`, and is -1 exactly when `t`
lies in neither range; the two ranges are disjoint and one of the three results
always applies. -/
theorem decodePulse_classifies (t : Int) :
    (decodePulse t = 1 ↔ (400 < t ∧ t < 600)) ∧
    (decodePulse t = 0 ↔ (1500 < t ∧ t < 1700)) ∧
    (decodePulse t = -1 ↔ (¬ (400 < t ∧ t < 600) ∧ ¬ (1500 < t ∧ t < 1700))) ∧
    ¬ ((400 < t ∧ t < 600) ∧ (1500 < t ∧ t < 1700)) ∧
    (decodePulse t = 1 ∨ decodePulse t = 0 ∨ decodePulse t = -1) := by
  unfold decodePulse SHORT_PULSE_MIN SHORT_PULSE_MAX LONG_PULSE_MIN LONG_PULSE_MAX
  by_cases h1 : 400 < t ∧ t < 600
  · have h2 : ¬ (1500 < t ∧ t < 1700) := by omega
    simp [h1, h2]
  · by_cases h2 : 1500 < t ∧ t < 1700
    · simp [h1, h2]
    · simp [h1, h2]

/-- C2: from a fresh accumulator (`bit_count = 0`, `decoded_sequence = 0`), for
every run of 32 serviced pulses that each classify as a bit, the IR step makes
no call to `matchSequence` during any proper prefix of the run (pulses 1..31)
and exactly one call on pulse 32, with the word whose most significant bit is
the first received bit; afterwards `bit_count = 0` and `decoded_sequence = 0`. -/
theorem ir_frame_32_valid_pulses (rand : Nat → Nat) (w : World) (ds : List Nat)
    (hbc : w.bit_count = 0) (hacc : w.decoded_sequence = 0) (hlen : ds.length = 32)
    (hv : ∀ d ∈ ds, pulseBit d = 0 ∨ pulseBit d = 1) :
    (∀ k : Nat, k < 32 → (runPulses rand (ds.take k) w).2 = []) ∧
    (runPulses rand ds w).2
      = [((List.range 32).map
          (fun i => (pulseBit (ds.getD i 0)).toNat * 2 ^ (31 - i))).sum] ∧
    (runPulses rand ds w).1.bit_count = 0 ∧
    (runPulses rand ds w).1.decoded_sequence = 0 := by
  obtain ⟨f1, f2, f3⟩ := runPulses_fresh32 rand w ds hbc hacc hlen hv
  refine ⟨?_, ?_, f2, f3⟩
  · intro k hk
    have hvt : ∀ d ∈ ds.take k, pulseBit d = 0 ∨ pulseBit d = 1 :=
      fun d hd => hv d (List.mem_of_mem_take hd)
    have hl : (ds.take k).length = k := by
      rw [List.length_take, hlen]; omega
    exact (runPulses_open rand (ds.take k) hvt w 0 (by simp [hbc]) (by omega)
      (by simp [hacc])).1
  · rw [f1]
    simp [msbFirstWord, hlen]

/-- C2, instance: 32 short pulses of 40000 ticks (500 us) from the boot state. -/
theorem ir_frame_32_valid_pulses_witness :
    (runPulses (fun _ => 0) (List.replicate 32 40000) bootWorld).1.bit_count = 0 ∧
    (runPulses (fun _ => 0) (List.replicate 32 40000) bootWorld).1.decoded_sequence = 0 :=
  (ir_frame_32_valid_pulses (fun _ => 0) bootWorld (List.replicate 32 40000)
    (by decide) (by decide) (by decide) (by decide)).2.2

/-- C3: for the twelve codes of the remote, `matchSequence` sets the button id
to the position of the code in the table; for every other word it sets -1; the
twelve codes are pairwise distinct; the result is always one value of
-1, 0, ..., 11. -/
theorem matchSequence_button_id (rand : Nat → Nat) (w : World) (word : Nat)
    (codes : List Nat)
    (hcodes : codes =
      [0xDF20F708, 0xDF207788, 0xDF20B748, 0xDF2037C8, 0xDF20D728, 0xDF2057A8,
       0xDF209768, 0xDF2017E8, 0xDF20E718, 0xDF206798, 0xDF20AF50, 0xDF20A758]) :
    (∀ i : Nat, i < 12 → (matchSequence rand (codes.getD i 0) w).curButton = (i : Int)) ∧
    (word ∉ codes → (matchSequence rand word w).curButton = -1) ∧
    codes.Nodup ∧
    (-1 ≤ (matchSequence rand word w).curButton ∧ (matchSequence rand word w).curButton ≤ 11) := by
  subst hcodes
  refine ⟨?_, ?_, by decide, ?_⟩
  · intro i hi
    rw [matchSequence_curButton]
    interval_cases i <;> rfl
  · intro hnot
    rw [matchSequence_curButton]
    exact scanIrMap_not_mem word (-1) ir_map hnot
  · rw [matchSequence_curButton]
    rcases scanIrMap_mem word (-1) ir_map with h | h
    · rw [h]; decide
    · have hb : scanIrMap ir_map word (-1) ∈ ir_map.map Prod.snd :=
        List.mem_map_of_mem Prod.snd h
      have hall : ∀ b ∈ ir_map.map Prod.snd, -1 ≤ b ∧ b ≤ 11 := by decide
      exact hall _ hb

/-- C3, instance: the code of button 10 yields 10 and the word 0 yields -1. -/
theorem matchSequence_button_id_witness :
    (matchSequence (fun _ => 0) 0xDF20AF50 bootWorld).curButton = 10 ∧
    (matchSequence (fun _ => 0) 0 bootWorld).curButton = -1 :=
  ⟨(matchSequence_button_id (fun _ => 0) bootWorld 0 _ rfl).1 10 (by decide),
   (matchSequence_button_id (fun _ => 0) bootWorld 0 _ rfl).2.1 (by decide)⟩

/-- C4: in every accumulator state, servicing one pulse that classifies as
invalid sets `bit_count = 0` and `decoded_sequence = 0` with no call to
`matchSequence`; the word matched after the next 32 valid pulses is the
most-significant-bit-first word of those 32 pulses alone, hence the same for
every prior state `w`, `w2` (and every invalid pulse `d`, `d2`). -/
theorem invalid_pulse_discards_progress (rand : Nat → Nat) (w w2 : World) (d d2 : Nat)
    (ds : List Nat)
    (hd : 0 < d) (hinv : pulseBit d = -1) (hd2 : 0 < d2) (hinv2 : pulseBit d2 = -1)
    (hlen : ds.length = 32) (hv : ∀ x ∈ ds, pulseBit x = 0 ∨ pulseBit x = 1) :
    (servicePulse rand d w).2 = [] ∧
    (servicePulse rand d w).1.bit_count = 0 ∧
    (servicePulse rand d w).1.decoded_sequence = 0 ∧
    (runPulses rand ds (servicePulse rand d w).1).2
      = [((List.range 32).map
          (fun i => (pulseBit (ds.getD i 0)).toNat * 2 ^ (31 - i))).sum] ∧
    (runPulses rand ds (servicePulse rand d w).1).2
      = (runPulses rand ds (servicePulse rand d2 w2).1).2 := by
  obtain ⟨a1, a2, a3⟩ := servicePulse_invalid rand d w hd hinv
  obtain ⟨b1, b2, b3⟩ := servicePulse_invalid rand d2 w2 hd2 hinv2
  have r1 := (runPulses_fresh32 rand (servicePulse rand d w).1 ds a2 a3 hlen hv).1
  have r2 := (runPulses_fresh32 rand (servicePulse rand d2 w2).1 ds b2 b3 hlen hv).1
  refine ⟨a1, a2, a3, ?_, ?_⟩
  · rw [r1]
    simp [msbFirstWord, hlen]
  · rw [r1, r2]

/-- C4, instance: 17 bits collected, then an over-long pulse of 800000 ticks,
then 32 long pulses of 128000 ticks (1600 us). -/
theorem invalid_pulse_discards_progress_witness :
    (servicePulse (fun _ => 0) 800000
      { bootWorld with bit_count := 17, decoded_sequence := 0x1BE41 }).1.bit_count = 0 ∧
    (servicePulse (fun _ => 0) 800000
      { bootWorld with bit_count := 17, decoded_sequence := 0x1BE41 }).1.decoded_sequence = 0 :=
  ⟨(invalid_pulse_discards_progress (fun _ => 0)
      { bootWorld with bit_count := 17, decoded_sequence := 0x1BE41 } bootWorld 800000 1
      (List.replicate 32 128000)
      (by decide) (by decide) (by decide) (by decide) (by decide) (by decide)).2.1,
   (invalid_pulse_discards_progress (fun _ => 0)
      { bootWorld with bit_count := 17, decoded_sequence := 0x1BE41 } bootWorld 800000 1
      (List.replicate 32 128000)
      (by decide) (by decide) (by decide) (by decide) (by decide) (by decide)).2.2.1⟩

/-- C5, counterexample: a decoded event for button 2 (code 0xDF20B748) changes
no multi-tap state. With button 2 pending (`prevButton = 2`, `pressCount = 1`)
the cycle index `(pressCount - 1) % 4` stays 0 instead of advancing to 1; from
the boot state (no pending entry) no entry is started: `prevButton` does not
become 2 and `pressCount` does not become 1. -/
theorem button_event_multitap_counterexample :
    (matchSequence (fun _ => 0) 0xDF20B748
        { bootWorld with prevButton := 2, pressCount := 1 }).curButton = 2 ∧
    Int.tmod ((matchSequence (fun _ => 0) 0xDF20B748
        { bootWorld with prevButton := 2, pressCount := 1 }).pressCount - 1) 4 = 0 ∧
    ¬ (Int.tmod ((matchSequence (fun _ => 0) 0xDF20B748
        { bootWorld with prevButton := 2, pressCount := 1 }).pressCount - 1) 4
        = Int.tmod (Int.tmod (1 - 1) 4 + 1) 4) ∧
    ¬ ((matchSequence (fun _ => 0) 0xDF20B748 bootWorld).prevButton = 2) ∧
    ¬ ((matchSequence (fun _ => 0) 0xDF20B748 bootWorld).pressCount = 1) := by
  decide

/-- C5, amended: a decoded button event (`matchSequence`, and `onButtonPress`
for any button value) leaves the multi-tap state untouched: `prevButton` and
`pressCount` keep their values, so no cycle index advances and no pending
entry is started; no character is emitted (both text buffers and their
indices are unchanged). -/
theorem button_event_keeps_multitap_state (rand : Nat → Nat) (word : Nat) (button : Int)
    (w : World) :
    ((matchSequence rand word w).prevButton = w.prevButton ∧
     (matchSequence rand word w).pressCount = w.pressCount ∧
     (matchSequence rand word w).displayBuffer = w.displayBuffer ∧
     (matchSequence rand word w).bufferIndex = w.bufferIndex ∧
     (matchSequence rand word w).MessageTx = w.MessageTx ∧
     (matchSequence rand word w).msgIndex = w.msgIndex) ∧
    ((onButtonPress rand button w).prevButton = w.prevButton ∧
     (onButtonPress rand button w).pressCount = w.pressCount ∧
     (onButtonPress rand button w).displayBuffer = w.displayBuffer ∧
     (onButtonPress rand button w).bufferIndex = w.bufferIndex ∧
     (onButtonPress rand button w).MessageTx = w.MessageTx ∧
     (onButtonPress rand button w).msgIndex = w.msgIndex) := by
  constructor
  · unfold matchSequence
    simp only
    obtain ⟨_, h2, h3, h4, h5, h6, h7⟩ := onButtonPress_keeps_text rand
      (scanIrMap ir_map word (-1))
      { w with curButton := scanIrMap ir_map word (-1) }
    exact ⟨h2, h3, h4, h5, h6, h7⟩
  · exact (onButtonPress_keeps_text rand button w).2

/-- C7, counterexample: the cycle of button 1 is the digit alone (no letter
before it), and the cycle of button 0 is one space, which is not a letter,
before the digit. -/
theorem keyMap_digit_cycle_counterexample :
    (¬ ∃ letters : List Char,
        (keyMap.getD 1 "").toList = letters ++ [Nat.digitChar 1] ∧
        2 ≤ letters.length ∧ letters.length ≤ 4 ∧ ∀ c ∈ letters, c.isAlpha = true) ∧
    (¬ ∃ letters : List Char,
        (keyMap.getD 0 "").toList = letters ++ [Nat.digitChar 0] ∧
        2 ≤ letters.length ∧ letters.length ≤ 4 ∧ ∀ c ∈ letters, c.isAlpha = true) := by
  constructor
  · rintro ⟨letters, h, h2, _, _⟩
    have hlen := congrArg List.length h
    have h1 : (keyMap.getD 1 "").toList.length = 1 := by decide
    rw [h1, List.length_append, List.length_singleton] at hlen
    omega
  · rintro ⟨letters, h, h2, _, _⟩
    have hlen := congrArg List.length h
    have h1 : (keyMap.getD 0 "").toList.length = 2 := by decide
    rw [h1, List.length_append, List.length_singleton] at hlen
    omega

/-- C7, amended: for every digit button `d` in 2..9 the cycle is 3 or 4 upper
case letters followed by the digit `d`; the cycle of button 0 is a space
followed by '0'; the cycle of button 1 is '1' alone; button 10 maps to the single
character backspace and button 11 to the single character newline. -/
theorem keyMap_cycles (d : Nat) (h2 : 2 ≤ d) (h9 : d ≤ 9) :
    (∃ letters : List Char,
        (keyMap.getD d "").toList = letters ++ [Nat.digitChar d] ∧
        3 ≤ letters.length ∧ letters.length ≤ 4 ∧ ∀ c ∈ letters, c.isUpper = true) ∧
    (keyMap.getD 2 "").toList = ['A', 'B', 'C', '2'] ∧
    (keyMap.getD 0 "").toList = [' ', '0'] ∧
    (keyMap.getD 1 "").toList = ['1'] ∧
    (keyMap.getD 10 "").toList = [Char.ofNat 8] ∧
    (keyMap.getD 11 "").toList = ['\n'] ∧
    keyMap.length = 12 := by
  refine ⟨?_, by decide, by decide, by decide, by decide, by decide, by decide⟩
  refine ⟨(keyMap.getD d "").toList.dropLast, ?_, ?_, ?_, ?_⟩ <;>
    interval_cases d <;> decide

/-- C7, instance: button 7 cycles through P, Q, R, S, 7. -/
theorem keyMap_cycles_witness :
    ∃ letters : List Char,
      (keyMap.getD 7 "").toList = letters ++ [Nat.digitChar 7] ∧
      3 ≤ letters.length ∧ letters.length ≤ 4 ∧ ∀ c ∈ letters, c.isUpper = true :=
  (keyMap_cycles 7 (by decide) (by decide)).1

/-- C8: for every content of the slot flags and every stream of `rand()`
results, `getFreeAsteroidSlot` returns -1 exactly when all five slots are marked
used, and otherwise an index `0 <= i < 5` whose flag is 0 (free), so never a
used slot; the slot flags after the call are those before it. -/
theorem getFreeAsteroidSlot_returns_free (rand : Nat → Nat) (w : World) :
    ((getFreeAsteroidSlot rand w).1 = -1 ↔
      ∀ i : Nat, i < 5 → w.asteroid_slot_used.getD i 0 ≠ 0) ∧
    ((getFreeAsteroidSlot rand w).1 = -1 ∨
      (0 ≤ (getFreeAsteroidSlot rand w).1 ∧ (getFreeAsteroidSlot rand w).1 < 5 ∧
        w.asteroid_slot_used.getD (getFreeAsteroidSlot rand w).1.toNat 0 = 0)) ∧
    (getFreeAsteroidSlot rand w).2.asteroid_slot_used = w.asteroid_slot_used := by
  by_cases hc : (collectFreeSlots w.asteroid_slot_used).length = 0
  · have hnil : collectFreeSlots w.asteroid_slot_used = [] := List.eq_nil_of_length_eq_zero hc
    have hr : (getFreeAsteroidSlot rand w).1 = -1 := by
      rw [getFreeAsteroidSlot_fst, if_pos hc]
    refine ⟨⟨fun _ i hi h0 => ?_, fun _ => hr⟩, Or.inl hr, ?_⟩
    · have : ((i : Nat) : Int) ∈ collectFreeSlots w.asteroid_slot_used :=
        (mem_collectFreeSlots _ _).2 ⟨i, hi, h0, rfl⟩
      rw [hnil] at this
      exact absurd this (List.not_mem_nil _)
    · simp [getFreeAsteroidSlot, hc]
  · obtain ⟨i, hi, h0, hx⟩ := (mem_collectFreeSlots _ _).1 (getFreeAsteroidSlot_mem rand w hc)
    refine ⟨⟨fun h => ?_, fun h => absurd h0 (h i hi)⟩, Or.inr ?_, ?_⟩
    · omega
    · rw [hx]
      exact ⟨by omega, by omega, by simpa using h0⟩
    · simp [getFreeAsteroidSlot, hc]

/-- C10: for every valid slot index `s` and every stream of `rand()` results,
`spawnAsteroidInSlot` writes an obstacle with radius in {6, 8, 10, 12}, vertical
velocity `dy` in {1, 2, 3, 4}, scoring tier `speed = dy`, `y = -radius - 10`
(so its lowest point `y + radius` is above the top edge 0), `x` the x-coordinate
of slot `s` and `dx = 0`; it sets the flag of slot `s` to 1 and leaves every
other slot flag unchanged. -/
theorem spawnAsteroidInSlot_spec (rand : Nat → Nat) (idx s : Nat) (w : World)
    (hs : s < 5) (hidx : idx < w.asteroids.length) (hused : w.asteroid_slot_used.length = 5) :
    ((spawnAsteroidInSlot rand idx (s : Int) w).asteroids.getD idx Asteroid.zero).radius
      ∈ [6, 8, 10, 12] ∧
    ((spawnAsteroidInSlot rand idx (s : Int) w).asteroids.getD idx Asteroid.zero).dy
      ∈ [1, 2, 3, 4] ∧
    ((spawnAsteroidInSlot rand idx (s : Int) w).asteroids.getD idx Asteroid.zero).speed
      = ((spawnAsteroidInSlot rand idx (s : Int) w).asteroids.getD idx Asteroid.zero).dy ∧
    ((spawnAsteroidInSlot rand idx (s : Int) w).asteroids.getD idx Asteroid.zero).y
      = -((spawnAsteroidInSlot rand idx (s : Int) w).asteroids.getD idx Asteroid.zero).radius - 10 ∧
    ((spawnAsteroidInSlot rand idx (s : Int) w).asteroids.getD idx Asteroid.zero).y
      + ((spawnAsteroidInSlot rand idx (s : Int) w).asteroids.getD idx Asteroid.zero).radius < 0 ∧
    ((spawnAsteroidInSlot rand idx (s : Int) w).asteroids.getD idx Asteroid.zero).x
      = w.asteroid_slot_x.getD s 0 ∧
    ((spawnAsteroidInSlot rand idx (s : Int) w).asteroids.getD idx Asteroid.zero).dx = 0 ∧
    (spawnAsteroidInSlot rand idx (s : Int) w).asteroid_slot_used.getD s 0 = 1 ∧
    (∀ j : Nat, j ≠ s →
      (spawnAsteroidInSlot rand idx (s : Int) w).asteroid_slot_used.getD j 0
        = w.asteroid_slot_used.getD j 0) ∧
    (spawnAsteroidInSlot rand idx (s : Int) w).asteroid_slot_x = w.asteroid_slot_x := by
  have hguard : (s : Int) ≥ 0 ∧ (s : Int) < (NUM_ASTEROID_SLOTS : Int) := by
    simp only [NUM_ASTEROID_SLOTS, MAX_ACTIVE_ASTEROIDS]
    omega
  have hr : ∀ n : Nat, radius_options.getD (n % 4) 0 ∈ [6, 8, 10, 12] := by
    intro n
    have : n % 4 < 4 := Nat.mod_lt _ (by decide)
    interval_cases (n % 4) <;> decide
  have hd : ∀ n : Nat, speed_options.getD (n % 4) 0 ∈ [1, 2, 3, 4] := by
    intro n
    have : n % 4 < 4 := Nat.mod_lt _ (by decide)
    interval_cases (n % 4) <;> decide
  have ha : (spawnAsteroidInSlot rand idx (s : Int) w).asteroids.getD idx Asteroid.zero
      = { x := w.asteroid_slot_x.getD s 0
          y := -(radius_options.getD (rand w.rand_calls % 4) 0) - 10
          dx := 0
          dy := speed_options.getD (rand (w.rand_calls + 1) % 4) 0
          radius := radius_options.getD (rand w.rand_calls % 4) 0
          sides := 4
          speed := speed_options.getD (rand (w.rand_calls + 1) % 4) 0 } := by
    simp [spawnAsteroidInSlot, setAsteroidSlotUsed, hguard, hidx, List.getD_eq_getElem?_getD]
  have hu : (spawnAsteroidInSlot rand idx (s : Int) w).asteroid_slot_used
      = w.asteroid_slot_used.set s 1 := by
    simp [spawnAsteroidInSlot, setAsteroidSlotUsed, hguard]
  rw [ha, hu]
  refine ⟨hr _, hd _, rfl, rfl, by simp only []; omega, rfl, rfl, ?_, ?_, ?_⟩
  · simp [List.getD_eq_getElem?_getD, hused, hs]
  · intro j hj
    simp [List.getD_eq_getElem?_getD, List.getElem?_set, Ne.symm hj]
  · simp [spawnAsteroidInSlot, setAsteroidSlotUsed, hguard]

/-- C10, instance: spawning into slot 3 after the slots have been laid out. -/
theorem spawnAsteroidInSlot_spec_witness :
    ((spawnAsteroidInSlot (fun n => n + 1) 0 ((3 : Nat) : Int)
        (initAsteroidSlots bootWorld)).asteroids.getD 0 Asteroid.zero).x
      = (initAsteroidSlots bootWorld).asteroid_slot_x.getD 3 0 ∧
    (spawnAsteroidInSlot (fun n => n + 1) 0 ((3 : Nat) : Int)
        (initAsteroidSlots bootWorld)).asteroid_slot_used.getD 3 0 = 1 :=
  ⟨(spawnAsteroidInSlot_spec (fun n => n + 1) 0 3 (initAsteroidSlots bootWorld)
      (by decide) (by decide) (by decide)).2.2.2.2.2.1,
   (spawnAsteroidInSlot_spec (fun n => n + 1) 0 3 (initAsteroidSlots bootWorld)
      (by decide) (by decide) (by decide)).2.2.2.2.2.2.2.1⟩

/-- C9: let `c` be the number of free slots and let slot `i` be one of them.
The `c!` draw sequences (one draw in `0..k` for each step `k = c - 1, ..., 1` of
the shuffle, all sequences different) are enumerated by `drawSeqs (c - 1)`, and
exactly `(c - 1)!` of them make `getFreeAsteroidSlot` return `i`: every free slot
is selected by the same share `1 / c` of the draw sequences. -/
theorem getFreeAsteroidSlot_uniform (w : World) (i c : Nat) (hi : i < 5)
    (hfree : w.asteroid_slot_used.getD i 0 = 0)
    (hc : c = ((List.range 5).filter
      (fun j => decide (w.asteroid_slot_used.getD j 0 = 0))).length) :
    1 ≤ c ∧
    (drawSeqs (c - 1)).length = c.factorial ∧
    (drawSeqs (c - 1)).Nodup ∧
    (∀ d ∈ drawSeqs (c - 1), d.length = c - 1 ∧ ∀ k : Nat, k < c - 1 → d.getD k 0 ≤ c - 1 - k) ∧
    ((drawSeqs (c - 1)).filter
      (fun d => decide ((getFreeAsteroidSlot (drawStream d w.rand_calls) w).1 = (i : Int)))).length
      = (c - 1).factorial := by
  have hcount : c = (collectFreeSlots w.asteroid_slot_used).length := by
    rw [hc, collectFreeSlots_eq, List.length_map]
  have hmem : ((i : Nat) : Int) ∈ collectFreeSlots w.asteroid_slot_used :=
    (mem_collectFreeSlots _ _).2 ⟨i, hi, hfree, rfl⟩
  have hc1 : 1 ≤ c := by
    rw [hcount]
    exact List.length_pos_of_mem hmem
  have hc5 : c ≤ 5 := by
    rw [hc]
    exact le_trans (List.length_filter_le _ _) (by simp)
  obtain ⟨s1, s2, s3⟩ := drawSeqs_small (c - 1) (by omega)
  have e : c - 1 + 1 = c := by omega
  rw [e] at s1
  refine ⟨hc1, s1, s2, s3, ?_⟩
  have hflags := collectFreeSlots_flags w.asteroid_slot_used
  have hcore := slotOfDraws_count
    (if w.asteroid_slot_used.getD 0 0 = 0 then 0 else 1)
    (if w.asteroid_slot_used.getD 1 0 = 0 then 0 else 1)
    (if w.asteroid_slot_used.getD 2 0 = 0 then 0 else 1)
    (if w.asteroid_slot_used.getD 3 0 = 0 then 0 else 1)
    (if w.asteroid_slot_used.getD 4 0 = 0 then 0 else 1)
    (by split_ifs <;> simp) (by split_ifs <;> simp) (by split_ifs <;> simp)
    (by split_ifs <;> simp) (by split_ifs <;> simp)
  rw [← hflags, ← hcount] at hcore
  have hfun : (fun d => decide ((getFreeAsteroidSlot (drawStream d w.rand_calls) w).1 = (i : Int)))
      = (fun d => decide (slotOfDraws (collectFreeSlots w.asteroid_slot_used) d = (i : Int))) := by
    funext d
    rw [getFreeAsteroidSlot_drawStream]
  rw [hfun]
  exact hcore _ hmem

/-- C9, instance: slots 0 and 3 used, slot 2 one of the three free slots; it is
returned by 2 of the 6 draw sequences. -/
theorem getFreeAsteroidSlot_uniform_witness :
    ((drawSeqs (3 - 1)).filter
      (fun d => decide ((getFreeAsteroidSlot
        (drawStream d ({ bootWorld with asteroid_slot_used := [1, 0, 0, 1, 0] }).rand_calls)
        { bootWorld with asteroid_slot_used := [1, 0, 0, 1, 0] }).1 = ((2 : Nat) : Int)))).length
      = (3 - 1).factorial :=
  (getFreeAsteroidSlot_uniform { bootWorld with asteroid_slot_used := [1, 0, 0, 1, 0] } 2 3
    (by decide) (by decide) (by decide)).2.2.2.2

/-! ## Theorems: simulation and game mode -/

/-- C12: `checkCollisions` decrements the lives exactly when some active
obstacle `i` below the active count has
`(ship_x - x_i)^2 + (ship_y - y_i)^2 < (ship_size / 2 + radius_i - 1)^2`, and
otherwise changes nothing. For an obstacle `a` with
`ship_size / 2 + radius >= 2`: centers exactly `ship_size / 2 + radius` apart do
not satisfy the test, centers `ship_size / 2 + radius - 2` apart do. -/
theorem checkCollisions_registers_iff (rand : Nat → Nat) (w : World) (a : Asteroid)
    (hsum : 2 ≤ Int.tdiv w.ship_size 2 + a.radius) :
    ((checkCollisions rand w).player_lives = w.player_lives - 1 ↔
      ∃ i : Nat, (i : Int) < w.current_num_asteroids ∧
        (w.asteroids.getD i Asteroid.zero).radius ≠ 0 ∧
        (w.ship_x - (w.asteroids.getD i Asteroid.zero).x) ^ 2
          + (w.ship_y - (w.asteroids.getD i Asteroid.zero).y) ^ 2
          < (Int.tdiv w.ship_size 2 + (w.asteroids.getD i Asteroid.zero).radius - 1) ^ 2) ∧
    ((¬ ∃ i : Nat, (i : Int) < w.current_num_asteroids ∧
        (w.asteroids.getD i Asteroid.zero).radius ≠ 0 ∧
        (w.ship_x - (w.asteroids.getD i Asteroid.zero).x) ^ 2
          + (w.ship_y - (w.asteroids.getD i Asteroid.zero).y) ^ 2
          < (Int.tdiv w.ship_size 2 + (w.asteroids.getD i Asteroid.zero).radius - 1) ^ 2) →
      checkCollisions rand w = w) ∧
    ((w.ship_x - a.x) ^ 2 + (w.ship_y - a.y) ^ 2 = (Int.tdiv w.ship_size 2 + a.radius) ^ 2 →
      ¬ shipOverlaps w a) ∧
    ((w.ship_x - a.x) ^ 2 + (w.ship_y - a.y) ^ 2 = (Int.tdiv w.ship_size 2 + a.radius - 2) ^ 2 →
      shipOverlaps w a) := by
  have hform : ∀ b : Asteroid, shipOverlaps w b ↔
      (w.ship_x - b.x) ^ 2 + (w.ship_y - b.y) ^ 2
        < (Int.tdiv w.ship_size 2 + b.radius - 1) ^ 2 := by
    intro b
    unfold shipOverlaps
    simp only [pow_two]
  have hrange : ∀ i : Nat, i ∈ List.range w.current_num_asteroids.toNat ↔
      (i : Int) < w.current_num_asteroids := by
    intro i
    rw [List.mem_range]
    omega
  have hlives : (registerCollision rand w).player_lives = w.player_lives - 1 := by
    unfold registerCollision
    simp only []
    split
    · obtain ⟨a1, u1, x1, c1, hfr⟩ := initAsteroids_frame rand
        { w with
          player_lives := w.player_lives - 1
          ship_x := SCREEN_WIDTH / 2
          ship_y := SCREEN_HEIGHT - 32
          x_speed := 0
          y_speed := 0 }
      rw [hfr]
    · rfl
  refine ⟨?_, ?_, ?_, ?_⟩
  · unfold checkCollisions
    rcases checkCollisionsFrom_cases rand w (List.range w.current_num_asteroids.toNat) with
      ⟨h1, h2⟩ | ⟨h1, i, hi, hr, ho⟩
    · rw [h1]
      constructor
      · intro h; omega
      · rintro ⟨i, hi, hr, ho⟩
        exact absurd ((hform _).2 ho) (h2 i ((hrange i).2 hi) hr)
    · rw [h1]
      exact ⟨fun _ => ⟨i, (hrange i).1 hi, hr, (hform _).1 ho⟩, fun _ => hlives⟩
  · intro hno
    unfold checkCollisions
    rcases checkCollisionsFrom_cases rand w (List.range w.current_num_asteroids.toNat) with
      ⟨h1, _⟩ | ⟨_, i, hi, hr, ho⟩
    · exact h1
    · exact absurd ⟨i, (hrange i).1 hi, hr, (hform _).1 ho⟩ hno
  · intro heq
    rw [hform, heq]
    nlinarith
  · intro heq
    rw [hform, heq]
    nlinarith

/-- C12, instance: ship at (64, 96) with `ship_size = 10`, one obstacle of
radius 8 straight above it. At distance 13 = 5 + 8 no collision is registered; at
distance 11 = 5 + 8 - 2 the test holds. -/
theorem checkCollisions_registers_iff_witness :
    ¬ shipOverlaps bootWorld
        { x := 64, y := 83, dx := 0, dy := 2, radius := 8, sides := 4, speed := 2 } ∧
    shipOverlaps bootWorld
        { x := 64, y := 85, dx := 0, dy := 2, radius := 8, sides := 4, speed := 2 } :=
  ⟨(checkCollisions_registers_iff (fun _ => 0) bootWorld
      { x := 64, y := 83, dx := 0, dy := 2, radius := 8, sides := 4, speed := 2 }
      (by decide)).2.2.1 (by decide),
   (checkCollisions_registers_iff (fun _ => 0) bootWorld
      { x := 64, y := 85, dx := 0, dy := 2, radius := 8, sides := 4, speed := 2 }
      (by decide)).2.2.2 (by decide)⟩

/-- C13: when some active obstacle below the active count overlaps the ship
(one or several), `checkCollisions` decreases the lives by exactly one. If lives
remain, the ship is at (64, 96) with both speeds 0, the active count is 1, the
pool holds exactly one obstacle (entry 0, radius in {6, 8, 10, 12}, at slot 0),
slot 0 is the only slot marked used, and the score is unchanged. If no lives
remain, nothing but the lives changes. -/
theorem checkCollisions_collision_effect (rand : Nat → Nat) (w : World)
    (h1 : w.asteroids.length = 5) (h2 : w.asteroid_slot_used.length = 5)
    (h3 : w.asteroid_slot_x.length = 5)
    (hcol : ∃ i : Nat, (i : Int) < w.current_num_asteroids ∧
      (w.asteroids.getD i Asteroid.zero).radius ≠ 0 ∧
      shipOverlaps w (w.asteroids.getD i Asteroid.zero)) :
    (checkCollisions rand w).player_lives = w.player_lives - 1 ∧
    (w.player_lives - 1 > 0 →
      (checkCollisions rand w).ship_x = 64 ∧
      (checkCollisions rand w).ship_y = 96 ∧
      (checkCollisions rand w).x_speed = 0 ∧
      (checkCollisions rand w).y_speed = 0 ∧
      (checkCollisions rand w).current_num_asteroids = 1 ∧
      (∃ a : Asteroid, a.radius ∈ [6, 8, 10, 12] ∧ a.x = 12 ∧
        (checkCollisions rand w).asteroids
          = [a, Asteroid.zero, Asteroid.zero, Asteroid.zero, Asteroid.zero]) ∧
      (checkCollisions rand w).asteroid_slot_used = [1, 0, 0, 0, 0] ∧
      (checkCollisions rand w).asteroid_slot_x = [12, 37, 62, 87, 112] ∧
      (checkCollisions rand w).player_score = w.player_score) ∧
    (¬ (w.player_lives - 1 > 0) →
      checkCollisions rand w = { w with player_lives := w.player_lives - 1 }) := by
  obtain ⟨i, hi, hr, ho⟩ := hcol
  have hreg : checkCollisions rand w = registerCollision rand w := by
    unfold checkCollisions
    rcases checkCollisionsFrom_cases rand w (List.range w.current_num_asteroids.toNat) with
      ⟨_, hno⟩ | ⟨heq, _⟩
    · exact absurd ho (hno i (by rw [List.mem_range]; omega) hr)
    · exact heq
  rw [hreg]
  by_cases hl : w.player_lives - 1 > 0
  · obtain ⟨a, hlive, hx, _, heq⟩ := initAsteroids_eq rand
      { w with
        player_lives := w.player_lives - 1
        ship_x := SCREEN_WIDTH / 2
        ship_y := SCREEN_HEIGHT - 32
        x_speed := 0
        y_speed := 0 } h1 h2 h3
    have hrc : registerCollision rand w
        = initAsteroids rand
          { w with
            player_lives := w.player_lives - 1
            ship_x := SCREEN_WIDTH / 2
            ship_y := SCREEN_HEIGHT - 32
            x_speed := 0
            y_speed := 0 } := by
      unfold registerCollision
      simp only []
      rw [if_pos hl]
    rw [hrc, heq]
    refine ⟨rfl, fun _ => ⟨(by decide : SCREEN_WIDTH / 2 = (64 : Int)),
      (by decide : SCREEN_HEIGHT - 32 = (96 : Int)), rfl, rfl, rfl, ⟨a, hlive.1, hx, rfl⟩, rfl, rfl, rfl⟩,
      fun hn => absurd hl hn⟩
  · have hrc : registerCollision rand w = { w with player_lives := w.player_lives - 1 } := by
      unfold registerCollision
      simp only []
      rw [if_neg hl]
    rw [hrc]
    exact ⟨rfl, fun hp => absurd hp hl, fun _ => rfl⟩

/-- C13, instance: three lives, ship at (64, 96), obstacles of radius 8 at
(64, 90) and of radius 6 at (60, 96) both overlapping the ship: one life is
lost. -/
theorem checkCollisions_collision_effect_witness :
    (checkCollisions (fun _ => 0)
      { bootWorld with
        current_num_asteroids := 2
        asteroids :=
          [{ x := 64, y := 90, dx := 0, dy := 2, radius := 8, sides := 4, speed := 2 },
           { x := 60, y := 96, dx := 0, dy := 1, radius := 6, sides := 4, speed := 1 },
           Asteroid.zero, Asteroid.zero, Asteroid.zero] }).player_lives = 3 - 1 :=
  (checkCollisions_collision_effect (fun _ => 0)
    { bootWorld with
      current_num_asteroids := 2
      asteroids :=
        [{ x := 64, y := 90, dx := 0, dy := 2, radius := 8, sides := 4, speed := 2 },
         { x := 60, y := 96, dx := 0, dy := 1, radius := 6, sides := 4, speed := 1 },
         Asteroid.zero, Asteroid.zero, Asteroid.zero] }
    (by decide) (by decide) (by decide) ⟨1, by decide, by decide, by decide⟩).1

/-- C19: in mode StartScreen, button 10 sets lives 3, score 0, ship at (64, 96),
both speeds 0, active count 1 with exactly one obstacle in the pool (entry 0,
radius in {6, 8, 10, 12}), last milestone level 0, next threshold 100, and mode
Playing; every other button value leaves the whole state unchanged. -/
theorem start_screen_buttons (rand : Nat → Nat) (w : World) (button : Int)
    (hmode : w.current_game_state = GameState.GAME_STATE_START_SCREEN)
    (h1 : w.asteroids.length = 5) (h2 : w.asteroid_slot_used.length = 5)
    (h3 : w.asteroid_slot_x.length = 5) :
    ((onButtonPress rand 10 w).player_lives = 3 ∧
     (onButtonPress rand 10 w).player_score = 0 ∧
     (onButtonPress rand 10 w).ship_x = 64 ∧
     (onButtonPress rand 10 w).ship_y = 96 ∧
     (onButtonPress rand 10 w).x_speed = 0 ∧
     (onButtonPress rand 10 w).y_speed = 0 ∧
     (onButtonPress rand 10 w).current_num_asteroids = 1 ∧
     (∃ a : Asteroid, a.radius ∈ [6, 8, 10, 12] ∧
       (onButtonPress rand 10 w).asteroids
         = [a, Asteroid.zero, Asteroid.zero, Asteroid.zero, Asteroid.zero]) ∧
     (onButtonPress rand 10 w).last_milestone_reached = 0 ∧
     (onButtonPress rand 10 w).next_milestone = 100 ∧
     (onButtonPress rand 10 w).current_game_state = GameState.GAME_STATE_PLAYING) ∧
    (button ≠ 10 → onButtonPress rand button w = w) := by
  constructor
  · obtain ⟨a, hlive, _, _, heq⟩ := initAsteroids_eq rand
      { w with
        player_lives := 3
        player_score := 0
        ship_x := SCREEN_WIDTH / 2
        ship_y := SCREEN_HEIGHT - 32
        ship_size := 10
        x_speed := 0
        y_speed := 0 } h1 h2 h3
    have hp : onButtonPress rand 10 w
        = { initAsteroids rand
            { w with
              player_lives := 3
              player_score := 0
              ship_x := SCREEN_WIDTH / 2
              ship_y := SCREEN_HEIGHT - 32
              ship_size := 10
              x_speed := 0
              y_speed := 0 } with
            current_game_state := GameState.GAME_STATE_PLAYING } := by
      simp [onButtonPress, hmode, varInit]
    rw [hp, heq]
    exact ⟨rfl, rfl, (by decide : SCREEN_WIDTH / 2 = (64 : Int)),
      (by decide : SCREEN_HEIGHT - 32 = (96 : Int)), rfl, rfl, rfl, ⟨a, hlive.1, rfl⟩, rfl, rfl, rfl⟩
  · intro hb
    simp [onButtonPress, hmode, hb]

/-- C19, instance: the start button on the boot state. -/
theorem start_screen_buttons_witness :
    (onButtonPress (fun _ => 0) 10 bootWorld).current_game_state
      = GameState.GAME_STATE_PLAYING ∧
    onButtonPress (fun _ => 0) 3 bootWorld = bootWorld :=
  ⟨(start_screen_buttons (fun _ => 0) bootWorld 3 rfl (by decide) (by decide)
      (by decide)).1.2.2.2.2.2.2.2.2.2.2,
   (start_screen_buttons (fun _ => 0) bootWorld 3 rfl (by decide) (by decide)
      (by decide)).2 (by decide)⟩

/-- C20: in mode Playing, button 11 sets `x_speed` and `y_speed` to 0 and changes
nothing else (the mode stays Playing); every other button 0..10 leaves the whole
state unchanged. -/
theorem playing_buttons (rand : Nat → Nat) (w : World) (button : Int)
    (hmode : w.current_game_state = GameState.GAME_STATE_PLAYING) :
    onButtonPress rand 11 w = { w with x_speed := 0, y_speed := 0 } ∧
    (onButtonPress rand 11 w).current_game_state = GameState.GAME_STATE_PLAYING ∧
    (0 ≤ button ∧ button ≤ 10 → onButtonPress rand button w = w) := by
  have h11 : onButtonPress rand 11 w = { w with x_speed := 0, y_speed := 0 } := by
    unfold onButtonPress
    rw [if_neg (by decide), hmode]
    simp
  refine ⟨h11, ?_, ?_⟩
  · rw [h11]
    exact hmode
  · intro hb
    unfold onButtonPress
    rw [if_neg (by omega), hmode]
    simp only []
    split_ifs <;> first | rfl | omega

/-- C20, instance: emergency stop and button 5 while playing with speed -2. -/
theorem playing_buttons_witness :
    (onButtonPress (fun _ => 0) 11
      { bootWorld with
        current_game_state := GameState.GAME_STATE_PLAYING, x_speed := -2 }).x_speed = 0 ∧
    onButtonPress (fun _ => 0) 5
      { bootWorld with current_game_state := GameState.GAME_STATE_PLAYING, x_speed := -2 }
      = { bootWorld with current_game_state := GameState.GAME_STATE_PLAYING, x_speed := -2 } :=
  ⟨by
    rw [(playing_buttons (fun _ => 0)
      { bootWorld with current_game_state := GameState.GAME_STATE_PLAYING, x_speed := -2 }
      5 rfl).1],
   (playing_buttons (fun _ => 0)
      { bootWorld with current_game_state := GameState.GAME_STATE_PLAYING, x_speed := -2 }
      5 rfl).2.2 (by decide)⟩

/-- C18, counterexample: with the ship at x = 0 and speed -2 the new x is 127,
not (0 - 2) mod 128 = 126; with the ship at x = 127 and speed 2 the new x is 0,
not (127 + 2) mod 128 = 1. -/
theorem ship_wrap_counterexample :
    (updateShipFromAccel 5 0 { bootWorld with ship_x := 0, accel_counter := 1 }).x_speed = -2 ∧
    (updatePositions (fun _ => 0) 5 0
      { bootWorld with ship_x := 0, accel_counter := 1 }).map (fun w => w.ship_x) = some 127 ∧
    ((0 : Int) + (-2)) % 128 = 126 ∧
    (updateShipFromAccel (-5) 0 { bootWorld with ship_x := 127, accel_counter := 1 }).x_speed = 2 ∧
    (updatePositions (fun _ => 0) (-5) 0
      { bootWorld with ship_x := 127, accel_counter := 1 }).map (fun w => w.ship_x) = some 0 ∧
    ((127 : Int) + 2) % 128 = 1 := by
  decide

/-- C18, amended: for every ship x in 0..127, the speed `v` that
`updateShipFromAccel` sets lies in -2..2, and the ship update of
`updatePositions` sets the new x to `x + v` when that is in 0..127, to 127 when
`x + v < 0` and to 0 when `x + v >= 128`. This is `(x + v) mod 128` except for
x = 0 with v = -2 and x = 127 with v = 2. Ship y is unchanged, and the rest of
`updatePositions` changes neither coordinate. -/
theorem ship_update_wraps_to_edge (rand : Nat → Nat) (new_accel_x new_accel_y : Int) (w : World)
    (hx0 : 0 ≤ w.ship_x) (hx1 : w.ship_x ≤ 127) :
    (-2 ≤ (updateShipFromAccel new_accel_x new_accel_y w).x_speed ∧
      (updateShipFromAccel new_accel_x new_accel_y w).x_speed ≤ 2) ∧
    (updateShipPosition new_accel_x new_accel_y w).ship_x
      = (if w.ship_x + (updateShipFromAccel new_accel_x new_accel_y w).x_speed < 0 then 127
         else if w.ship_x + (updateShipFromAccel new_accel_x new_accel_y w).x_speed ≥ 128 then 0
         else w.ship_x + (updateShipFromAccel new_accel_x new_accel_y w).x_speed) ∧
    (¬ (w.ship_x = 0 ∧ (updateShipFromAccel new_accel_x new_accel_y w).x_speed = -2) →
      ¬ (w.ship_x = 127 ∧ (updateShipFromAccel new_accel_x new_accel_y w).x_speed = 2) →
      (updateShipPosition new_accel_x new_accel_y w).ship_x
        = (w.ship_x + (updateShipFromAccel new_accel_x new_accel_y w).x_speed) % 128) ∧
    (updateShipPosition new_accel_x new_accel_y w).ship_y = w.ship_y ∧
    (∀ w2 : World, updatePositions rand new_accel_x new_accel_y w = some w2 →
      w2.ship_x = (updateShipPosition new_accel_x new_accel_y w).ship_x ∧
      w2.ship_y = w.ship_y) := by
  have hv : -2 ≤ (updateShipFromAccel new_accel_x new_accel_y w).x_speed ∧
      (updateShipFromAccel new_accel_x new_accel_y w).x_speed ≤ 2 := by
    unfold updateShipFromAccel
    simp only []
    split_ifs <;> omega
  have hsx : (updateShipPosition new_accel_x new_accel_y w).ship_x
      = (if w.ship_x + (updateShipFromAccel new_accel_x new_accel_y w).x_speed < 0 then 127
         else if w.ship_x + (updateShipFromAccel new_accel_x new_accel_y w).x_speed ≥ 128 then 0
         else w.ship_x + (updateShipFromAccel new_accel_x new_accel_y w).x_speed) := by
    have e : (updateShipPosition new_accel_x new_accel_y w).ship_x
        = (if (if w.ship_x + (updateShipFromAccel new_accel_x new_accel_y w).x_speed < 0
                then SCREEN_WIDTH - 1
                else w.ship_x + (updateShipFromAccel new_accel_x new_accel_y w).x_speed)
              ≥ SCREEN_WIDTH then 0
           else (if w.ship_x + (updateShipFromAccel new_accel_x new_accel_y w).x_speed < 0
                then SCREEN_WIDTH - 1
                else w.ship_x + (updateShipFromAccel new_accel_x new_accel_y w).x_speed)) := rfl
    rw [e]
    simp only [SCREEN_WIDTH]
    split_ifs <;> omega
  refine ⟨hv, hsx, ?_, rfl, ?_⟩
  · intro hn1 hn2
    rw [hsx]
    split_ifs <;> omega
  · intro w2 hstep
    unfold updatePositions at hstep
    simp only [] at hstep
    obtain ⟨a, u, score, calls, hfold⟩ := updateAsteroid_foldl_frame rand
      (List.range (updateShipPosition new_accel_x new_accel_y w).current_num_asteroids.toNat)
      (updateShipPosition new_accel_x new_accel_y w)
    obtain ⟨a2, u2, calls2, cnt, last, next, hms⟩ := checkScoreMilestones_frame rand _ w2 hstep
    rw [hms, hfold]
    exact ⟨rfl, rfl⟩

/-- C18, instance: ship at x = 64 in the boot state. -/
theorem ship_update_wraps_to_edge_witness :
    (updateShipPosition 5 0 { bootWorld with accel_counter := 1 }).ship_y = bootWorld.ship_y :=
  (ship_update_wraps_to_edge (fun _ => 0) 5 0 { bootWorld with accel_counter := 1 }
    (by decide) (by decide)).2.2.2.1

/-- C15: in a state that satisfies the pool invariant with active count 1, last
level 0 and next threshold 100: a score below 100 makes `checkScoreMilestones`
change nothing; a score in [100, 1000) yields level 1, active count 2 and next
threshold 1000; and from the resulting state, with any score in [1000, 10000),
the next check yields level 2, active count 3 and next threshold 10000. In any
state at all, one check raises the count by at most one and changes at most one
pool entry. -/
theorem checkScoreMilestones_progression (rand rand2 : Nat → Nat) (w v : World) (s2 : Int)
    (hinv : FieldInv w) (hcount : w.current_num_asteroids = 1)
    (hlast : w.last_milestone_reached = 0) (hnext : w.next_milestone = 100)
    (hs2 : 1000 ≤ s2 ∧ s2 < 10000) :
    (w.player_score < 100 → checkScoreMilestones rand w = some w) ∧
    (100 ≤ w.player_score ∧ w.player_score < 1000 →
      ∃ w1 : World, checkScoreMilestones rand w = some w1 ∧
        w1.last_milestone_reached = 1 ∧ w1.current_num_asteroids = 2 ∧
        w1.next_milestone = 1000 ∧
        ∃ w2 : World,
          checkScoreMilestones rand2 { w1 with player_score := s2 } = some w2 ∧
          w2.last_milestone_reached = 2 ∧ w2.current_num_asteroids = 3 ∧
          w2.next_milestone = 10000) ∧
    (∀ v2 : World, checkScoreMilestones rand v = some v2 →
      (v2.current_num_asteroids = v.current_num_asteroids ∧ v2.asteroids = v.asteroids) ∨
      (v2.current_num_asteroids = v.current_num_asteroids + 1 ∧
        ∃ (idx : Nat) (a : Asteroid), v2.asteroids = v.asteroids.set idx a)) := by
  refine ⟨?_, ?_, ?_⟩
  · intro hs
    apply checkScoreMilestones_idle
    rw [hnext]
    omega
  · rintro ⟨hlo, hhi⟩
    obtain ⟨hxs, c, hc, _, hpool⟩ := hinv
    have hc1 : c = 1 := by omega
    subst hc1
    obtain ⟨sa, a, calls, hsa, hfree, hlive, hax, heq⟩ :=
      checkScoreMilestones_fire rand w 1 1 1000 hxs hc hpool (by decide)
        (by rw [hnext]; exact hlo) (milestoneLoop_level1 _ hlo hhi) (by rw [hlast]; decide)
    refine ⟨_, heq, rfl, by show w.current_num_asteroids + 1 = 2; omega, rfl, ?_⟩
    have hpool1 : PoolOK (w.asteroids.set 1 a) (w.asteroid_slot_used.set sa 1) 2 2 :=
      (hpool.grow (by decide)).fill (by decide) hsa hfree hlive hax
    obtain ⟨sb, b, calls2, _, _, _, _, heq2⟩ :=
      checkScoreMilestones_fire rand2
        { ({ w with
              asteroids := w.asteroids.set 1 a
              asteroid_slot_used := w.asteroid_slot_used.set sa 1
              rand_calls := calls
              last_milestone_reached := 1
              current_num_asteroids := w.current_num_asteroids + 1
              next_milestone := 1000 } : World) with player_score := s2 }
        2 2 10000 hxs (by show w.current_num_asteroids + 1 = ((2 : Nat) : Int); omega) hpool1
        (by decide) hs2.1 (milestoneLoop_level2 _ hs2.1 hs2.2)
        (by show (2 : Int) > 1; decide)
    exact ⟨_, heq2, rfl, by show w.current_num_asteroids + 1 + 1 = 3; omega, rfl⟩
  · intro v2 hstep
    obtain ⟨hcnt, hsp⟩ := spawnNewAsteroidSafely_cases rand v
    unfold checkScoreMilestones at hstep
    split at hstep
    · split at hstep
      · exact absurd hstep (by simp)
      · simp only [] at hstep
        split at hstep
        · split at hstep
          · rename_i hpos
            rw [← Option.some.inj hstep]
            rcases hsp with ⟨h0, _⟩ | ⟨_, idx, a, h⟩
            · rw [h0] at hpos
              exact absurd hpos (by decide)
            · exact Or.inr ⟨by show _ + 1 = _ + 1; rw [hcnt], idx, a, h⟩
          · rename_i hpos
            rw [← Option.some.inj hstep]
            rcases hsp with ⟨_, h⟩ | ⟨h1, _⟩
            · exact Or.inl ⟨hcnt, h⟩
            · rw [h1] at hpos
              exact absurd (by decide) hpos
        · rw [← Option.some.inj hstep]
          exact Or.inl ⟨rfl, rfl⟩
    · rw [← Option.some.inj hstep]
      exact Or.inl ⟨rfl, rfl⟩

/-- C15, instance: the state after `initAsteroids` with score 150. -/
theorem checkScoreMilestones_progression_witness :
    ∃ w1 : World,
      checkScoreMilestones (fun n => n)
          { initAsteroids (fun _ => 1) bootWorld with player_score := 150 } = some w1 ∧
        w1.last_milestone_reached = 1 ∧ w1.current_num_asteroids = 2 ∧
        w1.next_milestone = 1000 ∧
        ∃ w2 : World,
          checkScoreMilestones (fun n => n + 3) { w1 with player_score := 1234 } = some w2 ∧
          w2.last_milestone_reached = 2 ∧ w2.current_num_asteroids = 3 ∧
          w2.next_milestone = 10000 :=
  (checkScoreMilestones_progression (fun n => n) (fun n => n + 3)
    { initAsteroids (fun _ => 1) bootWorld with player_score := 150 } bootWorld 1234
    ((fieldInv_initAsteroids (fun _ => 1) bootWorld rfl rfl rfl).congr rfl rfl rfl rfl)
    (by decide) (by decide) (by decide) (by decide)).2.1 (by decide)

/-- C16: in every reachable state the active count is at least 1 and at most 5;
in any state `v` with active count 5, whatever its score, `checkScoreMilestones`
returns the state unchanged. -/
theorem active_count_bounded (rand : Nat → Nat) (w v : World) (h : Reachable w)
    (hv : v.current_num_asteroids = 5) :
    1 ≤ w.current_num_asteroids ∧ w.current_num_asteroids ≤ 5 ∧
    checkScoreMilestones rand v = some v := by
  obtain ⟨_, c, hc, hc1, hpool⟩ := reachable_fieldInv w h
  have hc5 := hpool.2.2.1
  refine ⟨by omega, by omega, ?_⟩
  apply checkScoreMilestones_idle
  rw [hv]
  simp [MAX_ACTIVE_ASTEROIDS]

/-- C16, instance: the state after `initAsteroids` and one collision check, and
a state with active count 5 and score 2000000000. -/
theorem active_count_bounded_witness :
    1 ≤ (checkCollisions (fun _ => 0) (initAsteroids (fun _ => 0) bootWorld)).current_num_asteroids ∧
    checkScoreMilestones (fun _ => 0)
        { bootWorld with current_num_asteroids := 5, player_score := 2000000000 }
      = some { bootWorld with current_num_asteroids := 5, player_score := 2000000000 } :=
  ⟨(active_count_bounded (fun _ => 0)
      (checkCollisions (fun _ => 0) (initAsteroids (fun _ => 0) bootWorld))
      { bootWorld with current_num_asteroids := 5, player_score := 2000000000 }
      (Reachable.collisions _ _ (Reachable.init _ _ rfl rfl rfl)) rfl).1,
   (active_count_bounded (fun _ => 0)
      (checkCollisions (fun _ => 0) (initAsteroids (fun _ => 0) bootWorld))
      { bootWorld with current_num_asteroids := 5, player_score := 2000000000 }
      (Reachable.collisions _ _ (Reachable.init _ _ rfl rfl rfl)) rfl).2.2⟩

/-- C11: in every reachable state the slot x-coordinates are 12, 37, 62, 87, 112
(pairwise distinct); two pool entries with non-zero radius and the same
x-coordinate are the same entry; and every pool entry with non-zero radius has
the x-coordinate of exactly one slot, which is marked used. -/
theorem active_obstacles_own_distinct_slots (w : World) (h : Reachable w) :
    w.asteroid_slot_x = [12, 37, 62, 87, 112] ∧
    ([12, 37, 62, 87, 112] : List Int).Nodup ∧
    (∀ i j : Nat, i < 5 → j < 5 →
      (w.asteroids.getD i Asteroid.zero).radius ≠ 0 →
      (w.asteroids.getD j Asteroid.zero).radius ≠ 0 →
      (w.asteroids.getD i Asteroid.zero).x = (w.asteroids.getD j Asteroid.zero).x → i = j) ∧
    (∀ i : Nat, i < 5 → (w.asteroids.getD i Asteroid.zero).radius ≠ 0 →
      ∃ s : Nat, s < 5 ∧
        w.asteroid_slot_x.getD s 0 = (w.asteroids.getD i Asteroid.zero).x ∧
        w.asteroid_slot_used.getD s 0 ≠ 0 ∧
        ∀ t : Nat, t < 5 →
          w.asteroid_slot_x.getD t 0 = (w.asteroids.getD i Asteroid.zero).x → t = s) := by
  obtain ⟨hxs, c, hc, hc1, hpool⟩ := reachable_fieldInv w h
  refine ⟨hxs, by decide, ?_, ?_⟩
  · intro i j _ _ hri hrj hx
    exact hpool.2.2.2.2.2.1 i j (hpool.active_lt hri).1 (hpool.active_lt hrj).1
      (by have := (hpool.active_lt hri).1; omega) (by have := (hpool.active_lt hrj).1; omega) hx
  · intro i _ hri
    have hic := (hpool.active_lt hri).1
    obtain ⟨_, s, hs, hx, hu⟩ := hpool.2.2.2.2.1 i hic (by omega)
    refine ⟨s, hs, by rw [hxs]; exact hx.symm, hu, ?_⟩
    intro t ht hxt
    rw [hxs] at hxt
    exact slotXs_inj t s ht hs (by rw [hxt, hx])

/-- C11, instance: the state after `initAsteroids` and one collision check. -/
theorem active_obstacles_own_distinct_slots_witness :
    (checkCollisions (fun _ => 0) (initAsteroids (fun _ => 0) bootWorld)).asteroid_slot_x
      = [12, 37, 62, 87, 112] :=
  (active_obstacles_own_distinct_slots
    (checkCollisions (fun _ => 0) (initAsteroids (fun _ => 0) bootWorld))
    (Reachable.collisions _ _ (Reachable.init _ _ rfl rfl rfl))).1

/-- C17: when no slot is free, `spawnNewAsteroidSafely` returns 0 and the state
is unchanged, and `checkScoreMilestones`, if it returns, returns the state
unchanged. When no pool entry is unused, `spawnNewAsteroidSafely` returns 0 and
every global is unchanged (pool, slot flags, active count, last level and next
threshold included); only draws of `rand()` may have been consumed, and the same
holds for `checkScoreMilestones`. In both cases `checkScoreMilestones` does
return when the score is below 1000000000, so the milestone variables that
decide the next attempt are the same at the next call. -/
theorem failed_spawn_changes_nothing (rand : Nat → Nat) (w : World) :
    ((∀ i : Nat, i < 5 → w.asteroid_slot_used.getD i 0 ≠ 0) →
      spawnNewAsteroidSafely rand w = (0, w) ∧
      (∀ w2 : World, checkScoreMilestones rand w = some w2 → w2 = w) ∧
      (w.player_score < 1000000000 → checkScoreMilestones rand w = some w)) ∧
    ((∀ i : Nat, i < 5 → (w.asteroids.getD i Asteroid.zero).radius ≠ 0) →
      ∃ calls : Nat,
        spawnNewAsteroidSafely rand w = (0, { w with rand_calls := calls }) ∧
        (∀ w2 : World, checkScoreMilestones rand w = some w2 →
          w2 = w ∨ w2 = { w with rand_calls := calls }) ∧
        (w.player_score < 1000000000 →
          checkScoreMilestones rand w = some w ∨
          checkScoreMilestones rand w = some { w with rand_calls := calls })) := by
  have key : ∀ w0 : World, spawnNewAsteroidSafely rand w = (0, w0) →
      (∀ w2 : World, checkScoreMilestones rand w = some w2 → w2 = w ∨ w2 = w0) ∧
      (w.player_score < 1000000000 →
        checkScoreMilestones rand w = some w ∨ checkScoreMilestones rand w = some w0) := by
    intro w0 hsp
    by_cases hguard : w.player_score ≥ w.next_milestone ∧
        w.current_num_asteroids < (MAX_ACTIVE_ASTEROIDS : Int)
    · have hres : ∀ L T : Int,
          milestoneLoop 16 w.player_score 0 SCORE_MILESTONE_BASE = some (L, T) →
          checkScoreMilestones rand w = some w ∨ checkScoreMilestones rand w = some w0 := by
        intro L T hloop
        rw [checkScoreMilestones_eq rand w L T hguard hloop, hsp]
        simp only []
        split
        · rw [if_neg (by decide)]
          exact Or.inr rfl
        · exact Or.inl rfl
      constructor
      · intro w2 hstep
        cases hloop : milestoneLoop 16 w.player_score 0 SCORE_MILESTONE_BASE with
        | none =>
          unfold checkScoreMilestones at hstep
          rw [if_pos hguard, hloop] at hstep
          exact absurd hstep (by simp)
        | some r =>
          rcases hres r.1 r.2 hloop with h | h
          · rw [h] at hstep
            exact Or.inl (Option.some.inj hstep).symm
          · rw [h] at hstep
            exact Or.inr (Option.some.inj hstep).symm
      · intro hs
        obtain ⟨r, hloop⟩ := milestoneLoop_isSome w.player_score hs
        exact hres r.1 r.2 hloop
    · have hidle := checkScoreMilestones_idle rand w hguard
      exact ⟨fun w2 hstep => Or.inl (by rw [hidle] at hstep; exact (Option.some.inj hstep).symm),
        fun _ => Or.inl hidle⟩
  constructor
  · intro hfull
    have hsp := spawnNewAsteroidSafely_no_slot rand w hfull
    obtain ⟨k1, k2⟩ := key w hsp
    exact ⟨hsp, fun w2 hstep => (k1 w2 hstep).elim id id, fun hs => (k2 hs).elim id id⟩
  · intro hfull
    obtain ⟨calls, hsp⟩ := spawnNewAsteroidSafely_no_entry rand w hfull
    obtain ⟨k1, k2⟩ := key _ hsp
    exact ⟨calls, hsp, k1, k2⟩

/-- C17, instance: all five slots marked used, score 150 at the first
threshold: the check returns the state as it was. -/
theorem failed_spawn_changes_nothing_witness :
    checkScoreMilestones (fun _ => 0)
        { bootWorld with asteroid_slot_used := [1, 1, 1, 1, 1], player_score := 150 }
      = some { bootWorld with asteroid_slot_used := [1, 1, 1, 1, 1], player_score := 150 } :=
  ((failed_spawn_changes_nothing (fun _ => 0)
    { bootWorld with asteroid_slot_used := [1, 1, 1, 1, 1], player_score := 150 }).1
    (by decide)).2.2 (by decide)

/-- C14, counterexample: a state that satisfies the pool invariant, with
score 90, one active obstacle of radius 8 and speed tier 2 that moves to
`y - radius = 162 > 160`. After `updatePositions` the score is 106 and the
active count is 2, not 1: the milestone check at the end of `updatePositions`
fires at threshold 100. -/
theorem retirement_count_counterexample :
    FieldInv
      { initAsteroids (fun _ => 1) bootWorld with
        player_score := 90
        asteroids :=
          [{ x := 12, y := 168, dx := 0, dy := 2, radius := 8, sides := 4, speed := 2 },
           Asteroid.zero, Asteroid.zero, Asteroid.zero, Asteroid.zero] } ∧
    ({ initAsteroids (fun _ => 1) bootWorld with
        player_score := 90
        asteroids :=
          [{ x := 12, y := 168, dx := 0, dy := 2, radius := 8, sides := 4, speed := 2 },
           Asteroid.zero, Asteroid.zero, Asteroid.zero, Asteroid.zero] }
      : World).current_num_asteroids = 1 ∧
    (updatePositions (fun n => n) 0 0
      { initAsteroids (fun _ => 1) bootWorld with
        player_score := 90
        asteroids :=
          [{ x := 12, y := 168, dx := 0, dy := 2, radius := 8, sides := 4, speed := 2 },
           Asteroid.zero, Asteroid.zero, Asteroid.zero, Asteroid.zero] }).map
        (fun w => (w.player_score, w.current_num_asteroids)) = some (106, 2) := by
  refine ⟨⟨by decide, 1, by decide, le_refl 1, ?_⟩, by decide, by decide⟩
  exact poolOK_initial _ ⟨by decide, by decide, rfl, rfl⟩ rfl

/-- C14, amended: in every state that satisfies the pool invariant (as every
reachable state does), when the obstacle in pool entry `i`, of radius `r` and
speed tier `v`, moves to `y - r > 160`, its step of the obstacle loop of
`updatePositions` releases its slot `s`, spawns a new obstacle into the same pool
entry at a slot `s2` that is free at that moment, increases the score by exactly
`r * v` (the score is a 32-bit `int`: the new score is the 32-bit sum, which is
`score + r * v` whenever that is at most `INT_MAX`), and leaves the active count
and the other pool entries unchanged.
`updatePositions` as a whole leaves the active count unchanged when the score
after the obstacle loop is below the next threshold or the count is 5; its final
milestone check is then idle. -/
theorem retirement_scores_and_respawns (rand : Nat → Nat) (new_accel_x new_accel_y : Int)
    (w : World) (i : Nat) (hinv : FieldInv w)
    (hr : (w.asteroids.getD i Asteroid.zero).radius ≠ 0)
    (hy : (w.asteroids.getD i Asteroid.zero).y + (w.asteroids.getD i Asteroid.zero).dy
      - (w.asteroids.getD i Asteroid.zero).radius > 160) :
    (∃ s s2 : Nat, s < 5 ∧ s2 < 5 ∧
      w.asteroid_slot_x.getD s 0 = (w.asteroids.getD i Asteroid.zero).x ∧
      w.asteroid_slot_used.getD s 0 ≠ 0 ∧
      (w.asteroid_slot_used.set s 0).getD s2 0 = 0 ∧
      (updateAsteroid rand w i).asteroid_slot_used = (w.asteroid_slot_used.set s 0).set s2 1 ∧
      ((updateAsteroid rand w i).asteroids.getD i Asteroid.zero).x
        = w.asteroid_slot_x.getD s2 0 ∧
      ((updateAsteroid rand w i).asteroids.getD i Asteroid.zero).radius ∈ [6, 8, 10, 12] ∧
      ((updateAsteroid rand w i).asteroids.getD i Asteroid.zero).y
        = -((updateAsteroid rand w i).asteroids.getD i Asteroid.zero).radius - 10) ∧
    (updateAsteroid rand w i).player_score
      = toInt32 (toUInt32 (w.player_score
        + (w.asteroids.getD i Asteroid.zero).radius
          * (w.asteroids.getD i Asteroid.zero).speed)) ∧
    (-2147483648 ≤ w.player_score →
      w.player_score
        + (w.asteroids.getD i Asteroid.zero).radius * (w.asteroids.getD i Asteroid.zero).speed
        ≤ INT_MAX →
      (updateAsteroid rand w i).player_score
        = w.player_score
          + (w.asteroids.getD i Asteroid.zero).radius
            * (w.asteroids.getD i Asteroid.zero).speed) ∧
    (updateAsteroid rand w i).current_num_asteroids = w.current_num_asteroids ∧
    (∀ j : Nat, j ≠ i →
      (updateAsteroid rand w i).asteroids.getD j Asteroid.zero
        = w.asteroids.getD j Asteroid.zero) ∧
    (((List.range w.current_num_asteroids.toNat).foldl (updateAsteroid rand)
          (updateShipPosition new_accel_x new_accel_y w)).player_score < w.next_milestone ∨
        w.current_num_asteroids = 5 →
      updatePositions rand new_accel_x new_accel_y w
        = some ((List.range w.current_num_asteroids.toNat).foldl (updateAsteroid rand)
            (updateShipPosition new_accel_x new_accel_y w)) ∧
      ((List.range w.current_num_asteroids.toNat).foldl (updateAsteroid rand)
          (updateShipPosition new_accel_x new_accel_y w)).current_num_asteroids
        = w.current_num_asteroids) := by
  obtain ⟨hxs, c, hc, hc1, hpool⟩ := hinv
  obtain ⟨hic, _, _, _⟩ := hpool.active_lt hr
  obtain ⟨⟨hrad, hdy, hspeed, _⟩, s, hs, hx, hu⟩ := hpool.2.2.2.2.1 i hic (by omega)
  have hi5 : i < w.asteroids.length := getD_radius_ne_zero_lt hr
  have h160 : SCREEN_HEIGHT + 32 = 160 := by decide
  rcases updateAsteroid_cases rand w i s hxs hpool.2.1 hs hx hr with
    ⟨hn, _⟩ | ⟨_, s2, a2, calls, hs2, hfree, hlive, hax, hay, heq⟩
  · rw [h160] at hn
    exact absurd hy hn
  · refine ⟨⟨s, s2, hs, hs2, by rw [hxs]; exact hx.symm, hu, hfree, ?_, ?_, ?_, ?_⟩,
      ?_, ?_, ?_, ?_, ?_⟩
    · rw [heq]
    · rw [heq, hxs]
      show ((w.asteroids.set i a2).getD i Asteroid.zero).x = _
      rw [getD_set_eq, if_pos ⟨rfl, hi5⟩]
      exact hax
    · rw [heq]
      show ((w.asteroids.set i a2).getD i Asteroid.zero).radius ∈ _
      rw [getD_set_eq, if_pos ⟨rfl, hi5⟩]
      exact hlive.1
    · rw [heq]
      show ((w.asteroids.set i a2).getD i Asteroid.zero).y
        = -((w.asteroids.set i a2).getD i Asteroid.zero).radius - 10
      rw [getD_set_eq, if_pos ⟨rfl, hi5⟩]
      exact hay
    · rw [heq]
    · intro hlo hhi
      rw [heq]
      show toInt32 (toUInt32 (w.player_score
        + (w.asteroids.getD i Asteroid.zero).radius
          * (w.asteroids.getD i Asteroid.zero).speed)) = _
      have h1 : 0 ≤ (w.asteroids.getD i Asteroid.zero).radius := by
        simp only [List.mem_cons, List.mem_singleton, List.not_mem_nil, or_false] at hrad
        omega
      have h2 : 0 ≤ (w.asteroids.getD i Asteroid.zero).speed := by
        rw [hspeed]
        simp only [List.mem_cons, List.mem_singleton, List.not_mem_nil, or_false] at hdy
        omega
      have h3 := Int.mul_nonneg h1 h2
      exact toInt32_toUInt32 _ (by omega) hhi
    · rw [heq]
    · intro j hj
      rw [heq]
      show (w.asteroids.set i a2).getD j Asteroid.zero = _
      rw [getD_set_eq, if_neg (fun h => hj h.1.symm)]
    · intro hidle
      have hship : (updateShipPosition new_accel_x new_accel_y w).current_num_asteroids
          = w.current_num_asteroids := rfl
      obtain ⟨a, u, score, calls2, hfold⟩ := updateAsteroid_foldl_frame rand
        (List.range w.current_num_asteroids.toNat)
        (updateShipPosition new_accel_x new_accel_y w)
      have hcnt : ((List.range w.current_num_asteroids.toNat).foldl (updateAsteroid rand)
          (updateShipPosition new_accel_x new_accel_y w)).current_num_asteroids
          = w.current_num_asteroids := by
        rw [hfold]
        rfl
      have hnext : ((List.range w.current_num_asteroids.toNat).foldl (updateAsteroid rand)
          (updateShipPosition new_accel_x new_accel_y w)).next_milestone
          = w.next_milestone := by
        rw [hfold]
        rfl
      refine ⟨?_, hcnt⟩
      unfold updatePositions
      simp only []
      rw [hship]
      apply checkScoreMilestones_idle
      rw [hcnt, hnext]
      simp only [MAX_ACTIVE_ASTEROIDS]
      rcases hidle with h | h
      · omega
      · omega

/-- C14, instance: score 0, one active obstacle of radius 8 and speed tier 2
at y = 168: its loop step gives score 16 = 0 + 8 * 2 and leaves the count at 1,
and `updatePositions` as a whole returns with score 16 and count 1. -/
theorem retirement_scores_and_respawns_witness :
    (updateAsteroid (fun n => n)
      { initAsteroids (fun _ => 1) bootWorld with
        asteroids :=
          [{ x := 12, y := 168, dx := 0, dy := 2, radius := 8, sides := 4, speed := 2 },
           Asteroid.zero, Asteroid.zero, Asteroid.zero, Asteroid.zero] } 0).player_score
      = 0 + 8 * 2 ∧
    (updatePositions (fun n => n) 0 0
      { initAsteroids (fun _ => 1) bootWorld with
        asteroids :=
          [{ x := 12, y := 168, dx := 0, dy := 2, radius := 8, sides := 4, speed := 2 },
           Asteroid.zero, Asteroid.zero, Asteroid.zero, Asteroid.zero] }).map
        (fun w => (w.player_score, w.current_num_asteroids)) = some (16, 1) :=
  ⟨(retirement_scores_and_respawns (fun n => n) 0 0
      { initAsteroids (fun _ => 1) bootWorld with
        asteroids :=
          [{ x := 12, y := 168, dx := 0, dy := 2, radius := 8, sides := 4, speed := 2 },
           Asteroid.zero, Asteroid.zero, Asteroid.zero, Asteroid.zero] } 0
      ⟨by decide, 1, by decide, le_refl 1,
        poolOK_initial _ ⟨by decide, by decide, rfl, rfl⟩ rfl⟩
      (by decide) (by decide)).2.2.1 (by decide) (by decide),
   by
    rw [((retirement_scores_and_respawns (fun n => n) 0 0
      { initAsteroids (fun _ => 1) bootWorld with
        asteroids :=
          [{ x := 12, y := 168, dx := 0, dy := 2, radius := 8, sides := 4, speed := 2 },
           Asteroid.zero, Asteroid.zero, Asteroid.zero, Asteroid.zero] } 0
      ⟨by decide, 1, by decide, le_refl 1,
        poolOK_initial _ ⟨by decide, by decide, rfl, rfl⟩ rfl⟩
      (by decide) (by decide)).2.2.2.2.2 (Or.inl (by decide))).1]
    decide⟩

/-! ## Theorems: round end, frame scheduling and pool accounting -/

/-- C21: in mode GameOver or WaitingRestart, `onButtonPress(b)` for every button
b (0..11) sets the mode to StartScreen and changes nothing else; in particular
lives and score are not reset. A value outside 0..11 is rejected before the
mode is looked at. -/
theorem game_over_buttons (rand : Nat → Nat) (w : World) (button : Int)
    (hmode : w.current_game_state = GameState.GAME_STATE_GAME_OVER ∨
      w.current_game_state = GameState.GAME_STATE_WAITING_RESTART) :
    (0 ≤ button ∧ button < 12 →
      onButtonPress rand button w
        = { w with current_game_state := GameState.GAME_STATE_START_SCREEN } ∧
      (onButtonPress rand button w).current_game_state = GameState.GAME_STATE_START_SCREEN ∧
      (onButtonPress rand button w).player_lives = w.player_lives ∧
      (onButtonPress rand button w).player_score = w.player_score) ∧
    (button < 0 ∨ button ≥ 12 → onButtonPress rand button w = w) := by
  constructor
  · intro hb
    have hp : onButtonPress rand button w
        = { w with current_game_state := GameState.GAME_STATE_START_SCREEN } := by
      unfold onButtonPress
      rw [if_neg (by omega)]
      rcases hmode with hm | hm <;> rw [hm] <;> rfl
    rw [hp]
    exact ⟨rfl, rfl, rfl, rfl⟩
  · intro hb
    unfold onButtonPress
    rw [if_pos hb]

/-- C21, instance: button 4 after a round that ended with score 250. -/
theorem game_over_buttons_witness :
    onButtonPress (fun _ => 0) 4
        { bootWorld with
          current_game_state := GameState.GAME_STATE_WAITING_RESTART
          player_lives := 0
          player_score := 250 }
      = { bootWorld with
          current_game_state := GameState.GAME_STATE_START_SCREEN
          player_lives := 0
          player_score := 250 } :=
  ((game_over_buttons (fun _ => 0)
    { bootWorld with
      current_game_state := GameState.GAME_STATE_WAITING_RESTART
      player_lives := 0
      player_score := 250 } 4 (Or.inr rfl)).1 (by decide)).1

/-- C25: for every unsigned 64-bit tick count t, the two products and the sum of
`TICKS_TO_US(t)` stay below 2^64 and the result is
floor(t * 1000000 / 80000000) = floor(t / 80); for t up to the reload value
3200000 the interval classifies as bit 1 exactly when 32080 <= t <= 47999 and
as bit 0 exactly when 120080 <= t <= 135999. -/
theorem ticks_to_us_exact (t : Nat) (ht : t < 2 ^ 64) :
    (t / SYSCLKFREQ) * 1000000 < 2 ^ 64 ∧
    (t % SYSCLKFREQ) * 1000000 < 2 ^ 64 ∧
    (t / SYSCLKFREQ) * 1000000 + ((t % SYSCLKFREQ) * 1000000) / SYSCLKFREQ < 2 ^ 64 ∧
    TICKS_TO_US t = t * 1000000 / 80000000 ∧
    TICKS_TO_US t = t / 80 ∧
    (t ≤ SYSTICK_RELOAD_VAL →
      (pulseBit t = 1 ↔ 32080 ≤ t ∧ t ≤ 47999) ∧
      (pulseBit t = 0 ↔ 120080 ≤ t ∧ t ≤ 135999)) := by
  have ht2 : t < 18446744073709551616 := by
    have : (2 : Nat) ^ 64 = 18446744073709551616 := by norm_num
    omega
  have e1 : t / 80000000 * 1000000 < 18446744073709551616 := by omega
  have e2 : t % 80000000 * 1000000 < 18446744073709551616 := by omega
  have e3 : t / 80000000 * 1000000 + t % 80000000 * 1000000 / 80000000
      < 18446744073709551616 := by omega
  have e4 : t / 80000000 * 1000000 + t % 80000000 * 1000000 / 80000000 = t / 80 := by omega
  have e5 : t * 1000000 / 80000000 = t / 80 := by omega
  have hus : TICKS_TO_US t = t / 80 := by
    show ((((t / 80000000) * 1000000) % 2 ^ 64)
      + ((((t % 80000000) * 1000000) % 2 ^ 64) / 80000000)) % 2 ^ 64 = t / 80
    have h64 : (2 : Nat) ^ 64 = 18446744073709551616 := by norm_num
    rw [h64, Nat.mod_eq_of_lt e1, Nat.mod_eq_of_lt e2, Nat.mod_eq_of_lt e3]
    exact e4
  refine ⟨?_, ?_, ?_, by rw [hus, e5], hus, ?_⟩
  · unfold SYSCLKFREQ
    norm_num
    exact e1
  · unfold SYSCLKFREQ
    norm_num
    exact e2
  · unfold SYSCLKFREQ
    norm_num
    exact e3
  · intro hle
    have hle2 : t ≤ 3200000 := hle
    have h32 : toInt32 (t / 80) = ((t / 80 : Nat) : Int) := by
      unfold toInt32
      have hm : (t / 80) % 2 ^ 32 = t / 80 := Nat.mod_eq_of_lt (by norm_num; omega)
      rw [hm, if_pos (by norm_num; omega)]
    unfold pulseBit
    rw [hus, h32]
    unfold decodePulse SHORT_PULSE_MIN SHORT_PULSE_MAX LONG_PULSE_MIN LONG_PULSE_MAX
    constructor
    · constructor
      · intro h
        split_ifs at h with c1 c2
        all_goals omega
      · intro h
        rw [if_pos (by omega)]
    · constructor
      · intro h
        split_ifs at h with c1 c2
        all_goals omega
      · intro h
        rw [if_neg (by omega), if_pos (by omega)]

/-- C25, instance: 45000 ticks are 562 microseconds, a bit 1. -/
theorem ticks_to_us_exact_witness :
    TICKS_TO_US 45000 = 45000 / 80 ∧ (pulseBit 45000 = 1 ↔ 32080 ≤ 45000 ∧ 45000 ≤ 47999) :=
  ⟨(ticks_to_us_exact 45000 (by norm_num)).2.2.2.2.1,
   ((ticks_to_us_exact 45000 (by norm_num)).2.2.2.2.2 (by decide)).1⟩

/-- C23: with tick values within the counter range 0..3200000, the elapsed ticks
are last - current when current <= last and (3200000 - current) + last
otherwise, and the frame budget is 80000000 / 45 = 1777777. When the mode is
Playing and the elapsed ticks are at least the budget, one iteration executes
the simulation frame on the state and records the current tick value as
`last_frame_time`; in every other case the state and `last_frame_time` are
returned unchanged. So a returned iteration has executed the frame if and only
if the mode was Playing and the elapsed ticks had reached the budget. -/
theorem frame_scheduling (rand : Nat → Nat) (current_time : Nat)
    (new_accel_x new_accel_y awsHighScore : Int) (last_frame_time : Nat) (w : World)
    (hc : current_time ≤ SYSTICK_RELOAD_VAL) (hl : last_frame_time ≤ SYSTICK_RELOAD_VAL) :
    FRAME_DELAY_TICKS = 80000000 / 45 ∧ FRAME_DELAY_TICKS = 1777777 ∧
    elapsedTicks current_time last_frame_time
      = (if current_time ≤ last_frame_time then last_frame_time - current_time
         else (3200000 - current_time) + last_frame_time) ∧
    (w.current_game_state = GameState.GAME_STATE_PLAYING ∧
        elapsedTicks current_time last_frame_time ≥ 1777777 →
      mainLoopFrame rand current_time new_accel_x new_accel_y awsHighScore last_frame_time w
        = (simulationFrame rand new_accel_x new_accel_y awsHighScore w).map
            (fun w2 => (w2, current_time, true))) ∧
    (¬ (w.current_game_state = GameState.GAME_STATE_PLAYING ∧
        elapsedTicks current_time last_frame_time ≥ 1777777) →
      mainLoopFrame rand current_time new_accel_x new_accel_y awsHighScore last_frame_time w
        = some (w, last_frame_time, false)) ∧
    (∀ r : World × Nat × Bool,
      mainLoopFrame rand current_time new_accel_x new_accel_y awsHighScore last_frame_time w
        = some r →
      (r.2.2 = true ↔
        (w.current_game_state = GameState.GAME_STATE_PLAYING ∧
          elapsedTicks current_time last_frame_time ≥ 1777777))) := by
  have hbudget : FRAME_DELAY_TICKS = 1777777 := by decide
  have hc2 : current_time ≤ 3200000 := hc
  have hl2 : last_frame_time ≤ 3200000 := hl
  have hyes : w.current_game_state = GameState.GAME_STATE_PLAYING ∧
        elapsedTicks current_time last_frame_time ≥ 1777777 →
      mainLoopFrame rand current_time new_accel_x new_accel_y awsHighScore last_frame_time w
        = (simulationFrame rand new_accel_x new_accel_y awsHighScore w).map
            (fun w2 => (w2, current_time, true)) := by
    rintro ⟨hm, he⟩
    unfold mainLoopFrame
    rw [if_pos hm]
    simp only []
    rw [if_pos (by rw [hbudget]; exact he)]
    cases simulationFrame rand new_accel_x new_accel_y awsHighScore w <;> rfl
  have hno : ¬ (w.current_game_state = GameState.GAME_STATE_PLAYING ∧
        elapsedTicks current_time last_frame_time ≥ 1777777) →
      mainLoopFrame rand current_time new_accel_x new_accel_y awsHighScore last_frame_time w
        = some (w, last_frame_time, false) := by
    intro hn
    unfold mainLoopFrame
    by_cases hm : w.current_game_state = GameState.GAME_STATE_PLAYING
    · rw [if_pos hm]
      simp only []
      rw [if_neg (by rw [hbudget]; exact fun he => hn ⟨hm, he⟩)]
    · rw [if_neg hm]
  refine ⟨by decide, hbudget, ?_, hyes, hno, ?_⟩
  · unfold elapsedTicks SYSTICK_RELOAD_VAL
    have h32 : (2 : Nat) ^ 32 = 4294967296 := by norm_num
    rw [h32]
    split_ifs <;> omega
  · intro r hr
    by_cases hcond : w.current_game_state = GameState.GAME_STATE_PLAYING ∧
        elapsedTicks current_time last_frame_time ≥ 1777777
    · rw [hyes hcond] at hr
      cases hsim : simulationFrame rand new_accel_x new_accel_y awsHighScore w with
      | none =>
        rw [hsim] at hr
        exact absurd hr (by simp)
      | some w2 =>
        rw [hsim] at hr
        have := Option.some.inj hr
        rw [← this]
        exact ⟨fun _ => hcond, fun _ => rfl⟩
    · rw [hno hcond] at hr
      have := Option.some.inj hr
      rw [← this]
      exact ⟨fun h => absurd h Bool.false_ne_true, fun h => absurd h hcond⟩

/-- C23, instance: the first frame of a round, with the counter at 1000000 and
`last_frame_time` still 0 (2200000 elapsed ticks), and an iteration with the
counter at 3000000 (200000 elapsed ticks). -/
theorem frame_scheduling_witness :
    mainLoopFrame (fun _ => 0) 1000000 0 0 0 0
        { varInit (fun _ => 0) bootWorld with
          current_game_state := GameState.GAME_STATE_PLAYING }
      = (simulationFrame (fun _ => 0) 0 0 0
          { varInit (fun _ => 0) bootWorld with
            current_game_state := GameState.GAME_STATE_PLAYING }).map
          (fun w2 => (w2, 1000000, true)) ∧
    mainLoopFrame (fun _ => 0) 3000000 0 0 0 0
        { varInit (fun _ => 0) bootWorld with
          current_game_state := GameState.GAME_STATE_PLAYING }
      = some ({ varInit (fun _ => 0) bootWorld with
          current_game_state := GameState.GAME_STATE_PLAYING }, 0, false) :=
  ⟨(frame_scheduling (fun _ => 0) 1000000 0 0 0 0
      { varInit (fun _ => 0) bootWorld with
        current_game_state := GameState.GAME_STATE_PLAYING }
      (by decide) (by decide)).2.2.2.1 ⟨rfl, by decide⟩,
   (frame_scheduling (fun _ => 0) 3000000 0 0 0 0
      { varInit (fun _ => 0) bootWorld with
        current_game_state := GameState.GAME_STATE_PLAYING }
      (by decide) (by decide)).2.2.2.2.1 (fun h => absurd h.2 (by decide))⟩

/-- C26: in every reachable state, with c the active count: the pool entries
below index c have a radius in {6, 8, 10, 12} and those from c on have radius 0,
so an entry is active exactly when its index is below c; exactly c slots are
marked used; every active entry is among the indices `0 .. count - 1` that the
loops bounded by the count visit; with c < 5 `spawnNewAsteroidSafely` spawns
(returns 1); and in every state `v` that the obstacle loop of `updatePositions`
passes through, an active obstacle that moves completely below the screen is
respawned: its pool entry holds a new obstacle at the top, at a slot marked
used. -/
theorem active_entries_below_count (rand : Nat → Nat) (new_accel_x new_accel_y : Int)
    (l : List Nat) (w : World) (h : Reachable w) :
    ∃ c : Nat, w.current_num_asteroids = (c : Int) ∧ 1 ≤ c ∧ c ≤ 5 ∧
      (∀ i : Nat, i < c → (w.asteroids.getD i Asteroid.zero).radius ∈ [6, 8, 10, 12]) ∧
      (∀ i : Nat, c ≤ i → (w.asteroids.getD i Asteroid.zero).radius = 0) ∧
      (∀ i : Nat, (w.asteroids.getD i Asteroid.zero).radius ≠ 0 ↔ i < c) ∧
      w.asteroid_slot_used.countP (fun u => decide (u ≠ 0)) = c ∧
      (∀ i : Nat, (w.asteroids.getD i Asteroid.zero).radius ≠ 0 →
        i ∈ List.range w.current_num_asteroids.toNat) ∧
      (c < 5 → (spawnNewAsteroidSafely rand w).1 = 1) ∧
      (∀ (v : World) (i : Nat),
        v = l.foldl (updateAsteroid rand) (updateShipPosition new_accel_x new_accel_y w) →
        (v.asteroids.getD i Asteroid.zero).radius ≠ 0 →
        (v.asteroids.getD i Asteroid.zero).y + (v.asteroids.getD i Asteroid.zero).dy
          - (v.asteroids.getD i Asteroid.zero).radius > SCREEN_HEIGHT + 32 →
        ∃ (s2 : Nat) (a2 : Asteroid), s2 < 5 ∧ a2.radius ∈ [6, 8, 10, 12] ∧
          a2.x = slotXs.getD s2 0 ∧ a2.y = -a2.radius - 10 ∧
          (updateAsteroid rand v i).asteroids = v.asteroids.set i a2 ∧
          (updateAsteroid rand v i).asteroid_slot_used.getD s2 0 = 1) := by
  have hinv := reachable_fieldInv w h
  obtain ⟨hxs, c, hc, hc1, hpool⟩ := hinv
  obtain ⟨hlen, hulen, hc5, hzero, hlive, _, hcount⟩ := hpool
  have hz : ∀ i : Nat, c ≤ i → (w.asteroids.getD i Asteroid.zero).radius = 0 := by
    intro i hi
    by_cases h5 : i < 5
    · exact hzero i h5 hi
    · rw [List.getD_eq_default _ _ (by omega)]
      rfl
  have hl : ∀ i : Nat, i < c → (w.asteroids.getD i Asteroid.zero).radius ∈ [6, 8, 10, 12] :=
    fun i hi => (hlive i hi (Nat.ne_of_lt hi)).1.1
  have hne : ∀ i : Nat, i < c → (w.asteroids.getD i Asteroid.zero).radius ≠ 0 := by
    intro i hi h0
    have := hl i hi
    rw [h0] at this
    exact absurd this (by decide)
  have hiff : ∀ i : Nat, (w.asteroids.getD i Asteroid.zero).radius ≠ 0 ↔ i < c := by
    intro i
    constructor
    · intro hr
      by_contra hnot
      exact hr (hz i (by omega))
    · exact hne i
  refine ⟨c, hc, hc1, hc5, hl, hz, hiff, ?_, ?_, ?_, ?_⟩
  · rw [if_neg (lt_irrefl c)] at hcount
    exact hcount
  · intro i hr
    rw [List.mem_range, hc]
    have := (hiff i).1 hr
    omega
  · intro hlt
    obtain ⟨s2, a2, calls, _, _, _, _, _, heq⟩ :=
      spawnNewAsteroidSafely_ok rand w c hxs ⟨hlen, hulen, hc5, hzero, hlive, by assumption, hcount⟩ hlt
    rw [heq]
  · intro v i hv hr hoff
    obtain ⟨sx, xs, ys, ac, cx, cy, hship⟩ := updateShipPosition_frame new_accel_x new_accel_y w
    have h1 : FieldInv (updateShipPosition new_accel_x new_accel_y w) := by
      rw [hship]
      exact FieldInv.congr (reachable_fieldInv w h) rfl rfl rfl rfl
    have h2 : FieldInv v := by
      rw [hv]
      exact (fieldInv_foldl_updateAsteroid rand l _ h1).1
    obtain ⟨hxs2, c2, hc2, _, hpool2⟩ := h2
    obtain ⟨_, s, hs, hx⟩ := hpool2.active_lt hr
    rcases updateAsteroid_cases rand v i s hxs2 hpool2.2.1 hs hx hr with
      ⟨hnot, _⟩ | ⟨_, s2, a2, calls, hs2, _, hlive2, hax, hay, heq⟩
    · exact absurd hoff hnot
    · refine ⟨s2, a2, hs2, hlive2.1, hax, hay, by rw [heq], ?_⟩
      rw [heq]
      show ((v.asteroid_slot_used.set s 0).set s2 1).getD s2 0 = 1
      rw [getD_set_eq, if_pos]
      refine ⟨rfl, ?_⟩
      rw [List.length_set, hpool2.2.1]
      exact hs2

/-- C26, instance: the state after `initAsteroids` on the boot state. -/
theorem active_entries_below_count_witness :
    ∃ c : Nat, (initAsteroids (fun _ => 0) bootWorld).current_num_asteroids = (c : Int) ∧
      1 ≤ c ∧ c ≤ 5 ∧
      (∀ i : Nat, i < c →
        ((initAsteroids (fun _ => 0) bootWorld).asteroids.getD i Asteroid.zero).radius
          ∈ [6, 8, 10, 12]) ∧
      (∀ i : Nat, c ≤ i →
        ((initAsteroids (fun _ => 0) bootWorld).asteroids.getD i Asteroid.zero).radius = 0) :=
  match active_entries_below_count (fun _ => 0) 0 0 [] (initAsteroids (fun _ => 0) bootWorld)
      (Reachable.init (fun _ => 0) bootWorld rfl rfl rfl) with
  | ⟨c, h1, h2, h3, h4, h5, _⟩ => ⟨c, h1, h2, h3, h4, h5⟩

/-- C27: a collision that leaves lives keeps the score and resets the milestone
state (count 1, last level 0, next threshold 100). In a state `v` with such a
milestone state and a score s with 100 <= s < 1000000000, `checkScoreMilestones`
returns (no overflow of the 32-bit threshold); with L the number of k >= 0 such
that 100 * 10^k <= s, it sets the last level to L, the next threshold to
100 * 10^L, and the count to 2; so for s >= 1000 the count is below 1 + L. From
then on, a call of `updatePositions` that ends with the score below 100 * 10^L
leaves count, level and threshold as they are. -/
theorem collision_reset_then_milestones (rand rand2 : Nat → Nat) (w v : World)
    (h1 : w.asteroids.length = 5) (h2 : w.asteroid_slot_used.length = 5)
    (h3 : w.asteroid_slot_x.length = 5) (hlives : w.player_lives - 1 > 0)
    (hv : FieldInv v) (hcount : v.current_num_asteroids = 1)
    (hlast : v.last_milestone_reached = 0) (hnext : v.next_milestone = 100)
    (hs1 : 100 ≤ v.player_score) (hs2 : v.player_score < 1000000000) :
    ((registerCollision rand w).player_score = w.player_score ∧
      (registerCollision rand w).player_lives = w.player_lives - 1 ∧
      (registerCollision rand w).current_num_asteroids = 1 ∧
      (registerCollision rand w).last_milestone_reached = 0 ∧
      (registerCollision rand w).next_milestone = 100 ∧
      FieldInv (registerCollision rand w)) ∧
    ∃ (L : Nat) (w2 : World),
      checkScoreMilestones rand2 v = some w2 ∧
      (∀ k : Nat, 100 * 10 ^ k ≤ v.player_score ↔ k < L) ∧
      (100 : Int) * 10 ^ L ≤ INT_MAX ∧
      w2.last_milestone_reached = (L : Int) ∧
      w2.next_milestone = 100 * 10 ^ L ∧
      w2.current_num_asteroids = 2 ∧
      w2.player_score = v.player_score ∧
      (1000 ≤ v.player_score → w2.current_num_asteroids < 1 + (L : Int)) ∧
      ∀ (rand3 : Nat → Nat) (new_accel_x new_accel_y : Int) (v2 v3 : World),
        v2.current_num_asteroids = 2 → v2.last_milestone_reached = (L : Int) →
        v2.next_milestone = 100 * 10 ^ L →
        updatePositions rand3 new_accel_x new_accel_y v2 = some v3 →
        v3.player_score < 100 * 10 ^ L →
        v3.current_num_asteroids = 2 ∧ v3.last_milestone_reached = (L : Int) ∧
        v3.next_milestone = 100 * 10 ^ L := by
  constructor
  · have hreg : registerCollision rand w
        = initAsteroids rand
          { w with
            player_lives := w.player_lives - 1
            ship_x := SCREEN_WIDTH / 2
            ship_y := SCREEN_HEIGHT - 32
            x_speed := 0
            y_speed := 0 } := by
      unfold registerCollision
      simp only []
      rw [if_pos hlives]
    have hinv : FieldInv (registerCollision rand w) := by
      rw [hreg]
      exact fieldInv_initAsteroids rand _ h1 h2 h3
    refine ⟨?_, ?_, ?_, ?_, ?_, hinv⟩
    all_goals
      obtain ⟨a1, u1, x1, c1, hfr⟩ := initAsteroids_frame rand
        { w with
          player_lives := w.player_lives - 1
          ship_x := SCREEN_WIDTH / 2
          ship_y := SCREEN_HEIGHT - 32
          x_speed := 0
          y_speed := 0 }
      rw [hreg, hfr]
  · obtain ⟨L, hL1, hL7, hloop, hiff, hmax⟩ := milestoneLoop_level v.player_score hs1 hs2
    obtain ⟨hxs, c, hc, _, hpool⟩ := hv
    have hc1 : c = 1 := by
      rw [hcount] at hc
      omega
    subst hc1
    obtain ⟨s2, a2, calls, _, _, _, _, hfire⟩ :=
      checkScoreMilestones_fire rand2 v 1 (L : Int) (100 * 10 ^ L) hxs hc hpool (by decide)
        (by rw [hnext]; exact hs1) hloop (by rw [hlast]; omega)
    refine ⟨L, _, hfire, hiff, hmax, rfl, rfl, ?_, rfl, ?_, ?_⟩
    · show v.current_num_asteroids + 1 = 2
      rw [hcount]
      rfl
    · intro hs
      show v.current_num_asteroids + 1 < 1 + (L : Int)
      rw [hcount]
      have : 1 < L := (hiff 1).1 (by norm_num; exact hs)
      omega
    · intro rand3 ax ay v2 v3 e1 e2 e3 hupd hscore
      unfold updatePositions at hupd
      simp only [] at hupd
      obtain ⟨sx, xs, ys, ac, cx, cy, hship⟩ := updateShipPosition_frame ax ay v2
      obtain ⟨f1, f2, f3, _⟩ := foldl_updateAsteroid_keeps rand3
        (List.range (updateShipPosition ax ay v2).current_num_asteroids.toNat)
        (updateShipPosition ax ay v2)
      have g1 : (updateShipPosition ax ay v2).last_milestone_reached = (L : Int) := by
        rw [hship]
        exact e2
      have g2 : (updateShipPosition ax ay v2).next_milestone = 100 * 10 ^ L := by
        rw [hship]
        exact e3
      have g3 : (updateShipPosition ax ay v2).current_num_asteroids = 2 := by
        rw [hship]
        exact e1
      obtain ⟨a3, u3, calls3, cnt, last, next, hms⟩ := checkScoreMilestones_frame rand3 _ v3 hupd
      have hsc : v3.player_score
          = ((List.range (updateShipPosition ax ay v2).current_num_asteroids.toNat).foldl
              (updateAsteroid rand3) (updateShipPosition ax ay v2)).player_score := by
        rw [hms]
        rfl
      have hidle := checkScoreMilestones_idle rand3
        ((List.range (updateShipPosition ax ay v2).current_num_asteroids.toNat).foldl
          (updateAsteroid rand3) (updateShipPosition ax ay v2))
        (by
          rw [f2, g2, ← hsc]
          intro hg
          exact absurd hg.1 (not_le.2 hscore))
      rw [hidle] at hupd
      rw [← Option.some.inj hupd, f1, f2, f3, g1, g2, g3]
      exact ⟨rfl, rfl, rfl⟩

/-- C27, instance: a collision at score 5000 with 3 lives, then the milestone
check: level 2, next threshold 10000, count 2. -/
theorem collision_reset_then_milestones_witness :
    ∃ (L : Nat) (w2 : World),
      checkScoreMilestones (fun n => n)
          (registerCollision (fun _ => 1)
            { initAsteroids (fun _ => 1) bootWorld with
              player_lives := 3, player_score := 5000 }) = some w2 ∧
      (∀ k : Nat, 100 * 10 ^ k ≤ (5000 : Int) ↔ k < L) ∧
      w2.last_milestone_reached = (L : Int) ∧
      w2.next_milestone = 100 * 10 ^ L ∧
      w2.current_num_asteroids = 2 :=
  match (collision_reset_then_milestones (fun _ => 1) (fun n => n)
      { initAsteroids (fun _ => 1) bootWorld with player_lives := 3, player_score := 5000 }
      (registerCollision (fun _ => 1)
        { initAsteroids (fun _ => 1) bootWorld with player_lives := 3, player_score := 5000 })
      (by decide) (by decide) (by decide) (by decide)
      (fieldInv_registerCollision (fun _ => 1) _
        ((fieldInv_initAsteroids (fun _ => 1) bootWorld rfl rfl rfl).congr rfl rfl rfl rfl))
      (by decide) (by decide) (by decide) (by decide) (by decide)).2 with
  | ⟨L, w2, e1, e2, _, e4, e5, e6, _⟩ => ⟨L, w2, e1, e2, e4, e5, e6⟩

/-- C22: for a simulation frame executed in mode Playing: when lives are 0
after the collision check, the mode is set to GameOver and `endGame` then sets it
to WaitingRestart within the same frame; when lives are still positive the mode
stays Playing. In a round, after `k` colliding frames the lives are 3 - k, there
are at most 3 such frames, the mode is WaitingRestart after the third and
Playing before it. -/
theorem game_over_after_third_collision (rand : Nat → Nat)
    (new_accel_x new_accel_y awsHighScore : Int) (w w1 : World) (k : Nat) (v : World)
    (hmode : w.current_game_state = GameState.GAME_STATE_PLAYING)
    (hupd : updatePositions rand new_accel_x new_accel_y w = some w1)
    (hround : InRound k v) :
    ((checkCollisions rand w1).player_lives = 0 →
      simulationFrame rand new_accel_x new_accel_y awsHighScore w
        = some (endGame awsHighScore
            { checkCollisions rand w1 with
              current_game_state := GameState.GAME_STATE_GAME_OVER }) ∧
      (endGame awsHighScore
        { checkCollisions rand w1 with
          current_game_state := GameState.GAME_STATE_GAME_OVER }).current_game_state
        = GameState.GAME_STATE_WAITING_RESTART) ∧
    ((checkCollisions rand w1).player_lives > 0 →
      simulationFrame rand new_accel_x new_accel_y awsHighScore w
        = some (checkCollisions rand w1) ∧
      (checkCollisions rand w1).current_game_state = GameState.GAME_STATE_PLAYING) ∧
    (v.player_lives = 3 - (k : Int) ∧ k ≤ 3 ∧
      (k = 3 → v.current_game_state = GameState.GAME_STATE_WAITING_RESTART) ∧
      (k < 3 → v.current_game_state = GameState.GAME_STATE_PLAYING)) := by
  have heq := simulationFrame_eq rand new_accel_x new_accel_y awsHighScore w w1 hupd
  refine ⟨?_, ?_, ?_⟩
  · intro hz
    rw [heq, if_pos hz]
    exact ⟨rfl, (endGame_keeps awsHighScore _).1⟩
  · intro hpos
    have hz : ¬ (checkCollisions rand w1).player_lives = 0 := by omega
    rw [heq, if_neg hz]
    refine ⟨rfl, ?_⟩
    have hframe : simulationFrame rand new_accel_x new_accel_y awsHighScore w
        = some (checkCollisions rand w1) := by
      rw [heq, if_neg hz]
    exact ((simulationFrame_effect rand new_accel_x new_accel_y awsHighScore w w1 _
      hmode hupd hframe).2.2.2.2.2 hz).2
  · obtain ⟨_, _, hl, hk, hp, hw⟩ := inRound_inv k v hround
    exact ⟨hl, hk, hw, hp⟩

/-- C22, instance: the first frame of a round on the boot state (no
collision), and the start of the round. -/
theorem game_over_after_third_collision_witness :
    ∃ w1 : World,
      updatePositions (fun _ => 0) 0 0
        { varInit (fun _ => 0) bootWorld with
          current_game_state := GameState.GAME_STATE_PLAYING } = some w1 ∧
      simulationFrame (fun _ => 0) 0 0 0
        { varInit (fun _ => 0) bootWorld with
          current_game_state := GameState.GAME_STATE_PLAYING }
        = some (checkCollisions (fun _ => 0) w1) ∧
      (checkCollisions (fun _ => 0) w1).current_game_state = GameState.GAME_STATE_PLAYING :=
  ⟨(updatePositions (fun _ => 0) 0 0
      { varInit (fun _ => 0) bootWorld with
        current_game_state := GameState.GAME_STATE_PLAYING }).get (by decide),
    (Option.some_get _).symm,
    (game_over_after_third_collision (fun _ => 0) 0 0 0
      { varInit (fun _ => 0) bootWorld with
        current_game_state := GameState.GAME_STATE_PLAYING }
      _ 0
      { varInit (fun _ => 0) bootWorld with
        current_game_state := GameState.GAME_STATE_PLAYING }
      rfl (Option.some_get _).symm
      (InRound.start (fun _ => 0) bootWorld rfl rfl rfl)).2.1 (by decide)⟩

set_option maxRecDepth 100000 in
/-- C24, counterexample: some state of a round, with lives left, is followed by
a frame whose `updatePositions` ends with a lower score (every `rand()` result
0, the ship steered to x = 52 and kept there). An explicit state of this kind,
with every invariant of a round state (pool invariant, mode playing, 3 lives,
score within the `int` range): five active obstacles and score 2147483642; the
obstacle in pool entry 0 (radius 12, speed tier 4) moves below the screen in the
next frame, its 48 points take the 32-bit sum past `INT_MAX`, and the frame ends
with score -2147483606. -/
theorem score_wraps_counterexample :
    (∃ w w1 : World, InRound 0 w ∧ w.player_lives ≠ 0 ∧
      updatePositions (fun _ => 0) 1 0 w = some w1 ∧ w1.player_score < w.player_score) ∧
    FieldInv scoreLimitState ∧
    scoreLimitState.current_game_state = GameState.GAME_STATE_PLAYING ∧
    scoreLimitState.player_lives = 3 ∧
    scoreLimitState.player_score = 2147483642 ∧
    scoreLimitState.player_score ≤ INT_MAX ∧
    (updatePositions (fun _ => 0) 0 0 scoreLimitState).map (fun w => w.player_score)
      = some (-2147483606) ∧
    (simulationFrame (fun _ => 0) 0 0 0 scoreLimitState).map
        (fun w => (w.player_lives, w.player_score, w.current_game_state))
      = some (3, -2147483606, GameState.GAME_STATE_PLAYING) ∧
    ¬ (scoreLimitState.player_score ≤ (-2147483606 : Int)) := by
  refine ⟨score_decrease_reachable, ⟨by decide, 5, by decide, by decide, ?_⟩, by decide,
    by decide, by decide, by decide, by decide, by decide, by decide⟩
  unfold PoolOK
  refine ⟨by decide, by decide, by decide, ?_, ?_, ?_, by decide⟩
  · intro i h5 hi
    omega
  · intro i hi _
    interval_cases i
    · exact ⟨⟨by decide, by decide, rfl, rfl⟩, 0, by decide, by decide, by decide⟩
    · exact ⟨⟨by decide, by decide, rfl, rfl⟩, 1, by decide, by decide, by decide⟩
    · exact ⟨⟨by decide, by decide, rfl, rfl⟩, 2, by decide, by decide, by decide⟩
    · exact ⟨⟨by decide, by decide, rfl, rfl⟩, 3, by decide, by decide, by decide⟩
    · exact ⟨⟨by decide, by decide, rfl, rfl⟩, 4, by decide, by decide, by decide⟩
  · intro i j hi hj _ _
    interval_cases i <;> interval_cases j <;> first | (intro _; rfl) | (intro h; exact absurd h (by decide))

/-- C24, amended: in every state of a round the lives are within 0..3 and the
score is within the 32-bit `int` range. From such a state with a score below
10^9 - 240, `updatePositions` returns. A frame run while lives are left
(`updatePositions`, then `checkCollisions`) leaves the lives within 0..3 and
does not change the score in `checkCollisions`; in `updatePositions` the score
either does not decrease (and grows by at most 240), or a sum has left the `int`
range and the score comes out at least 2^32 - 240 lower. The score does not
decrease when the score before the frame is at most `INT_MAX - 240`: a frame
awards at most 5 * 48 points. -/
theorem round_lives_and_score (rand : Nat → Nat) (new_accel_x new_accel_y : Int)
    (k : Nat) (w : World) (h : InRound k w) :
    0 ≤ w.player_lives ∧ w.player_lives ≤ 3 ∧
    -2147483648 ≤ w.player_score ∧ w.player_score ≤ INT_MAX ∧
    (w.player_score < 999999760 →
      ∃ w1 : World, updatePositions rand new_accel_x new_accel_y w = some w1) ∧
    (∀ w1 : World, w.player_lives ≠ 0 →
      updatePositions rand new_accel_x new_accel_y w = some w1 →
      ((w.player_score ≤ w1.player_score ∧ w1.player_score ≤ w.player_score + 240) ∨
        w1.player_score ≤ w.player_score + 240 - 4294967296) ∧
      (w.player_score ≤ INT_MAX - 240 →
        w.player_score ≤ w1.player_score ∧ w1.player_score ≤ w.player_score + 240) ∧
      (checkCollisions rand w1).player_score = w1.player_score ∧
      0 ≤ (checkCollisions rand w1).player_lives ∧
      (checkCollisions rand w1).player_lives ≤ 3 ∧
      (∀ (awsHighScore : Int) (w2 : World),
        simulationFrame rand new_accel_x new_accel_y awsHighScore w = some w2 →
        (w.player_score ≤ INT_MAX - 240 → w.player_score ≤ w2.player_score) ∧
        0 ≤ w2.player_lives ∧ w2.player_lives ≤ 3)) := by
  obtain ⟨hinv, hscore, hl, hk, hp, _⟩ := inRound_inv k w h
  refine ⟨by omega, by omega, hscore.1, hscore.2,
    updatePositions_isSome rand new_accel_x new_accel_y w hinv hscore.1, ?_⟩
  intro w1 hlives hupd
  have hk3 : k < 3 := by omega
  have hmode := hp hk3
  have hmono := updatePositions_score_le rand new_accel_x new_accel_y w w1 hinv hscore.1
  obtain ⟨hl1, _⟩ := updatePositions_keeps rand new_accel_x new_accel_y w w1 hupd
  obtain ⟨rl, rs, _⟩ := registerCollision_keeps rand w1
  have hcc : (checkCollisions rand w1).player_score = w1.player_score ∧
      0 ≤ (checkCollisions rand w1).player_lives ∧
      (checkCollisions rand w1).player_lives ≤ 3 := by
    rcases checkCollisions_cases rand w1 with ⟨_, heq⟩ | ⟨_, heq⟩
    · rw [heq]
      exact ⟨rfl, by omega, by omega⟩
    · rw [heq]
      exact ⟨rs, by omega, by omega⟩
  refine ⟨updatePositions_score_cases rand new_accel_x new_accel_y w w1 hinv hscore hupd,
    fun hhi => hmono hhi hupd, hcc.1, hcc.2.1, hcc.2.2, ?_⟩
  intro aws w2 hframe
  obtain ⟨e1, e2, _⟩ :=
    simulationFrame_effect rand new_accel_x new_accel_y aws w w1 w2 hmode hupd hframe
  rw [e1, e2]
  exact ⟨fun hhi => (hmono hhi hupd).1, hcc.2.1, hcc.2.2⟩

/-- C24, instance: the first frame of a round on the boot state. -/
theorem round_lives_and_score_witness :
    ∃ w1 : World,
      updatePositions (fun _ => 0) 0 0
        { varInit (fun _ => 0) bootWorld with
          current_game_state := GameState.GAME_STATE_PLAYING } = some w1 ∧
      ({ varInit (fun _ => 0) bootWorld with
          current_game_state := GameState.GAME_STATE_PLAYING } : World).player_score
        ≤ w1.player_score ∧
      (checkCollisions (fun _ => 0) w1).player_score = w1.player_score ∧
      0 ≤ (checkCollisions (fun _ => 0) w1).player_lives ∧
      (checkCollisions (fun _ => 0) w1).player_lives ≤ 3 :=
  match (round_lives_and_score (fun _ => 0) 0 0 0
      { varInit (fun _ => 0) bootWorld with
        current_game_state := GameState.GAME_STATE_PLAYING }
      (InRound.start (fun _ => 0) bootWorld rfl rfl rfl)).2.2.2.2.2
      ((updatePositions (fun _ => 0) 0 0
        { varInit (fun _ => 0) bootWorld with
          current_game_state := GameState.GAME_STATE_PLAYING }).get (by decide))
      (by decide) (Option.some_get _).symm with
  | ⟨_, e1, e2, e3, e4, _⟩ => ⟨_, (Option.some_get _).symm, (e1 (by decide)).1, e2, e3, e4⟩

end AsteroidAvoidance
